import Mathlib

/-! Privilege dropping and daemon start-up of `service_unix.go`.

A shallow embedding of `Info.serviceMain` and `ihandler.DropPrivileges`.

* The package-level flag variables, the `Info` record and the handler's
  `dropped` field are the fields of `State`.
* Everything outside the program (the process identity, the file system, the
  identity database, the supervisor socket, the PID file) is an abstract world
  `W`.  Each external function is a field of `Collab W`: a deterministic
  function of its arguments and the world, returning its Go results and the
  next world.  Nothing is assumed about these functions.
* A Go `error` is its message; `nil` is `none`.
* Every function returns, besides its Go result and the final state, the trace
  of collaborator calls it made, in order, each with arguments and results.
-/

namespace Service

/-- A Go `error` value, identified with its message; `nil` is `none`. -/
abbrev Error := String

/-- Modelled from the spec: the declaration of the `Info` struct is not in
`service_unix.go`; these are the fields the source reads and writes
(`NoBanSuid`, `AllowRoot`, `DefaultChroot`, `systemd`, `pidFileName`). -/
structure Info where
  NoBanSuid : Bool
  AllowRoot : Bool
  DefaultChroot : String
  systemd : Bool
  pidFileName : String
  deriving DecidableEq, Repr

/-- The program variables: the flags of lines 27-42 (the pointers are
dereferenced), the `Info` record the handler points to, the handler's `dropped`
field, and the world outside the program. -/
structure State (W : Type) where
  uidFlag : String
  gidFlag : String
  daemonizeFlag : Bool
  chrootFlag : String
  pidfileFlag : String
  forkFlag : Bool
  info : Info
  dropped : Bool
  world : W

/-- One call of an external function, with its arguments and what it returned. -/
inductive Event where
  | banSuid
  | getGIDForUID (uid : String) (gid : Int) (err : Option Error)
  | parseUID (text : String) (uid : Int) (err : Option Error)
  | parseGID (text : String) (gid : Int) (err : Option Error)
  | daemonDropPrivileges (uid gid : Int) (chrootPath : String)
      (chrootErr err : Option Error)
  | capsDrop (err : Option Error)
  | isRoot (res : Bool)
  | fork (isParent : Bool) (err : Option Error)
  | osExit (code : Int)
  | daemonInit (err : Option Error)
  | sdnotifySend (status : String) (err : Option Error)
  | daemonize (err : Option Error)
  | openPIDFile (name : String) (err : Option Error)
  | closePIDFile
  | runInteractively (err : Option Error)
  deriving DecidableEq, Repr

/-- The external functions the source calls.  A function with Go results
`(v, err)` returns both, as in Go; the source decides what to read.
`runInteractively` is a method of `Info` defined in another file of the
package: it may change every program variable as well as the world, and is
assumed to return. -/
structure Collab (W : Type) where
  banSuid : W → W
  getGIDForUID : String → W → (Int × Option Error) × W
  parseUID : String → W → (Int × Option Error) × W
  parseGID : String → W → (Int × Option Error) × W
  daemonDropPrivileges : Int → Int → String → W → (Option Error × Option Error) × W
  capsDrop : W → Option Error × W
  isRoot : W → Bool × W
  fork : W → (Bool × Option Error) × W
  daemonInit : W → Option Error × W
  sdnotifySend : String → W → Option Error × W
  daemonize : W → Option Error × W
  openPIDFile : String → W → Option Error × W
  closePIDFile : W → W
  runInteractively : State W → Option Error × State W

/-- What one call of `DropPrivileges` leaves behind: the returned error, the
state and the collaborator calls made. -/
structure Result (W : Type) where
  err : Option Error
  st : State W
  trace : List Event

/-- Go conversion `int64(x)`: the value wrapped into the signed 64-bit range
(the identity on every value of a Go integer type). -/
def int64 (x : Int) : Int :=
  (x + 2 ^ 63) % 2 ^ 64 - 2 ^ 63

/-- The Go call `strconv.FormatInt(x, 10)`. -/
def formatInt (x : Int) : String :=
  toString x

/-- Lines 169-180 of `DropPrivileges`: capability clearing, the root check and
the assignment of `dropped`.  `tr` is the trace so far. -/
def capsAndRootCheck {W : Type} (c : Collab W) (s : State W) (tr : List Event) :
    Result W :=
  let r := c.capsDrop s.world
  let s1 : State W := { s with world := r.2 }
  let tr1 := tr ++ [Event.capsDrop r.1]
  match r.1 with
  | some e => ⟨some ("cannot drop caps: " ++ e), s1, tr1⟩
  | none =>
    if s1.info.AllowRoot = false then
      let q := c.isRoot s1.world
      let s2 : State W := { s1 with world := q.2 }
      let tr2 := tr1 ++ [Event.isRoot q.1]
      if q.1 = true then
        ⟨some "Daemon must not run as root or with capabilities; run as non-root user or use -uid",
          s2, tr2⟩
      else ⟨none, { s2 with dropped := true }, tr2⟩
    else ⟨none, { s1 with dropped := true }, tr1⟩

/-- Lines 157-167 of `DropPrivileges`: the transition when `uid > 0`, otherwise
the rejection of a chroot request without an identity.  `Sum.inl` is an early
return, `Sum.inr` falls through to capability clearing. -/
def dropStep {W : Type} (c : Collab W) (s : State W) (tr : List Event)
    (uid gid : Int) (chrootPath : String) : Result W ⊕ (State W × List Event) :=
  if uid > 0 then
    let r := c.daemonDropPrivileges uid gid chrootPath s.world
    let s1 : State W := { s with world := r.2 }
    let tr1 := tr ++ [Event.daemonDropPrivileges uid gid chrootPath r.1.1 r.1.2]
    match r.1.2 with
    | some e => Sum.inl ⟨some ("Failed to drop privileges: " ++ e), s1, tr1⟩
    | none =>
      match r.1.1 with
      | some ce =>
        if s1.chrootFlag ≠ "" ∧ s1.chrootFlag ≠ "/" then
          Sum.inl ⟨some ("Failed to chroot: " ++ ce), s1, tr1⟩
        else Sum.inr (s1, tr1)
      | none => Sum.inr (s1, tr1)
  else if s.chrootFlag ≠ "" ∧ s.chrootFlag ≠ "/" then
    Sum.inl ⟨some "Must use privilege dropping to use chroot; set -uid", s, tr⟩
  else Sum.inr (s, tr)

/-- Lines 138-155 of `DropPrivileges`: `uid` and `gid` start at -1 and are
parsed only when the UID flag is non-empty; then the both-or-neither check.
`Sum.inr` carries the state, the trace, `uid` and `gid`. -/
def parseIDs {W : Type} (c : Collab W) (s : State W) (tr : List Event) :
    Result W ⊕ (State W × List Event × Int × Int) :=
  let check (s : State W) (tr : List Event) (uid gid : Int) :
      Result W ⊕ (State W × List Event × Int × Int) :=
    if (decide (uid ≤ 0) != decide (gid ≤ 0)) = true then
      Sum.inl ⟨some "Either both or neither of the UID and GID must be positive", s, tr⟩
    else Sum.inr (s, tr, uid, gid)
  if s.uidFlag ≠ "" then
    let r := c.parseUID s.uidFlag s.world
    let s1 : State W := { s with world := r.2 }
    let tr1 := tr ++ [Event.parseUID s.uidFlag r.1.1 r.1.2]
    match r.1.2 with
    | some e => Sum.inl ⟨some e, s1, tr1⟩
    | none =>
      let q := c.parseGID s1.gidFlag s1.world
      let s2 : State W := { s1 with world := q.2 }
      let tr2 := tr1 ++ [Event.parseGID s1.gidFlag q.1.1 q.1.2]
      match q.1.2 with
      | some e => Sum.inl ⟨some e, s2, tr2⟩
      | none => check s2 tr2 r.1.1 q.1.1
  else check s tr (-1) (-1)

/-- Lines 111-127 of `DropPrivileges`: the best-effort `BanSuid` call and the
GID backfill from the identity database. -/
def fixups {W : Type} (c : Collab W) (s : State W) :
    Result W ⊕ (State W × List Event) :=
  let s0 : State W :=
    { s with world := if s.info.NoBanSuid = false then c.banSuid s.world else s.world }
  let tr0 : List Event := if s.info.NoBanSuid = false then [Event.banSuid] else []
  if s0.uidFlag ≠ "" ∧ s0.gidFlag = "" then
    let r := c.getGIDForUID s0.uidFlag s0.world
    let s1 : State W := { s0 with world := r.2 }
    let tr1 := tr0 ++ [Event.getGIDForUID s0.uidFlag r.1.1 r.1.2]
    match r.1.2 with
    | some e => Sum.inl ⟨some e, s1, tr1⟩
    | none => Sum.inr ({ s1 with gidFlag := formatInt (int64 r.1.1) }, tr1)
  else Sum.inr (s0, tr0)

/-- Lines 129-131 of `DropPrivileges`: an empty `DefaultChroot` becomes "/". -/
def fixDefaultChroot {W : Type} (s : State W) : State W :=
  { s with info := { s.info with
      DefaultChroot := if s.info.DefaultChroot = "" then "/" else s.info.DefaultChroot } }

/-- Lines 133-136 of `DropPrivileges`: the chroot flag, or `DefaultChroot` when
the flag is empty. -/
def selectChroot {W : Type} (s : State W) : String :=
  if s.chrootFlag = "" then s.info.DefaultChroot else s.chrootFlag

/-- Lines 111-167 of `DropPrivileges`: every step before capability clearing.
`Sum.inl` is an early return of the function, `Sum.inr` the state and trace
with which line 169 is reached. -/
def dropPrefix {W : Type} (c : Collab W) (s : State W) :
    Result W ⊕ (State W × List Event) :=
  match fixups c s with
  | Sum.inl r => Sum.inl r
  | Sum.inr (s1, tr1) =>
    let s2 := fixDefaultChroot s1
    let chrootPath := selectChroot s2
    match parseIDs c s2 tr1 with
    | Sum.inl r => Sum.inl r
    | Sum.inr (s3, tr3, uid, gid) => dropStep c s3 tr3 uid gid chrootPath

/-- The method `ihandler.DropPrivileges` (lines 106-181). -/
def DropPrivileges {W : Type} (c : Collab W) (s : State W) : Result W :=
  if s.dropped = true then ⟨none, s, []⟩
  else
    match dropPrefix c s with
    | Sum.inl r => r
    | Sum.inr (s1, tr1) => capsAndRootCheck c s1 tr1

/-- How a call of `serviceMain` ends: it returns its `error`, or the process
is terminated by `os.Exit`. -/
inductive Outcome where
  | returned (err : Option Error)
  | exited (code : Int)
  deriving DecidableEq, Repr

/-- What one call of `serviceMain` leaves behind. -/
structure MainResult (W : Type) where
  outcome : Outcome
  st : State W
  trace : List Event

/-- Lines 84-96 of `serviceMain`: PID-file acquisition when a path is
configured, the entry point, and the deferred `closePIDFile`, which runs when
the function returns after the `defer` statement was executed. -/
def pidFileAndRun {W : Type} (c : Collab W) (s : State W) (tr : List Event) :
    MainResult W :=
  if s.pidfileFlag ≠ "" then
    let s1 : State W := { s with info := { s.info with pidFileName := s.pidfileFlag } }
    let r := c.openPIDFile s1.info.pidFileName s1.world
    let s2 : State W := { s1 with world := r.2 }
    let tr2 := tr ++ [Event.openPIDFile s1.info.pidFileName r.1]
    match r.1 with
    | some e => ⟨Outcome.returned (some e), s2, tr2⟩
    | none =>
      let q := c.runInteractively s2
      let tr3 := tr2 ++ [Event.runInteractively q.1]
      let s4 : State W := { q.2 with world := c.closePIDFile q.2.world }
      ⟨Outcome.returned q.1, s4, tr3 ++ [Event.closePIDFile]⟩
  else
    let q := c.runInteractively s
    ⟨Outcome.returned q.1, q.2, tr ++ [Event.runInteractively q.1]⟩

/-- Lines 67-96 of `serviceMain`: `daemon.Init`, the supervisor notification,
`daemon.Daemonize` when the daemon flag or `info.systemd` is set, then the PID
file and the entry point. -/
def serviceMainFromInit {W : Type} (c : Collab W) (s : State W) (tr : List Event) :
    MainResult W :=
  let r := c.daemonInit s.world
  let s1 : State W := { s with world := r.2 }
  let tr1 := tr ++ [Event.daemonInit r.1]
  match r.1 with
  | some e => ⟨Outcome.returned (some e), s1, tr1⟩
  | none =>
    let n := c.sdnotifySend "\n" s1.world
    let s2 : State W :=
      { s1 with world := n.2,
                info := { s1.info with systemd := if n.1 = none then true else s1.info.systemd } }
    let tr2 := tr1 ++ [Event.sdnotifySend "\n" n.1]
    if s2.daemonizeFlag = true ∨ s2.info.systemd = true then
      let d := c.daemonize s2.world
      let s3 : State W := { s2 with world := d.2 }
      let tr3 := tr2 ++ [Event.daemonize d.1]
      match d.1 with
      | some e => ⟨Outcome.returned (some e), s3, tr3⟩
      | none => pidFileAndRun c s3 tr3
    else pidFileAndRun c s2 tr2

/-- The method `Info.serviceMain` (lines 53-96). -/
def serviceMain {W : Type} (c : Collab W) (s : State W) : MainResult W :=
  if s.forkFlag = true then
    let r := c.fork s.world
    let s1 : State W := { s with world := r.2 }
    let tr1 := [Event.fork r.1.1 r.1.2]
    match r.1.2 with
    | some e => ⟨Outcome.returned (some e), s1, tr1⟩
    | none =>
      if r.1.1 = true then ⟨Outcome.exited 0, s1, tr1 ++ [Event.osExit 0]⟩
      else serviceMainFromInit c { s1 with daemonizeFlag := true } tr1
  else serviceMainFromInit c s []

/-! ## Sequences of calls -/

/-- The results of `n` consecutive calls of `DropPrivileges` on one handler:
the returned errors in call order, the final state, and the concatenated
trace. -/
def dropCalls {W : Type} (c : Collab W) : Nat → State W →
    List (Option Error) × State W × List Event
  | 0, s => ([], s, [])
  | n + 1, s =>
    let r := DropPrivileges c s
    let rest := dropCalls c n r.st
    (r.err :: rest.1, rest.2.1, r.trace ++ rest.2.2)

/-- Number of calls, in a list of returned errors, that returned an error. -/
def failures (errs : List (Option Error)) : Nat :=
  (errs.filter Option.isSome).length

/-- Recognises a call of the OS-level transition `daemon.DropPrivileges`. -/
def Event.isTransition : Event → Bool
  | Event.daemonDropPrivileges _ _ _ _ _ => true
  | _ => false

/-- Recognises a call of `caps.Drop`. -/
def Event.isCapsDrop : Event → Bool
  | Event.capsDrop _ => true
  | _ => false

/-- Number of calls of the OS-level transition in a trace. -/
def transitions (tr : List Event) : Nat :=
  tr.countP Event.isTransition

/-! ## Concrete collaborators used to evaluate the model -/

/-- A parser that knows the texts "1000", "0" and "5"; any other text is a
parse error with value 0. -/
def stubParse (text : String) : Int × Option Error :=
  if text = "1000" then (1000, none)
  else if text = "0" then (0, none)
  else if text = "5" then (5, none)
  else (0, some ("invalid syntax: " ++ text))

/-- Collaborators over a world that counts the calls of `caps.Drop`: every
call succeeds, except that `caps.Drop` fails while fewer than `capsFail` calls
of it have been made and the transition reports `chrootErr` as its
chroot-specific error; the identity database maps every UID to GID 1000;
`IsRoot` reports `root`. -/
def stub (capsFail : Nat) (chrootErr : Option Error) (root : Bool) : Collab Nat where
  banSuid := fun w => w
  getGIDForUID := fun _ w => ((1000, none), w)
  parseUID := fun text w => (stubParse text, w)
  parseGID := fun text w => (stubParse text, w)
  daemonDropPrivileges := fun _ _ _ w => ((chrootErr, none), w)
  capsDrop := fun w => (if w < capsFail then some "operation not permitted" else none, w + 1)
  isRoot := fun w => (root, w)
  fork := fun w => ((false, none), w)
  daemonInit := fun w => (none, w)
  sdnotifySend := fun _ w => (some "no supervisor", w)
  daemonize := fun w => (none, w)
  openPIDFile := fun _ w => (none, w)
  closePIDFile := fun w => w
  runInteractively := fun s => (none, s)

/-- Collaborators whose identity database knows no user: as `stub`, but the
GID lookup fails. -/
def stubNoUser : Collab Nat :=
  { stub 0 none false with getGIDForUID := fun _ w => ((0, some "unknown user"), w) }

/-- A state with the given UID, GID and chroot flags, every other flag at its
default, `DefaultChroot` "/var/empty", not dropped. -/
def flagsState (uid gid chroot : String) : State Nat where
  uidFlag := uid
  gidFlag := gid
  daemonizeFlag := false
  chrootFlag := chroot
  pidfileFlag := ""
  forkFlag := false
  info := ⟨false, false, "/var/empty", false, ""⟩
  dropped := false
  world := 0

/-- Collaborators for `serviceMain`: as `stub`, but `Fork` reports `parent`,
PID-file acquisition returns `openErr` and the entry point returns `runErr`. -/
def mainStub (parent : Bool) (openErr runErr : Option Error) : Collab Nat :=
  { stub 0 none false with
    fork := fun w => ((parent, none), w)
    openPIDFile := fun _ w => (openErr, w)
    runInteractively := fun s => (runErr, s) }

/-- A state with the given fork flag and PID-file flag, every other flag at
its default. -/
def mainState (fork : Bool) (pidfile : String) : State Nat :=
  { flagsState "" "" "" with forkFlag := fork, pidfileFlag := pidfile }

/-! ## The paths through `DropPrivileges`

Every run of `DropPrivileges` from `dropped = false` follows one of the paths
below.  The predicates describe the trace, the returned error and the final
value of `dropped` of each path; `DropPrivileges_run` proves that the function
satisfies them. -/

/-- The trace of line 117: the `BanSuid` call unless `NoBanSuid` is set. -/
def banTrace {W : Type} (s : State W) : List Event :=
  if s.info.NoBanSuid = false then [Event.banSuid] else []

/-- The chroot path computed by lines 129-136 from the initial state. -/
def chrootPathOf {W : Type} (s : State W) : String :=
  if s.chrootFlag = "" then
    (if s.info.DefaultChroot = "" then "/" else s.info.DefaultChroot)
  else s.chrootFlag

/-- The program variables that `DropPrivileges` never assigns before line 179
have the same value in both states. -/
def Frame {W : Type} (s t : State W) : Prop :=
  t.uidFlag = s.uidFlag ∧ t.chrootFlag = s.chrootFlag ∧ t.daemonizeFlag = s.daemonizeFlag
  ∧ t.pidfileFlag = s.pidfileFlag ∧ t.forkFlag = s.forkFlag ∧ t.dropped = s.dropped
  ∧ t.info.NoBanSuid = s.info.NoBanSuid ∧ t.info.AllowRoot = s.info.AllowRoot
  ∧ t.info.systemd = s.info.systemd ∧ t.info.pidFileName = s.info.pidFileName

/-- Traces with which line 129 is reached: `BanSuid`, then a successful GID
lookup exactly when the UID flag is set and the GID flag is empty. -/
inductive FixupsOk {W : Type} (s : State W) : List Event → Prop where
  | skip : ¬ (s.uidFlag ≠ "" ∧ s.gidFlag = "") → FixupsOk s (banTrace s)
  | backfill (g : Int) : s.uidFlag ≠ "" → s.gidFlag = "" →
      FixupsOk s (banTrace s ++ [Event.getGIDForUID s.uidFlag g none])

/-- Traces with which line 157 is reached, with the values of `uid` and `gid`. -/
inductive ParsedOk {W : Type} (s : State W) : List Event → Int → Int → Prop where
  | unset (l : List Event) : FixupsOk s l → s.uidFlag = "" → ParsedOk s l (-1) (-1)
  | parsed (l : List Event) (t : String) (u g : Int) : FixupsOk s l → s.uidFlag ≠ "" →
      (u ≤ 0 ↔ g ≤ 0) →
      ParsedOk s (l ++ [Event.parseUID s.uidFlag u none, Event.parseGID t g none]) u g

/-- Traces with which line 169 is reached. -/
inductive DroppedOk {W : Type} (s : State W) : List Event → Prop where
  | noIdentity (p : List Event) (u g : Int) : ParsedOk s p u g → u ≤ 0 →
      ¬ (s.chrootFlag ≠ "" ∧ s.chrootFlag ≠ "/") → DroppedOk s p
  | transition (p : List Event) (u g : Int) (ce : Option Error) : ParsedOk s p u g →
      0 < u → (ce = none ∨ ¬ (s.chrootFlag ≠ "" ∧ s.chrootFlag ≠ "/")) →
      DroppedOk s (p ++ [Event.daemonDropPrivileges u g (chrootPathOf s) ce none])

/-- The early returns of lines 120-167: the returned error and the trace. -/
inductive Early {W : Type} (s : State W) : Error → List Event → Prop where
  | lookupFailed (g : Int) (e : Error) : s.uidFlag ≠ "" → s.gidFlag = "" →
      Early s e (banTrace s ++ [Event.getGIDForUID s.uidFlag g (some e)])
  | parseUIDFailed (l : List Event) (u : Int) (e : Error) : FixupsOk s l → s.uidFlag ≠ "" →
      Early s e (l ++ [Event.parseUID s.uidFlag u (some e)])
  | parseGIDFailed (l : List Event) (t : String) (u g : Int) (e : Error) : FixupsOk s l →
      s.uidFlag ≠ "" →
      Early s e (l ++ [Event.parseUID s.uidFlag u none, Event.parseGID t g (some e)])
  | mismatch (l : List Event) (t : String) (u g : Int) : FixupsOk s l → s.uidFlag ≠ "" →
      ¬ (u ≤ 0 ↔ g ≤ 0) →
      Early s "Either both or neither of the UID and GID must be positive"
        (l ++ [Event.parseUID s.uidFlag u none, Event.parseGID t g none])
  | transitionFailed (p : List Event) (u g : Int) (ce : Option Error) (e : Error) :
      ParsedOk s p u g → 0 < u →
      Early s ("Failed to drop privileges: " ++ e)
        (p ++ [Event.daemonDropPrivileges u g (chrootPathOf s) ce (some e)])
  | chrootFailed (p : List Event) (u g : Int) (ce : Error) : ParsedOk s p u g → 0 < u →
      s.chrootFlag ≠ "" → s.chrootFlag ≠ "/" →
      Early s ("Failed to chroot: " ++ ce)
        (p ++ [Event.daemonDropPrivileges u g (chrootPathOf s) (some ce) none])
  | chrootWithoutIdentity (p : List Event) (u g : Int) : ParsedOk s p u g → u ≤ 0 →
      s.chrootFlag ≠ "" → s.chrootFlag ≠ "/" →
      Early s "Must use privilege dropping to use chroot; set -uid" p

/-- The paths of a call from `dropped = false`: the returned error, the final
value of `dropped`, and the trace. -/
inductive Run {W : Type} (s : State W) : Option Error → Bool → List Event → Prop where
  | early (e : Error) (tr : List Event) : Early s e tr → Run s (some e) false tr
  | capsFailed (d : List Event) (e : Error) : DroppedOk s d →
      Run s (some ("cannot drop caps: " ++ e)) false (d ++ [Event.capsDrop (some e)])
  | stillRoot (d : List Event) : DroppedOk s d → s.info.AllowRoot = false →
      Run s
        (some "Daemon must not run as root or with capabilities; run as non-root user or use -uid")
        false (d ++ [Event.capsDrop none, Event.isRoot true])
  | checked (d : List Event) : DroppedOk s d → s.info.AllowRoot = false →
      Run s none true (d ++ [Event.capsDrop none, Event.isRoot false])
  | rootAllowed (d : List Event) : DroppedOk s d → s.info.AllowRoot = true →
      Run s none true (d ++ [Event.capsDrop none])

/-! ## The paths through `serviceMain` -/

/-- Traces with which line 67 is reached, with the value of the daemon flag
there: no fork, or the child of a successful fork. -/
inductive ForkOk {W : Type} (s : State W) : List Event → Bool → Prop where
  | noFork : s.forkFlag = false → ForkOk s [] s.daemonizeFlag
  | child : s.forkFlag = true → ForkOk s [Event.fork false none] true

/-- Traces with which line 84 is reached: `Daemonize` was called exactly when
the daemon flag or `info.systemd` was set at line 77. -/
inductive DaemonOk {W : Type} (s : State W) : List Event → Prop where
  | foreground (f : List Event) (df : Bool) (n : Option Error) : ForkOk s f df →
      ¬ (df = true ∨ s.info.systemd = true ∨ n = none) →
      DaemonOk s (f ++ [Event.daemonInit none, Event.sdnotifySend "\n" n])
  | daemonized (f : List Event) (df : Bool) (n : Option Error) : ForkOk s f df →
      (df = true ∨ s.info.systemd = true ∨ n = none) →
      DaemonOk s (f ++ [Event.daemonInit none, Event.sdnotifySend "\n" n, Event.daemonize none])

/-- The paths of a call of `serviceMain`: how it ends, and the trace. -/
inductive MainRun {W : Type} (s : State W) : Outcome → List Event → Prop where
  | forkFailed (b : Bool) (e : Error) : s.forkFlag = true →
      MainRun s (Outcome.returned (some e)) [Event.fork b (some e)]
  | parentExit : s.forkFlag = true →
      MainRun s (Outcome.exited 0) [Event.fork true none, Event.osExit 0]
  | initFailed (f : List Event) (df : Bool) (e : Error) : ForkOk s f df →
      MainRun s (Outcome.returned (some e)) (f ++ [Event.daemonInit (some e)])
  | daemonizeFailed (f : List Event) (df : Bool) (n : Option Error) (e : Error) :
      ForkOk s f df → (df = true ∨ s.info.systemd = true ∨ n = none) →
      MainRun s (Outcome.returned (some e))
        (f ++ [Event.daemonInit none, Event.sdnotifySend "\n" n, Event.daemonize (some e)])
  | openFailed (d : List Event) (e : Error) : DaemonOk s d → s.pidfileFlag ≠ "" →
      MainRun s (Outcome.returned (some e)) (d ++ [Event.openPIDFile s.pidfileFlag (some e)])
  | ranWithPIDFile (d : List Event) (x : Option Error) : DaemonOk s d → s.pidfileFlag ≠ "" →
      MainRun s (Outcome.returned x)
        (d ++ [Event.openPIDFile s.pidfileFlag none, Event.runInteractively x,
          Event.closePIDFile])
  | ran (d : List Event) (x : Option Error) : DaemonOk s d → s.pidfileFlag = "" →
      MainRun s (Outcome.returned x) (d ++ [Event.runInteractively x])

/-- The error of a failed `Fork`, `Init`, `Daemonize` or PID-file acquisition;
`none` for every other event. -/
def Event.failure : Event → Option Error
  | Event.fork _ (some e) => some e
  | Event.daemonInit (some e) => some e
  | Event.daemonize (some e) => some e
  | Event.openPIDFile _ (some e) => some e
  | _ => none

/-- The events of start-up before PID-file acquisition, without failure:
a fork into the child, `Init`, the notification, `Daemonize`. -/
def Event.isStartup : Event → Bool
  | Event.fork false none => true
  | Event.daemonInit none => true
  | Event.sdnotifySend _ _ => true
  | Event.daemonize none => true
  | _ => false

/-- The events of a successful prelude: `BanSuid`, and a lookup or a parse that
reported no error. -/
def Event.isPrelude : Event → Bool
  | Event.banSuid => true
  | Event.getGIDForUID _ _ none => true
  | Event.parseUID _ _ none => true
  | Event.parseGID _ _ none => true
  | _ => false

/-- The events before the identifiers are parsed: `BanSuid` and a lookup that
reported no error. -/
def Event.isLookup : Event → Bool
  | Event.banSuid => true
  | Event.getGIDForUID _ _ none => true
  | _ => false

/-- The events of lines 169-175: capability clearing and the root check. -/
def Event.isLate : Event → Bool
  | Event.capsDrop _ => true
  | Event.isRoot _ => true
  | _ => false

/-- As `flagsState`, for a service that configured no `DefaultChroot`. -/
def bareState (uid gid chroot : String) : State Nat :=
  { flagsState uid gid chroot with info := ⟨false, false, "", false, ""⟩ }

/-- Recognises a call of the entry point `runInteractively`. -/
def Event.isEntry : Event → Bool
  | Event.runInteractively _ => true
  | _ => false

/-- Recognises a call of `daemon.Daemonize`. -/
def Event.isDaemonize : Event → Bool
  | Event.daemonize _ => true
  | _ => false

/-- Modelled from the spec: the value of `daemon.EmptyChrootPath` (line 25) is
defined outside `service_unix.go`; the comment of lines 19-24 says that on Linux
it is "/var/empty". -/
def EmptyChrootPath : String := "/var/empty"

/-- The events of lines 84-96: PID-file acquisition, the entry point and the
PID-file release. -/
def Event.isPidPhase : Event → Bool
  | Event.openPIDFile _ _ => true
  | Event.runInteractively _ => true
  | Event.closePIDFile => true
  | _ => false

/-- The state with which the entry point is called after lines 85-87: the
PID-file name stored in `info`, and the world `OpenPIDFile` left. -/
def afterOpen {W : Type} (c : Collab W) (s : State W) : State W :=
  { s with info := { s.info with pidFileName := s.pidfileFlag },
           world := (c.openPIDFile s.pidfileFlag s.world).2 }

/-- An observer of the world that counts the releases of the PID file:
`closePIDFile` raises it by one, and no other collaborator of `serviceMain`
changes it. -/
def ReleaseCounter {W : Type} (c : Collab W) (cnt : W → Nat) : Prop :=
  (∀ w, cnt (c.fork w).2 = cnt w)
  ∧ (∀ w, cnt (c.daemonInit w).2 = cnt w)
  ∧ (∀ t w, cnt (c.sdnotifySend t w).2 = cnt w)
  ∧ (∀ w, cnt (c.daemonize w).2 = cnt w)
  ∧ (∀ n w, cnt (c.openPIDFile n w).2 = cnt w)
  ∧ (∀ st, cnt (c.runInteractively st).2.world = cnt st.world)
  ∧ (∀ w, cnt (c.closePIDFile w) = cnt w + 1)

/-- Collaborators for `serviceMain` whose world is the number of PID-file
releases made: as `mainStub` in the child, but `closePIDFile` adds one to the
world. -/
def releaseStub (openErr runErr : Option Error) : Collab Nat :=
  { mainStub false openErr runErr with closePIDFile := fun w => w + 1 }

/-! ## Theorems -/

/-! ### The stages of `DropPrivileges` -/

theorem Frame_refl {W : Type} (s : State W) : Frame s s := by
  simp [Frame]

theorem Frame_trans {W : Type} {s t u : State W} (h1 : Frame s t) (h2 : Frame t u) :
    Frame s u := by
  simp only [Frame] at *
  simp [h1, h2]

theorem fixups_inl {W : Type} (c : Collab W) (s : State W) (r : Result W)
    (h : fixups c s = Sum.inl r) :
    ∃ g e, s.uidFlag ≠ "" ∧ s.gidFlag = "" ∧ r.err = some e
      ∧ r.trace = banTrace s ++ [Event.getGIDForUID s.uidFlag g (some e)] ∧ Frame s r.st := by
  simp only [fixups] at h
  split at h
  next hc =>
    split at h
    next e he =>
      simp only [Sum.inl.injEq] at h
      subst h
      exact ⟨_, e, hc.1, hc.2, rfl, by rw [he]; rfl, by simp [Frame]⟩
    next => simp at h
  next => simp at h

theorem fixups_inr {W : Type} (c : Collab W) (s s1 : State W) (l : List Event)
    (h : fixups c s = Sum.inr (s1, l)) :
    FixupsOk s l ∧ Frame s s1 ∧ s1.info = s.info := by
  simp only [fixups] at h
  split at h
  next hc =>
    split at h
    next => simp at h
    next he =>
      simp only [Sum.inr.injEq, Prod.mk.injEq] at h
      obtain ⟨h1, h2⟩ := h
      subst h1 h2
      refine ⟨?_, by simp [Frame], rfl⟩
      rw [he]
      exact FixupsOk.backfill _ hc.1 hc.2
  next hc =>
    simp only [Sum.inr.injEq, Prod.mk.injEq] at h
    obtain ⟨h1, h2⟩ := h
    subst h1 h2
    exact ⟨FixupsOk.skip hc, by simp [Frame], rfl⟩

theorem parseIDs_inl {W : Type} (c : Collab W) (s : State W) (tr : List Event)
    (r : Result W) (h : parseIDs c s tr = Sum.inl r) :
    Frame s r.st ∧ s.uidFlag ≠ "" ∧
    ((∃ u e, r.err = some e ∧ r.trace = tr ++ [Event.parseUID s.uidFlag u (some e)])
    ∨ (∃ u g e, r.err = some e
        ∧ r.trace = tr ++ [Event.parseUID s.uidFlag u none, Event.parseGID s.gidFlag g (some e)])
    ∨ (∃ u g, ¬ (u ≤ 0 ↔ g ≤ 0)
        ∧ r.err = some "Either both or neither of the UID and GID must be positive"
        ∧ r.trace = tr ++ [Event.parseUID s.uidFlag u none, Event.parseGID s.gidFlag g none])) := by
  simp only [parseIDs] at h
  split at h
  next hu =>
    split at h
    next e he =>
      simp only [Sum.inl.injEq] at h
      subst h
      exact ⟨by simp [Frame], hu, Or.inl ⟨_, e, rfl, by rw [he]⟩⟩
    next he =>
      split at h
      next e hg =>
        simp only [Sum.inl.injEq] at h
        subst h
        exact ⟨by simp [Frame], hu, Or.inr (Or.inl ⟨_, _, e, rfl, by rw [he, hg]; exact List.append_assoc _ _ _⟩)⟩
      next hg =>
        split at h
        next hm =>
          simp only [Sum.inl.injEq] at h
          subst h
          refine ⟨by simp [Frame], hu, Or.inr (Or.inr ⟨(c.parseUID s.uidFlag s.world).1.1,
            (c.parseGID s.gidFlag (c.parseUID s.uidFlag s.world).2).1.1, ?_, rfl, ?_⟩)⟩
          · simpa using hm
          · rw [he, hg]; exact List.append_assoc _ _ _
        next => simp at h
  next hu =>
    split at h
    next hm => simp at hm
    next => simp at h

theorem parseIDs_inr {W : Type} (c : Collab W) (s s1 : State W) (tr tr1 : List Event)
    (u g : Int) (h : parseIDs c s tr = Sum.inr (s1, tr1, u, g)) :
    Frame s s1 ∧ s1.info = s.info ∧
    ((s.uidFlag = "" ∧ tr1 = tr ∧ u = -1 ∧ g = -1)
    ∨ (s.uidFlag ≠ "" ∧ (u ≤ 0 ↔ g ≤ 0)
        ∧ tr1 = tr ++ [Event.parseUID s.uidFlag u none, Event.parseGID s.gidFlag g none])) := by
  simp only [parseIDs] at h
  split at h
  next hu =>
    split at h
    next => simp at h
    next he =>
      split at h
      next => simp at h
      next hg =>
        split at h
        next => simp at h
        next hm =>
          simp only [Sum.inr.injEq, Prod.mk.injEq] at h
          obtain ⟨h1, h2, h3, h4⟩ := h
          subst h1 h2 h3 h4
          refine ⟨by simp [Frame], rfl, Or.inr ⟨hu, ?_, by rw [he, hg]; simp⟩⟩
          simpa using hm
  next hu =>
    split at h
    next => simp at h
    next =>
      simp only [Sum.inr.injEq, Prod.mk.injEq] at h
      obtain ⟨h1, h2, h3, h4⟩ := h
      subst h1 h2 h3 h4
      exact ⟨Frame_refl _, rfl, Or.inl ⟨by simpa using hu, rfl, rfl, rfl⟩⟩

theorem dropStep_inl {W : Type} (c : Collab W) (s : State W) (tr : List Event)
    (u g : Int) (path : String) (r : Result W) (h : dropStep c s tr u g path = Sum.inl r) :
    Frame s r.st ∧
    ((∃ ce e, 0 < u ∧ r.err = some ("Failed to drop privileges: " ++ e)
        ∧ r.trace = tr ++ [Event.daemonDropPrivileges u g path ce (some e)])
    ∨ (∃ ce, 0 < u ∧ s.chrootFlag ≠ "" ∧ s.chrootFlag ≠ "/"
        ∧ r.err = some ("Failed to chroot: " ++ ce)
        ∧ r.trace = tr ++ [Event.daemonDropPrivileges u g path (some ce) none])
    ∨ (u ≤ 0 ∧ s.chrootFlag ≠ "" ∧ s.chrootFlag ≠ "/"
        ∧ r.err = some "Must use privilege dropping to use chroot; set -uid"
        ∧ r.trace = tr)) := by
  simp only [dropStep] at h
  split at h
  next hu =>
    split at h
    next e he =>
      simp only [Sum.inl.injEq] at h
      subst h
      exact ⟨by simp [Frame], Or.inl ⟨_, e, hu, rfl, by rw [he]⟩⟩
    next he =>
      split at h
      next ce hce =>
        split at h
        next hc =>
          simp only [Sum.inl.injEq] at h
          subst h
          exact ⟨by simp [Frame], Or.inr (Or.inl ⟨ce, hu, hc.1, hc.2, rfl, by rw [he, hce]⟩)⟩
        next => simp at h
      next => simp at h
  next hu =>
    split at h
    next hc =>
      simp only [Sum.inl.injEq] at h
      subst h
      exact ⟨Frame_refl _, Or.inr (Or.inr ⟨by omega, hc.1, hc.2, rfl, rfl⟩)⟩
    next => simp at h

theorem dropStep_inr {W : Type} (c : Collab W) (s s1 : State W) (tr tr1 : List Event)
    (u g : Int) (path : String) (h : dropStep c s tr u g path = Sum.inr (s1, tr1)) :
    Frame s s1 ∧ s1.info = s.info ∧
    ((u ≤ 0 ∧ ¬ (s.chrootFlag ≠ "" ∧ s.chrootFlag ≠ "/") ∧ tr1 = tr)
    ∨ (∃ ce, 0 < u ∧ (ce = none ∨ ¬ (s.chrootFlag ≠ "" ∧ s.chrootFlag ≠ "/"))
        ∧ tr1 = tr ++ [Event.daemonDropPrivileges u g path ce none])) := by
  simp only [dropStep] at h
  split at h
  next hu =>
    split at h
    next => simp at h
    next he =>
      split at h
      next ce hce =>
        split at h
        next => simp at h
        next hc =>
          simp only [Sum.inr.injEq, Prod.mk.injEq] at h
          obtain ⟨h1, h2⟩ := h
          subst h1 h2
          exact ⟨by simp [Frame], rfl, Or.inr ⟨some ce, hu, Or.inr hc, by rw [he, hce]⟩⟩
      next hce =>
        simp only [Sum.inr.injEq, Prod.mk.injEq] at h
        obtain ⟨h1, h2⟩ := h
        subst h1 h2
        exact ⟨by simp [Frame], rfl, Or.inr ⟨none, hu, Or.inl rfl, by rw [he, hce]⟩⟩
  next hu =>
    split at h
    next => simp at h
    next hc =>
      simp only [Sum.inr.injEq, Prod.mk.injEq] at h
      obtain ⟨h1, h2⟩ := h
      subst h1 h2
      exact ⟨Frame_refl _, rfl, Or.inl ⟨by omega, hc, rfl⟩⟩

theorem capsAndRootCheck_cases {W : Type} (c : Collab W) (s : State W) (tr : List Event) :
    (∃ e, (c.capsDrop s.world).1 = some e
        ∧ (capsAndRootCheck c s tr).err = some ("cannot drop caps: " ++ e)
        ∧ (capsAndRootCheck c s tr).trace = tr ++ [Event.capsDrop (some e)]
        ∧ (capsAndRootCheck c s tr).st.dropped = s.dropped)
    ∨ ((c.capsDrop s.world).1 = none ∧ s.info.AllowRoot = false
        ∧ (capsAndRootCheck c s tr).err = some
          "Daemon must not run as root or with capabilities; run as non-root user or use -uid"
        ∧ (capsAndRootCheck c s tr).trace = tr ++ [Event.capsDrop none, Event.isRoot true]
        ∧ (capsAndRootCheck c s tr).st.dropped = s.dropped)
    ∨ ((c.capsDrop s.world).1 = none ∧ s.info.AllowRoot = false
        ∧ (capsAndRootCheck c s tr).err = none
        ∧ (capsAndRootCheck c s tr).trace = tr ++ [Event.capsDrop none, Event.isRoot false]
        ∧ (capsAndRootCheck c s tr).st.dropped = true)
    ∨ ((c.capsDrop s.world).1 = none ∧ s.info.AllowRoot = true
        ∧ (capsAndRootCheck c s tr).err = none
        ∧ (capsAndRootCheck c s tr).trace = tr ++ [Event.capsDrop none]
        ∧ (capsAndRootCheck c s tr).st.dropped = true) := by
  simp only [capsAndRootCheck]
  split
  next e he => exact Or.inl ⟨e, he, rfl, by rw [he], rfl⟩
  next he =>
    split
    next ha =>
      split
      next hr => exact Or.inr (Or.inl ⟨he, ha, rfl, by rw [he, hr]; simp, rfl⟩)
      next hr =>
        refine Or.inr (Or.inr (Or.inl ⟨he, ha, rfl, ?_, rfl⟩))
        rw [he]
        simp at hr
        simp [hr]
    next ha => exact Or.inr (Or.inr (Or.inr ⟨he, by simpa using ha, rfl, by rw [he], rfl⟩))

theorem Frame_fixDefaultChroot {W : Type} (s : State W) : Frame s (fixDefaultChroot s) := by
  simp [Frame, fixDefaultChroot]

theorem selectChroot_fixDefaultChroot {W : Type} (s s1 : State W) (hf : Frame s s1)
    (hi : s1.info = s.info) : selectChroot (fixDefaultChroot s1) = chrootPathOf s := by
  simp [selectChroot, fixDefaultChroot, chrootPathOf, hf.2.1, hi]

theorem dropPrefix_inl {W : Type} (c : Collab W) (s : State W) (r : Result W)
    (h : dropPrefix c s = Sum.inl r) :
    (∃ e, r.err = some e ∧ Early s e r.trace) ∧ Frame s r.st := by
  simp only [dropPrefix] at h
  split at h
  next r1 h1 =>
    simp only [Sum.inl.injEq] at h
    subst h
    obtain ⟨g, e, hu, hg, he, ht, hf⟩ := fixups_inl c s r1 h1
    rw [he, ht]
    exact ⟨⟨e, rfl, Early.lookupFailed g e hu hg⟩, hf⟩
  next s1 tr1 h1 =>
    obtain ⟨hfix, hf1, hi1⟩ := fixups_inr c s s1 tr1 h1
    have hf2 : Frame s (fixDefaultChroot s1) := Frame_trans hf1 (Frame_fixDefaultChroot s1)
    have hpath := selectChroot_fixDefaultChroot s s1 hf1 hi1
    split at h
    next r2 h2 =>
      simp only [Sum.inl.injEq] at h
      subst h
      obtain ⟨hf, hu, hc⟩ := parseIDs_inl c _ tr1 r2 h2
      rw [hf2.1] at hu hc
      refine ⟨?_, Frame_trans hf2 hf⟩
      rcases hc with ⟨u, e, he, ht⟩ | ⟨u, g, e, he, ht⟩ | ⟨u, g, hm, he, ht⟩
      · rw [he, ht]; exact ⟨_, rfl, Early.parseUIDFailed tr1 u e hfix hu⟩
      · rw [he, ht]; exact ⟨_, rfl, Early.parseGIDFailed tr1 _ u g e hfix hu⟩
      · rw [he, ht]; exact ⟨_, rfl, Early.mismatch tr1 _ u g hfix hu hm⟩
    next s3 tr3 u g h2 =>
      obtain ⟨hf3, hi3, hc⟩ := parseIDs_inr c _ s3 tr1 tr3 u g h2
      rw [hf2.1] at hc
      have hpar : ParsedOk s tr3 u g := by
        rcases hc with ⟨hu, ht, h3, h4⟩ | ⟨hu, hm, ht⟩
        · rw [ht, h3, h4]; exact ParsedOk.unset tr1 hfix hu
        · rw [ht]; exact ParsedOk.parsed tr1 _ u g hfix hu hm
      have hf4 : Frame s s3 := Frame_trans hf2 hf3
      rw [hpath] at h
      obtain ⟨hf, hc⟩ := dropStep_inl c s3 tr3 u g _ r h
      rw [hf4.2.1] at hc
      refine ⟨?_, Frame_trans hf4 hf⟩
      rcases hc with ⟨ce, e, hu, he, ht⟩ | ⟨ce, hu, hc1, hc2, he, ht⟩ | ⟨hu, hc1, hc2, he, ht⟩
      · rw [he, ht]; exact ⟨_, rfl, Early.transitionFailed tr3 u g ce e hpar hu⟩
      · rw [he, ht]; exact ⟨_, rfl, Early.chrootFailed tr3 u g ce hpar hu hc1 hc2⟩
      · rw [he, ht]; exact ⟨_, rfl, Early.chrootWithoutIdentity tr3 u g hpar hu hc1 hc2⟩

theorem dropPrefix_inr {W : Type} (c : Collab W) (s s1 : State W) (tr1 : List Event)
    (h : dropPrefix c s = Sum.inr (s1, tr1)) : DroppedOk s tr1 ∧ Frame s s1 := by
  simp only [dropPrefix] at h
  split at h
  next => simp at h
  next s0 tr0 h1 =>
    obtain ⟨hfix, hf1, hi1⟩ := fixups_inr c s s0 tr0 h1
    have hf2 : Frame s (fixDefaultChroot s0) := Frame_trans hf1 (Frame_fixDefaultChroot s0)
    have hpath := selectChroot_fixDefaultChroot s s0 hf1 hi1
    split at h
    next => simp at h
    next s3 tr3 u g h2 =>
      obtain ⟨hf3, hi3, hc⟩ := parseIDs_inr c _ s3 tr0 tr3 u g h2
      rw [hf2.1] at hc
      have hpar : ParsedOk s tr3 u g := by
        rcases hc with ⟨hu, ht, h3, h4⟩ | ⟨hu, hm, ht⟩
        · rw [ht, h3, h4]; exact ParsedOk.unset tr0 hfix hu
        · rw [ht]; exact ParsedOk.parsed tr0 _ u g hfix hu hm
      have hf4 : Frame s s3 := Frame_trans hf2 hf3
      rw [hpath] at h
      obtain ⟨hf, _, hc⟩ := dropStep_inr c s3 s1 tr3 tr1 u g _ h
      rw [hf4.2.1] at hc
      refine ⟨?_, Frame_trans hf4 hf⟩
      rcases hc with ⟨hu, hcf, ht⟩ | ⟨ce, hu, hcf, ht⟩
      · rw [ht]; exact DroppedOk.noIdentity tr3 u g hpar hu hcf
      · rw [ht]; exact DroppedOk.transition tr3 u g ce hpar hu hcf

/-- Every call from `dropped = false` follows one of the paths of `Run`. -/
theorem DropPrivileges_run {W : Type} (c : Collab W) (s : State W) (hd : s.dropped = false) :
    Run s (DropPrivileges c s).err (DropPrivileges c s).st.dropped
      (DropPrivileges c s).trace := by
  simp only [DropPrivileges, hd, Bool.false_eq_true, if_false]
  split
  next r h =>
    obtain ⟨⟨e, he, hrun⟩, hf⟩ := dropPrefix_inl c s r h
    have hdr : r.st.dropped = false := by rw [hf.2.2.2.2.2.1, hd]
    rw [hdr, he]; exact Run.early e _ hrun
  next s1 tr1 h =>
    obtain ⟨hok, hf⟩ := dropPrefix_inr c s s1 tr1 h
    have hdr : s1.dropped = false := by rw [hf.2.2.2.2.2.1, hd]
    have har : s1.info.AllowRoot = s.info.AllowRoot := hf.2.2.2.2.2.2.2.1
    rcases capsAndRootCheck_cases c s1 tr1 with ⟨e, _, he, ht, hdd⟩ | ⟨_, ha, he, ht, hdd⟩ |
      ⟨_, ha, he, ht, hdd⟩ | ⟨_, ha, he, ht, hdd⟩
    · rw [he, ht, hdd, hdr]; exact Run.capsFailed tr1 e hok
    · rw [he, ht, hdd, hdr]; exact Run.stillRoot tr1 hok (by rw [← har, ha])
    · rw [he, ht, hdd]; exact Run.checked tr1 hok (by rw [← har, ha])
    · rw [he, ht, hdd]; exact Run.rootAllowed tr1 hok (by rw [← har, ha])

/-- A call on a handler that has already dropped returns success at once. -/
theorem DropPrivileges_dropped {W : Type} (c : Collab W) (s : State W)
    (hd : s.dropped = true) : DropPrivileges c s = ⟨none, s, []⟩ := by
  simp [DropPrivileges, hd]

/-! ### What the paths contain -/

theorem banTrace_isLookup {W : Type} (s : State W) :
    ∀ e ∈ banTrace s, e.isLookup = true := by
  intro e he
  simp only [banTrace] at he
  split at he <;> simp at he
  subst he
  rfl

theorem FixupsOk_isLookup {W : Type} {s : State W} {l : List Event} (h : FixupsOk s l) :
    ∀ e ∈ l, e.isLookup = true := by
  intro e he
  cases h with
  | skip _ => exact banTrace_isLookup s e he
  | backfill g _ _ =>
    rcases List.mem_append.1 he with h1 | h1
    · exact banTrace_isLookup s e h1
    · simp at h1; subst h1; rfl

theorem isPrelude_of_isLookup (e : Event) (h : e.isLookup = true) : e.isPrelude = true := by
  cases e <;> simp_all [Event.isLookup, Event.isPrelude]
  next _ _ o => cases o <;> simp_all [Event.isLookup, Event.isPrelude]

theorem ParsedOk_isPrelude {W : Type} {s : State W} {p : List Event} {u g : Int}
    (h : ParsedOk s p u g) : ∀ e ∈ p, e.isPrelude = true := by
  intro e he
  cases h with
  | unset _ hl _ => exact isPrelude_of_isLookup e ((FixupsOk_isLookup hl) e he)
  | parsed l t u g hl _ _ =>
    rcases List.mem_append.1 he with h1 | h1
    · exact isPrelude_of_isLookup e ((FixupsOk_isLookup hl) e h1)
    · simp at h1; rcases h1 with h1 | h1 <;> subst h1 <;> rfl

theorem transitions_prelude (p : List Event) (h : ∀ e ∈ p, e.isPrelude = true) :
    transitions p = 0 := by
  simp only [transitions, List.countP_eq_zero]
  intro e he
  have := h e he
  cases e <;> simp_all [Event.isPrelude, Event.isTransition]

theorem isLate_prelude (p : List Event) (h : ∀ e ∈ p, e.isPrelude = true) :
    ∀ e ∈ p, e.isLate = false := by
  intro e he
  have := h e he
  cases e <;> simp_all [Event.isPrelude, Event.isLate]

theorem DroppedOk_isLate {W : Type} {s : State W} {d : List Event} (h : DroppedOk s d) :
    ∀ e ∈ d, e.isLate = false := by
  intro e he
  cases h with
  | noIdentity _ u g hp _ _ => exact isLate_prelude _ (ParsedOk_isPrelude hp) e he
  | transition p u g ce hp _ _ =>
    rcases List.mem_append.1 he with h1 | h1
    · exact isLate_prelude _ (ParsedOk_isPrelude hp) e h1
    · simp at h1; subst h1; rfl

theorem DroppedOk_transitions_le {W : Type} {s : State W} {d : List Event}
    (h : DroppedOk s d) : transitions d ≤ 1 := by
  cases h with
  | noIdentity _ u g hp _ _ => simp [transitions_prelude _ (ParsedOk_isPrelude hp)]
  | transition p u g ce hp _ _ =>
    have := transitions_prelude _ (ParsedOk_isPrelude hp)
    simp only [transitions] at this ⊢
    simp [List.countP_append, this, Event.isTransition]

theorem Early_isLate {W : Type} {s : State W} {e : Error} {tr : List Event}
    (h : Early s e tr) : ∀ x ∈ tr, x.isLate = false := by
  intro x hx
  have hl : ∀ l, FixupsOk s l → ∀ y ∈ l, y.isLate = false := fun l hl y hy =>
    isLate_prelude _ (fun z hz => isPrelude_of_isLookup z ((FixupsOk_isLookup hl) z hz)) y hy
  cases h with
  | lookupFailed g e _ _ =>
    rcases List.mem_append.1 hx with h1 | h1
    · exact isLate_prelude _ (fun z hz => isPrelude_of_isLookup z (banTrace_isLookup s z hz)) x h1
    · simp at h1; subst h1; rfl
  | parseUIDFailed l u e hf _ =>
    rcases List.mem_append.1 hx with h1 | h1
    · exact hl l hf x h1
    · simp at h1; subst h1; rfl
  | parseGIDFailed l t u g e hf _ =>
    rcases List.mem_append.1 hx with h1 | h1
    · exact hl l hf x h1
    · simp at h1; rcases h1 with h1 | h1 <;> subst h1 <;> rfl
  | mismatch l t u g hf _ _ =>
    rcases List.mem_append.1 hx with h1 | h1
    · exact hl l hf x h1
    · simp at h1; rcases h1 with h1 | h1 <;> subst h1 <;> rfl
  | transitionFailed p u g ce e hp _ =>
    rcases List.mem_append.1 hx with h1 | h1
    · exact isLate_prelude _ (ParsedOk_isPrelude hp) x h1
    · simp at h1; subst h1; rfl
  | chrootFailed p u g ce hp _ _ _ =>
    rcases List.mem_append.1 hx with h1 | h1
    · exact isLate_prelude _ (ParsedOk_isPrelude hp) x h1
    · simp at h1; subst h1; rfl
  | chrootWithoutIdentity _ u g hp _ _ _ => exact isLate_prelude _ (ParsedOk_isPrelude hp) x hx

theorem Early_transitions_le {W : Type} {s : State W} {e : Error} {tr : List Event}
    (h : Early s e tr) : transitions tr ≤ 1 := by
  have hl : ∀ l, FixupsOk s l → transitions l = 0 := fun l hl =>
    transitions_prelude _ (fun z hz => isPrelude_of_isLookup z ((FixupsOk_isLookup hl) z hz))
  have hb : transitions (banTrace s) = 0 :=
    transitions_prelude _ (fun z hz => isPrelude_of_isLookup z (banTrace_isLookup s z hz))
  cases h with
  | lookupFailed g e _ _ =>
    simp only [transitions] at hb ⊢
    simp [List.countP_append, hb, Event.isTransition]
  | parseUIDFailed l u e hf _ =>
    have := hl l hf
    simp only [transitions] at this ⊢
    simp [List.countP_append, this, Event.isTransition]
  | parseGIDFailed l t u g e hf _ =>
    have := hl l hf
    simp only [transitions] at this ⊢
    simp [List.countP_append, this, Event.isTransition, List.countP_cons]
  | mismatch l t u g hf _ _ =>
    have := hl l hf
    simp only [transitions] at this ⊢
    simp [List.countP_append, this, Event.isTransition, List.countP_cons]
  | transitionFailed p u g ce e hp _ =>
    have := transitions_prelude _ (ParsedOk_isPrelude hp)
    simp only [transitions] at this ⊢
    simp [List.countP_append, this, Event.isTransition]
  | chrootFailed p u g ce hp _ _ _ =>
    have := transitions_prelude _ (ParsedOk_isPrelude hp)
    simp only [transitions] at this ⊢
    simp [List.countP_append, this, Event.isTransition]
  | chrootWithoutIdentity _ u g hp _ _ _ => simp [transitions_prelude _ (ParsedOk_isPrelude hp)]

theorem Run_transitions_le {W : Type} {s : State W} {err : Option Error} {d : Bool}
    {tr : List Event} (h : Run s err d tr) : transitions tr ≤ 1 := by
  cases h with
  | early e tr he => exact Early_transitions_le he
  | capsFailed d e hd =>
    have := DroppedOk_transitions_le hd
    simp only [transitions] at this ⊢
    simpa [List.countP_append, Event.isTransition] using this
  | stillRoot d hd _ =>
    have := DroppedOk_transitions_le hd
    simp only [transitions] at this ⊢
    simpa [List.countP_append, Event.isTransition, List.countP_cons] using this
  | checked d hd _ =>
    have := DroppedOk_transitions_le hd
    simp only [transitions] at this ⊢
    simpa [List.countP_append, Event.isTransition, List.countP_cons] using this
  | rootAllowed d hd _ =>
    have := DroppedOk_transitions_le hd
    simp only [transitions] at this ⊢
    simpa [List.countP_append, Event.isTransition] using this

/-- A successful call leaves `dropped = true`; a failed call from
`dropped = false` leaves it false. -/
theorem Run_dropped_iff {W : Type} {s : State W} {err : Option Error} {d : Bool}
    {tr : List Event} (h : Run s err d tr) : d = true ↔ err = none := by
  cases h <;> simp

theorem capsCount_of_not_late (tr : List Event) (h : ∀ x ∈ tr, x.isLate = false) :
    tr.countP Event.isCapsDrop = 0 := by
  simp only [List.countP_eq_zero]
  intro e he
  have := h e he
  cases e <;> simp_all [Event.isLate, Event.isCapsDrop]

theorem not_mem_of_prelude {p : List Event} (h : ∀ e ∈ p, e.isPrelude = true) (x : Event)
    (hx : x.isPrelude = false) : x ∉ p := by
  intro hm
  rw [h x hm] at hx
  exact Bool.noConfusion hx

theorem not_mem_of_lookup {p : List Event} (h : ∀ e ∈ p, e.isLookup = true) (x : Event)
    (hx : x.isLookup = false) : x ∉ p := by
  intro hm
  rw [h x hm] at hx
  exact Bool.noConfusion hx

theorem not_mem_of_not_late {p : List Event} (h : ∀ e ∈ p, e.isLate = false) (x : Event)
    (hx : x.isLate = true) : x ∉ p := by
  intro hm
  rw [h x hm] at hx
  exact Bool.noConfusion hx

/-- The parse events of a trace that reached line 157 carry the values of
`uid` and `gid` that were compared there. -/
theorem ParsedOk_parse_mem {W : Type} {s : State W} {p : List Event} {u g : Int}
    (h : ParsedOk s p u g) :
    (∀ t v, Event.parseUID t v none ∈ p → v = u ∧ s.uidFlag ≠ "" ∧ (u ≤ 0 ↔ g ≤ 0))
    ∧ (∀ t v, Event.parseGID t v none ∈ p → v = g ∧ s.uidFlag ≠ "" ∧ (u ≤ 0 ↔ g ≤ 0)) := by
  cases h with
  | unset _ hl _ =>
    exact ⟨fun t v hm => absurd hm (not_mem_of_lookup (FixupsOk_isLookup hl) _ rfl),
      fun t v hm => absurd hm (not_mem_of_lookup (FixupsOk_isLookup hl) _ rfl)⟩
  | parsed l t0 u g hl hu hm =>
    constructor
    · intro t v hx
      rcases List.mem_append.1 hx with h1 | h1
      · exact absurd h1 (not_mem_of_lookup (FixupsOk_isLookup hl) _ rfl)
      · simp at h1
        exact ⟨h1.2, hu, hm⟩
    · intro t v hx
      rcases List.mem_append.1 hx with h1 | h1
      · exact absurd h1 (not_mem_of_lookup (FixupsOk_isLookup hl) _ rfl)
      · simp at h1
        exact ⟨h1.2, hu, hm⟩

theorem ParsedOk_uid_empty {W : Type} {s : State W} {p : List Event} {u g : Int}
    (h : ParsedOk s p u g) (hu : s.uidFlag = "") : u = -1 := by
  cases h with
  | unset _ _ _ => rfl
  | parsed l t0 u g hl hne hm => exact absurd hu hne

theorem DroppedOk_parse_mem {W : Type} {s : State W} {d : List Event} (h : DroppedOk s d) :
    ∀ t t1 u g, Event.parseUID t u none ∈ d → Event.parseGID t1 g none ∈ d →
      (u ≤ 0 ↔ g ≤ 0) := by
  intro t t1 u g h1 h2
  cases h with
  | noIdentity _ u0 g0 hp _ _ =>
    obtain ⟨e1, _, hm⟩ := (ParsedOk_parse_mem hp).1 t u h1
    obtain ⟨e2, _, _⟩ := (ParsedOk_parse_mem hp).2 t1 g h2
    rw [e1, e2]; exact hm
  | transition p u0 g0 ce hp _ _ =>
    rcases List.mem_append.1 h1 with h1 | h1
    · rcases List.mem_append.1 h2 with h2 | h2
      · obtain ⟨e1, _, hm⟩ := (ParsedOk_parse_mem hp).1 t u h1
        obtain ⟨e2, _, _⟩ := (ParsedOk_parse_mem hp).2 t1 g h2
        rw [e1, e2]; exact hm
      · simp at h2
    · simp at h1

theorem DroppedOk_uid_empty {W : Type} {s : State W} {d : List Event} (h : DroppedOk s d)
    (hu : s.uidFlag = "") : transitions d = 0 := by
  cases h with
  | noIdentity _ u0 g0 hp _ _ => exact transitions_prelude _ (ParsedOk_isPrelude hp)
  | transition p u0 g0 ce hp hpos _ =>
    have := ParsedOk_uid_empty hp hu
    omega

theorem DroppedOk_isLookupFree {W : Type} {s : State W} {d : List Event} (h : DroppedOk s d) :
    ∀ t g e, Event.getGIDForUID t g (some e) ∉ d := by
  intro t g e hx
  cases h with
  | noIdentity _ u0 g0 hp _ _ =>
    exact not_mem_of_prelude (ParsedOk_isPrelude hp) (Event.getGIDForUID t g (some e)) rfl hx
  | transition p u0 g0 ce hp _ _ =>
    rcases List.mem_append.1 hx with h1 | h1
    · exact not_mem_of_prelude (ParsedOk_isPrelude hp) (Event.getGIDForUID t g (some e)) rfl h1
    · simp at h1

theorem FixupsOk_transitions {W : Type} {s : State W} {l : List Event} (h : FixupsOk s l) :
    transitions l = 0 :=
  transitions_prelude _ (fun z hz => isPrelude_of_isLookup z (FixupsOk_isLookup h z hz))

theorem transitions_append (a b : List Event) :
    transitions (a ++ b) = transitions a + transitions b := by
  simp [transitions, List.countP_append]

theorem capsCount_append (a b : List Event) :
    (a ++ b).countP Event.isCapsDrop = a.countP Event.isCapsDrop + b.countP Event.isCapsDrop := by
  simp [List.countP_append]

/-- A failed identity lookup ends the call at once. -/
theorem Run_lookup_failed {W : Type} {s : State W} {err : Option Error} {d : Bool}
    {tr : List Event} (h : Run s err d tr) (t : String) (g : Int) (e : Error)
    (hx : Event.getGIDForUID t g (some e) ∈ tr) :
    err = some e ∧ transitions tr = 0 ∧ tr.countP Event.isCapsDrop = 0 ∧ d = false := by
  have late : ∀ d0, DroppedOk s d0 → ∀ tl : List Event,
      (∀ x ∈ tl, x.isLate = true) → Event.getGIDForUID t g (some e) ∉ d0 ++ tl := by
    intro d0 h0 tl htl hm
    rcases List.mem_append.1 hm with h1 | h1
    · exact DroppedOk_isLookupFree h0 t g e h1
    · exact Bool.noConfusion (htl _ h1)
  cases h with
  | early e0 tr he =>
    refine ⟨?_, ?_, capsCount_of_not_late _ (Early_isLate he), rfl⟩
    · cases he with
      | lookupFailed g0 e0 _ _ =>
        rcases List.mem_append.1 hx with h1 | h1
        · exact absurd h1 (not_mem_of_lookup (banTrace_isLookup s) _ rfl)
        · simp at h1; rw [h1.2.2]
      | parseUIDFailed l u e0 hf _ =>
        rcases List.mem_append.1 hx with h1 | h1
        · exact absurd h1 (not_mem_of_lookup (FixupsOk_isLookup hf) _ rfl)
        · simp at h1
      | parseGIDFailed l t0 u g0 e0 hf _ =>
        rcases List.mem_append.1 hx with h1 | h1
        · exact absurd h1 (not_mem_of_lookup (FixupsOk_isLookup hf) _ rfl)
        · simp at h1
      | mismatch l t0 u g0 hf _ _ =>
        rcases List.mem_append.1 hx with h1 | h1
        · exact absurd h1 (not_mem_of_lookup (FixupsOk_isLookup hf) _ rfl)
        · simp at h1
      | transitionFailed p u g0 ce e0 hp _ =>
        rcases List.mem_append.1 hx with h1 | h1
        · exact absurd h1 (not_mem_of_prelude (ParsedOk_isPrelude hp) _ rfl)
        · simp at h1
      | chrootFailed p u g0 ce hp _ _ _ =>
        rcases List.mem_append.1 hx with h1 | h1
        · exact absurd h1 (not_mem_of_prelude (ParsedOk_isPrelude hp) _ rfl)
        · simp at h1
      | chrootWithoutIdentity _ u g0 hp _ _ _ =>
        exact absurd hx (not_mem_of_prelude (ParsedOk_isPrelude hp) _ rfl)
    · cases he with
      | lookupFailed g0 e0 _ _ =>
        rw [transitions_append, transitions_prelude _
          (fun z hz => isPrelude_of_isLookup z (banTrace_isLookup s z hz))]
        rfl
      | parseUIDFailed l u e0 hf _ =>
        rcases List.mem_append.1 hx with h1 | h1
        · exact absurd h1 (not_mem_of_lookup (FixupsOk_isLookup hf) _ rfl)
        · simp at h1
      | parseGIDFailed l t0 u g0 e0 hf _ =>
        rcases List.mem_append.1 hx with h1 | h1
        · exact absurd h1 (not_mem_of_lookup (FixupsOk_isLookup hf) _ rfl)
        · simp at h1
      | mismatch l t0 u g0 hf _ _ =>
        rcases List.mem_append.1 hx with h1 | h1
        · exact absurd h1 (not_mem_of_lookup (FixupsOk_isLookup hf) _ rfl)
        · simp at h1
      | transitionFailed p u g0 ce e0 hp _ =>
        rcases List.mem_append.1 hx with h1 | h1
        · exact absurd h1 (not_mem_of_prelude (ParsedOk_isPrelude hp) _ rfl)
        · simp at h1
      | chrootFailed p u g0 ce hp _ _ _ =>
        rcases List.mem_append.1 hx with h1 | h1
        · exact absurd h1 (not_mem_of_prelude (ParsedOk_isPrelude hp) _ rfl)
        · simp at h1
      | chrootWithoutIdentity _ u g0 hp _ _ _ =>
        exact absurd hx (not_mem_of_prelude (ParsedOk_isPrelude hp) _ rfl)
  | capsFailed d0 e0 h0 => exact absurd hx (late d0 h0 _ (by simp [Event.isLate]))
  | stillRoot d0 h0 _ => exact absurd hx (late d0 h0 _ (by simp [Event.isLate]))
  | checked d0 h0 _ => exact absurd hx (late d0 h0 _ (by simp [Event.isLate]))
  | rootAllowed d0 h0 _ => exact absurd hx (late d0 h0 _ (by simp [Event.isLate]))

/-- With an empty UID flag the transition is never requested. -/
theorem Run_uid_empty {W : Type} {s : State W} {err : Option Error} {d : Bool}
    {tr : List Event} (h : Run s err d tr) (hu : s.uidFlag = "") : transitions tr = 0 := by
  cases h with
  | early e0 tr he =>
    cases he with
    | lookupFailed g0 e0 hne _ => exact absurd hu hne
    | parseUIDFailed l u e0 hf hne => exact absurd hu hne
    | parseGIDFailed l t0 u g0 e0 hf hne => exact absurd hu hne
    | mismatch l t0 u g0 hf hne _ => exact absurd hu hne
    | transitionFailed p u g0 ce e0 hp hpos => have := ParsedOk_uid_empty hp hu; omega
    | chrootFailed p u g0 ce hp hpos _ _ => have := ParsedOk_uid_empty hp hu; omega
    | chrootWithoutIdentity _ u g0 hp _ _ _ => exact transitions_prelude _ (ParsedOk_isPrelude hp)
  | capsFailed d0 e0 h0 => rw [transitions_append, DroppedOk_uid_empty h0 hu]; rfl
  | stillRoot d0 h0 _ => rw [transitions_append, DroppedOk_uid_empty h0 hu]; rfl
  | checked d0 h0 _ => rw [transitions_append, DroppedOk_uid_empty h0 hu]; rfl
  | rootAllowed d0 h0 _ => rw [transitions_append, DroppedOk_uid_empty h0 hu]; rfl

/-- When the UID flag is set and the GID flag is empty, the identity database
is consulted. -/
theorem Run_lookup_made {W : Type} {s : State W} {err : Option Error} {d : Bool}
    {tr : List Event} (h : Run s err d tr) (hu : s.uidFlag ≠ "") (hg : s.gidFlag = "") :
    ∃ g oe, Event.getGIDForUID s.uidFlag g oe ∈ tr := by
  have hfix : ∀ l, FixupsOk s l → ∃ g oe, Event.getGIDForUID s.uidFlag g oe ∈ l := by
    intro l hl
    cases hl with
    | skip hn => exact absurd ⟨hu, hg⟩ hn
    | backfill g _ _ => exact ⟨g, none, by simp⟩
  have hpar : ∀ p u g, ParsedOk s p u g → ∃ g oe, Event.getGIDForUID s.uidFlag g oe ∈ p := by
    intro p u g hp
    cases hp with
    | unset _ hl _ => exact hfix _ hl
    | parsed l t0 u g hl _ _ =>
      obtain ⟨g1, oe, hm⟩ := hfix _ hl
      exact ⟨g1, oe, List.mem_append_left _ hm⟩
  have hdr : ∀ d0, DroppedOk s d0 → ∃ g oe, Event.getGIDForUID s.uidFlag g oe ∈ d0 := by
    intro d0 h0
    cases h0 with
    | noIdentity _ u g hp _ _ => exact hpar _ u g hp
    | transition p u g ce hp _ _ =>
      obtain ⟨g1, oe, hm⟩ := hpar _ u g hp
      exact ⟨g1, oe, List.mem_append_left _ hm⟩
  have ext : ∀ (a b : List Event), (∃ g oe, Event.getGIDForUID s.uidFlag g oe ∈ a) →
      ∃ g oe, Event.getGIDForUID s.uidFlag g oe ∈ a ++ b := by
    rintro a b ⟨g1, oe, hm⟩
    exact ⟨g1, oe, List.mem_append_left _ hm⟩
  cases h with
  | early e0 tr he =>
    cases he with
    | lookupFailed g0 e0 _ _ => exact ⟨g0, some e0, by simp⟩
    | parseUIDFailed l u e0 hf _ => exact ext _ _ (hfix _ hf)
    | parseGIDFailed l t0 u g0 e0 hf _ => exact ext _ _ (hfix _ hf)
    | mismatch l t0 u g0 hf _ _ => exact ext _ _ (hfix _ hf)
    | transitionFailed p u g0 ce e0 hp _ => exact ext _ _ (hpar _ u g0 hp)
    | chrootFailed p u g0 ce hp _ _ _ => exact ext _ _ (hpar _ u g0 hp)
    | chrootWithoutIdentity _ u g0 hp _ _ _ => exact hpar _ u g0 hp
  | capsFailed d0 e0 h0 => exact ext _ _ (hdr _ h0)
  | stillRoot d0 h0 _ => exact ext _ _ (hdr _ h0)
  | checked d0 h0 _ => exact ext _ _ (hdr _ h0)
  | rootAllowed d0 h0 _ => exact ext _ _ (hdr _ h0)

theorem ParsedOk_no_mismatch {W : Type} {s : State W} {p : List Event} {u0 g0 : Int}
    (hp : ParsedOk s p u0 g0) (tl : List Event) (htl : ∀ x ∈ tl, x.isPrelude = false)
    (t t1 : String) (u g : Int) (h1 : Event.parseUID t u none ∈ p ++ tl)
    (h2 : Event.parseGID t1 g none ∈ p ++ tl) : (u ≤ 0 ↔ g ≤ 0) := by
  have m1 : Event.parseUID t u none ∈ p := by
    rcases List.mem_append.1 h1 with h | h
    · exact h
    · exact Bool.noConfusion (htl _ h)
  have m2 : Event.parseGID t1 g none ∈ p := by
    rcases List.mem_append.1 h2 with h | h
    · exact h
    · exact Bool.noConfusion (htl _ h)
  obtain ⟨e1, _, hm⟩ := (ParsedOk_parse_mem hp).1 t u m1
  obtain ⟨e2, _, _⟩ := (ParsedOk_parse_mem hp).2 t1 g m2
  rw [e1, e2]; exact hm

theorem DroppedOk_no_mismatch {W : Type} {s : State W} {d0 : List Event}
    (h0 : DroppedOk s d0) (tl : List Event) (htl : ∀ x ∈ tl, x.isPrelude = false)
    (t t1 : String) (u g : Int) (h1 : Event.parseUID t u none ∈ d0 ++ tl)
    (h2 : Event.parseGID t1 g none ∈ d0 ++ tl) : (u ≤ 0 ↔ g ≤ 0) := by
  have m1 : Event.parseUID t u none ∈ d0 := by
    rcases List.mem_append.1 h1 with h | h
    · exact h
    · exact Bool.noConfusion (htl _ h)
  have m2 : Event.parseGID t1 g none ∈ d0 := by
    rcases List.mem_append.1 h2 with h | h
    · exact h
    · exact Bool.noConfusion (htl _ h)
  exact DroppedOk_parse_mem h0 t t1 u g m1 m2

/-- When both identifiers were parsed and exactly one is positive, the call
returns the both-or-neither error before the transition and before capability
clearing. -/
theorem Run_mismatch {W : Type} {s : State W} {err : Option Error} {d : Bool}
    {tr : List Event} (h : Run s err d tr) (t t1 : String) (u g : Int)
    (h1 : Event.parseUID t u none ∈ tr) (h2 : Event.parseGID t1 g none ∈ tr)
    (hm : ¬ (u ≤ 0 ↔ g ≤ 0)) :
    err = some "Either both or neither of the UID and GID must be positive"
    ∧ transitions tr = 0 ∧ tr.countP Event.isCapsDrop = 0 ∧ d = false := by
  cases h with
  | early e0 tr he =>
    have hcaps := capsCount_of_not_late _ (Early_isLate he)
    cases he with
    | lookupFailed g0 e0 _ _ =>
      rcases List.mem_append.1 h1 with h | h
      · exact absurd h (not_mem_of_lookup (banTrace_isLookup s) _ rfl)
      · simp at h
    | parseUIDFailed l u0 e0 hf _ =>
      rcases List.mem_append.1 h1 with h | h
      · exact absurd h (not_mem_of_lookup (FixupsOk_isLookup hf) _ rfl)
      · simp at h
    | parseGIDFailed l t0 u0 g0 e0 hf _ =>
      rcases List.mem_append.1 h2 with h | h
      · exact absurd h (not_mem_of_lookup (FixupsOk_isLookup hf) _ rfl)
      · simp at h
    | mismatch l t0 u0 g0 hf _ _ =>
      refine ⟨rfl, ?_, hcaps, rfl⟩
      rw [transitions_append, FixupsOk_transitions hf]
      rfl
    | transitionFailed p u0 g0 ce e0 hp _ =>
      exact absurd (ParsedOk_no_mismatch hp _ (by simp [Event.isPrelude]) t t1 u g h1 h2) hm
    | chrootFailed p u0 g0 ce hp _ _ _ =>
      exact absurd (ParsedOk_no_mismatch hp _ (by simp [Event.isPrelude]) t t1 u g h1 h2) hm
    | chrootWithoutIdentity _ u0 g0 hp _ _ _ =>
      exact absurd ((ParsedOk_parse_mem hp).1 t u h1).2.2
        (by
          rw [← ((ParsedOk_parse_mem hp).1 t u h1).1, ← ((ParsedOk_parse_mem hp).2 t1 g h2).1]
          exact hm)
  | capsFailed d0 e0 h0 =>
    exact absurd (DroppedOk_no_mismatch h0 _ (by simp [Event.isPrelude]) t t1 u g h1 h2) hm
  | stillRoot d0 h0 _ =>
    exact absurd (DroppedOk_no_mismatch h0 _ (by simp [Event.isPrelude]) t t1 u g h1 h2) hm
  | checked d0 h0 _ =>
    exact absurd (DroppedOk_no_mismatch h0 _ (by simp [Event.isPrelude]) t t1 u g h1 h2) hm
  | rootAllowed d0 h0 _ =>
    exact absurd (DroppedOk_no_mismatch h0 _ (by simp [Event.isPrelude]) t t1 u g h1 h2) hm

/-- C1 (counterexample): with UID flag "1000" and an empty GID flag the call
does not return an error: the GID is looked up, the transition and capability
clearing are both invoked, and the call succeeds. -/
theorem partial_identity_counterexample :
    (flagsState "1000" "" "").dropped = false
    ∧ (flagsState "1000" "" "").uidFlag ≠ "" ∧ (flagsState "1000" "" "").gidFlag = ""
    ∧ (DropPrivileges (stub 0 none false) (flagsState "1000" "" "")).err = none
    ∧ transitions (DropPrivileges (stub 0 none false) (flagsState "1000" "" "")).trace = 1
    ∧ (DropPrivileges (stub 0 none false) (flagsState "1000" "" "")).trace.countP
        Event.isCapsDrop = 1 := by
  decide

/-- C1 (amended): for a call with `dropped = false`: with the UID flag set and
the GID flag empty the identity database is consulted, and a failed lookup
returns its error with neither the transition nor capability clearing invoked;
when both identifiers were parsed and exactly one of them is positive the call
returns "Either both or neither of the UID and GID must be positive", again
with neither the transition nor capability clearing invoked; and with an empty
UID flag the transition is never invoked. -/
theorem partial_identity_policy {W : Type} (c : Collab W) (s : State W)
    (hd : s.dropped = false) :
    (s.uidFlag ≠ "" → s.gidFlag = "" →
      ∃ g oe, Event.getGIDForUID s.uidFlag g oe ∈ (DropPrivileges c s).trace)
    ∧ (∀ t g e, Event.getGIDForUID t g (some e) ∈ (DropPrivileges c s).trace →
        (DropPrivileges c s).err = some e
        ∧ transitions (DropPrivileges c s).trace = 0
        ∧ (DropPrivileges c s).trace.countP Event.isCapsDrop = 0
        ∧ (DropPrivileges c s).st.dropped = false)
    ∧ (∀ t t1 u g, Event.parseUID t u none ∈ (DropPrivileges c s).trace →
        Event.parseGID t1 g none ∈ (DropPrivileges c s).trace → ¬ (u ≤ 0 ↔ g ≤ 0) →
        (DropPrivileges c s).err
          = some "Either both or neither of the UID and GID must be positive"
        ∧ transitions (DropPrivileges c s).trace = 0
        ∧ (DropPrivileges c s).trace.countP Event.isCapsDrop = 0
        ∧ (DropPrivileges c s).st.dropped = false)
    ∧ (s.uidFlag = "" → transitions (DropPrivileges c s).trace = 0) := by
  have h := DropPrivileges_run c s hd
  exact ⟨fun hu hg => Run_lookup_made h hu hg, fun t g e hx => Run_lookup_failed h t g e hx,
    fun t t1 u g h1 h2 hm => Run_mismatch h t t1 u g h1 h2 hm, fun hu => Run_uid_empty h hu⟩

/-- C1 (witness): the three cases at concrete inputs: a failed lookup for UID
"1000", the pair UID "1000", GID "0", and a GID flag without a UID flag. -/
theorem partial_identity_policy_witness :
    ((flagsState "1000" "" "").dropped = false
      ∧ (DropPrivileges stubNoUser (flagsState "1000" "" "")).err = some "unknown user"
      ∧ transitions (DropPrivileges stubNoUser (flagsState "1000" "" "")).trace = 0)
    ∧ ((flagsState "1000" "0" "").dropped = false
      ∧ (DropPrivileges (stub 0 none false) (flagsState "1000" "0" "")).err
          = some "Either both or neither of the UID and GID must be positive"
      ∧ (DropPrivileges (stub 0 none false) (flagsState "1000" "0" "")).trace.countP
          Event.isCapsDrop = 0)
    ∧ ((flagsState "" "5" "").dropped = false ∧ (flagsState "" "5" "").uidFlag = ""
      ∧ transitions (DropPrivileges (stub 0 none false) (flagsState "" "5" "")).trace = 0) :=
  ⟨⟨rfl,
      ((partial_identity_policy stubNoUser (flagsState "1000" "" "") rfl).2.1
        "1000" 0 "unknown user" (by decide)).1,
      ((partial_identity_policy stubNoUser (flagsState "1000" "" "") rfl).2.1
        "1000" 0 "unknown user" (by decide)).2.1⟩,
    ⟨rfl,
      ((partial_identity_policy (stub 0 none false) (flagsState "1000" "0" "") rfl).2.2.1
        "1000" "0" 1000 0 (by decide) (by decide) (by decide)).1,
      ((partial_identity_policy (stub 0 none false) (flagsState "1000" "0" "") rfl).2.2.1
        "1000" "0" 1000 0 (by decide) (by decide) (by decide)).2.2.1⟩,
    ⟨rfl, rfl, (partial_identity_policy (stub 0 none false) (flagsState "" "5" "") rfl).2.2.2 rfl⟩⟩

/-- C2: a call with `dropped = false`, empty UID and GID flags and a chroot flag
that is neither empty nor "/" returns the error "Must use privilege dropping to
use chroot; set -uid"; the only collaborator it may have called is the
best-effort `BanSuid` (so neither the transition nor capability clearing), and
`dropped` is still false. -/
theorem chroot_without_identity_rejected {W : Type} (c : Collab W) (s : State W)
    (hd : s.dropped = false) (hu : s.uidFlag = "") (hg : s.gidFlag = "")
    (hc : s.chrootFlag ≠ "") (hr : s.chrootFlag ≠ "/") :
    (DropPrivileges c s).err = some "Must use privilege dropping to use chroot; set -uid"
    ∧ (DropPrivileges c s).trace = (if s.info.NoBanSuid = false then [Event.banSuid] else [])
    ∧ transitions (DropPrivileges c s).trace = 0
    ∧ (DropPrivileges c s).trace.countP Event.isCapsDrop = 0
    ∧ (DropPrivileges c s).st.dropped = false := by
  simp [DropPrivileges, dropPrefix, fixups, parseIDs, dropStep, fixDefaultChroot,
      transitions, Event.isTransition, Event.isCapsDrop, hd, hu, hg, hc, hr]

/-- C2 (witness): chroot "/custom" with empty UID and GID flags. -/
theorem chroot_without_identity_rejected_witness :
    (DropPrivileges (stub 0 none false) (flagsState "" "" "/custom")).err
      = some "Must use privilege dropping to use chroot; set -uid"
    ∧ (DropPrivileges (stub 0 none false) (flagsState "" "" "/custom")).st.dropped = false :=
  ⟨(chroot_without_identity_rejected (stub 0 none false) (flagsState "" "" "/custom")
      rfl rfl rfl (by decide) (by decide)).1,
    (chroot_without_identity_rejected (stub 0 none false) (flagsState "" "" "/custom")
      rfl rfl rfl (by decide) (by decide)).2.2.2.2⟩

/-! ### Sequences of calls -/

/-- A call that returns success leaves `dropped = true`. -/
theorem success_dropped {W : Type} (c : Collab W) (s : State W)
    (h : (DropPrivileges c s).err = none) : (DropPrivileges c s).st.dropped = true := by
  cases hd : s.dropped
  · exact (Run_dropped_iff (DropPrivileges_run c s hd)).2 h
  · rw [DropPrivileges_dropped c s hd]; exact hd

theorem dropCalls_dropped {W : Type} (c : Collab W) (n : Nat) (s : State W)
    (hd : s.dropped = true) : dropCalls c n s = (List.replicate n none, s, []) := by
  induction n with
  | zero => rfl
  | succ k ih => simp [dropCalls, DropPrivileges_dropped c s hd, ih, List.replicate_succ]

theorem DropPrivileges_transitions_le {W : Type} (c : Collab W) (s : State W) :
    transitions (DropPrivileges c s).trace ≤ 1 := by
  cases hd : s.dropped
  · exact Run_transitions_le (DropPrivileges_run c s hd)
  · rw [DropPrivileges_dropped c s hd]; simp [transitions]

theorem dropCalls_transitions_le {W : Type} (c : Collab W) (n : Nat) (s : State W) :
    transitions (dropCalls c n s).2.2 ≤ failures (dropCalls c n s).1 + 1 := by
  induction n generalizing s with
  | zero => simp [dropCalls, transitions]
  | succ k ih =>
    simp only [dropCalls, transitions_append]
    have h1 := DropPrivileges_transitions_le c s
    cases he : (DropPrivileges c s).err with
    | none =>
      have hd := success_dropped c s he
      rw [dropCalls_dropped c k _ hd]
      have h0 : transitions ([] : List Event) = 0 := rfl
      simp only [h0]
      omega
    | some e =>
      have h2 := ih (DropPrivileges c s).st
      simp only [failures, List.filter_cons, Option.isSome_some, if_true,
        List.length_cons] at h2 ⊢
      omega

/-- C3 (counterexample): capability clearing fails in the first call, after
the transition; the first call returns an error and leaves `dropped = false`,
and the second call invokes the transition again: two transitions in total. -/
theorem transition_twice_counterexample :
    (flagsState "1000" "1000" "").dropped = false
    ∧ (dropCalls (stub 1 none false) 2 (flagsState "1000" "1000" "")).1
        = [some "cannot drop caps: operation not permitted", none]
    ∧ transitions (dropCalls (stub 1 none false) 2 (flagsState "1000" "1000" "")).2.2 = 2 := by
  decide

/-- C3 (amended): one call invokes the transition at most once; once a call
has returned success no later call invokes it; so `n` consecutive calls invoke
it at most once more than the number of calls that returned an error. -/
theorem transition_once_after_success {W : Type} (c : Collab W) (s : State W) (n : Nat) :
    transitions (DropPrivileges c s).trace ≤ 1
    ∧ ((DropPrivileges c s).err = none →
        transitions (dropCalls c n (DropPrivileges c s).st).2.2 = 0)
    ∧ transitions (dropCalls c n s).2.2 ≤ failures (dropCalls c n s).1 + 1 := by
  refine ⟨DropPrivileges_transitions_le c s, ?_, dropCalls_transitions_le c n s⟩
  intro he
  rw [dropCalls_dropped c n _ (success_dropped c s he)]
  rfl

/-- C3 (witness): after the successful call with UID and GID "1000", three
further calls invoke no transition. -/
theorem transition_once_after_success_witness :
    (DropPrivileges (stub 0 none false) (flagsState "1000" "1000" "")).err = none
    ∧ transitions (dropCalls (stub 0 none false) 3
        (DropPrivileges (stub 0 none false) (flagsState "1000" "1000" "")).st).2.2 = 0 :=
  ⟨by decide,
    (transition_once_after_success (stub 0 none false) (flagsState "1000" "1000" "") 3).2.1
      (by decide)⟩

theorem Run_valid_uid {W : Type} {s : State W} {d : Bool} {tr : List Event}
    (h : Run s none d tr) (t : String) (u : Int) (hx : Event.parseUID t u none ∈ tr)
    (hu : 0 < u) : transitions tr = 1 := by
  have key : ∀ d0, DroppedOk s d0 → ∀ tl : List Event, (∀ x ∈ tl, x.isLate = true) →
      Event.parseUID t u none ∈ d0 ++ tl → transitions tl = 0 → transitions (d0 ++ tl) = 1 := by
    intro d0 h0 tl htl hm h00
    have m1 : Event.parseUID t u none ∈ d0 := by
      rcases List.mem_append.1 hm with h | h
      · exact h
      · exact Bool.noConfusion (htl _ h)
    rw [transitions_append, h00]
    cases h0 with
    | noIdentity _ u0 g0 hp hle _ =>
      have := ((ParsedOk_parse_mem hp).1 t u m1).1
      omega
    | transition p u0 g0 ce hp _ _ =>
      rw [transitions_append, transitions_prelude _ (ParsedOk_isPrelude hp)]
      rfl
  cases h with
  | checked d0 h0 _ => exact key d0 h0 _ (by simp [Event.isLate]) hx rfl
  | rootAllowed d0 h0 _ => exact key d0 h0 _ (by simp [Event.isLate]) hx rfl

/-- C4: once a call has returned success, every later call returns success,
makes no collaborator call and leaves the state unchanged; two consecutive
calls of which the first succeeds make as many transitions as the first alone,
at most one, and exactly one when the first call parsed a positive UID. -/
theorem drop_idempotent_after_success {W : Type} (c : Collab W) (s : State W)
    (h : (DropPrivileges c s).err = none) (n : Nat) :
    DropPrivileges c (DropPrivileges c s).st = ⟨none, (DropPrivileges c s).st, []⟩
    ∧ dropCalls c n (DropPrivileges c s).st
        = (List.replicate n none, (DropPrivileges c s).st, [])
    ∧ (dropCalls c 2 s).1 = [none, none]
    ∧ (dropCalls c 2 s).2.2 = (DropPrivileges c s).trace
    ∧ transitions (dropCalls c 2 s).2.2 ≤ 1
    ∧ (s.dropped = false → ∀ t u, Event.parseUID t u none ∈ (DropPrivileges c s).trace →
        0 < u → transitions (dropCalls c 2 s).2.2 = 1) := by
  have hd := success_dropped c s h
  have h2 : (dropCalls c 2 s).2.2 = (DropPrivileges c s).trace := by
    simp [dropCalls, DropPrivileges_dropped c _ hd]
  refine ⟨DropPrivileges_dropped c _ hd, dropCalls_dropped c n _ hd, ?_, h2, ?_, ?_⟩
  · simp [dropCalls, DropPrivileges_dropped c _ hd, h]
  · rw [h2]; exact DropPrivileges_transitions_le c s
  · intro hs t u hx hu
    rw [h2]
    have hr := DropPrivileges_run c s hs
    rw [h] at hr
    exact Run_valid_uid hr t u hx hu

/-- C4 (witness): two calls with UID and GID "1000" and succeeding
collaborators: both return success and exactly one transition is made. -/
theorem drop_idempotent_after_success_witness :
    (DropPrivileges (stub 0 none false) (flagsState "1000" "1000" "")).err = none
    ∧ (dropCalls (stub 0 none false) 2 (flagsState "1000" "1000" "")).1 = [none, none]
    ∧ transitions (dropCalls (stub 0 none false) 2 (flagsState "1000" "1000" "")).2.2 = 1 :=
  ⟨by decide,
    (drop_idempotent_after_success (stub 0 none false) (flagsState "1000" "1000" "")
      (by decide) 0).2.2.1,
    (drop_idempotent_after_success (stub 0 none false) (flagsState "1000" "1000" "")
      (by decide) 0).2.2.2.2.2 rfl "1000" 1000 (by decide) (by decide)⟩

/-! ### Capability clearing and the root check -/

theorem not_mem_late_append {d0 tl : List Event} {x : Event} (hm : x ∈ d0 ++ tl)
    (h0 : ∀ y ∈ d0, y.isLate = false) (hx : x.isLate = true) : x ∈ tl := by
  rcases List.mem_append.1 hm with h | h
  · exact absurd h (not_mem_of_not_late h0 x hx)
  · exact h

theorem Run_root_true {W : Type} {s : State W} {err : Option Error} {d : Bool}
    {tr : List Event} (h : Run s err d tr) (hx : Event.isRoot true ∈ tr) :
    err = some
      "Daemon must not run as root or with capabilities; run as non-root user or use -uid"
    ∧ d = false := by
  cases h with
  | early e0 tr he => exact absurd hx (not_mem_of_not_late (Early_isLate he) _ rfl)
  | capsFailed d0 e0 h0 =>
    have := not_mem_late_append hx (DroppedOk_isLate h0) rfl
    simp at this
  | stillRoot d0 h0 _ => exact ⟨rfl, rfl⟩
  | checked d0 h0 _ =>
    have := not_mem_late_append hx (DroppedOk_isLate h0) rfl
    simp at this
  | rootAllowed d0 h0 _ =>
    have := not_mem_late_append hx (DroppedOk_isLate h0) rfl
    simp at this

theorem Run_success_shape {W : Type} {s : State W} {d : Bool} {tr : List Event}
    (h : Run s none d tr) (ha : s.info.AllowRoot = false) :
    ∃ pre, tr = pre ++ [Event.capsDrop none, Event.isRoot false]
      ∧ ∀ x ∈ pre, x.isLate = false := by
  cases h with
  | checked d0 h0 _ => exact ⟨d0, rfl, DroppedOk_isLate h0⟩
  | rootAllowed d0 h0 ht => rw [ha] at ht; exact Bool.noConfusion ht

theorem Run_caps_ok_shape {W : Type} {s : State W} {err : Option Error} {d : Bool}
    {tr : List Event} (h : Run s err d tr) (ha : s.info.AllowRoot = false)
    (hx : Event.capsDrop none ∈ tr) :
    ∃ pre b, tr = pre ++ [Event.capsDrop none, Event.isRoot b]
      ∧ (∀ x ∈ pre, x.isLate = false)
      ∧ (b = true → err = some
          "Daemon must not run as root or with capabilities; run as non-root user or use -uid"
          ∧ d = false)
      ∧ (b = false → err = none ∧ d = true) := by
  cases h with
  | early e0 tr he => exact absurd hx (not_mem_of_not_late (Early_isLate he) _ rfl)
  | capsFailed d0 e0 h0 =>
    have := not_mem_late_append hx (DroppedOk_isLate h0) rfl
    simp at this
  | stillRoot d0 h0 _ =>
    exact ⟨d0, true, rfl, DroppedOk_isLate h0, fun _ => ⟨rfl, rfl⟩, fun hb => Bool.noConfusion hb⟩
  | checked d0 h0 _ =>
    exact ⟨d0, false, rfl, DroppedOk_isLate h0, fun hb => Bool.noConfusion hb, fun _ => ⟨rfl, rfl⟩⟩
  | rootAllowed d0 h0 ht => rw [ha] at ht; exact Bool.noConfusion ht

/-- C5: for a call with `dropped = false` and `AllowRoot = false`: if `IsRoot`
reports true the call returns the must-not-run-as-root error and `dropped`
stays false; a call that returns success ended with a successful `caps.Drop`
followed by an `IsRoot` query that returned false, neither of them made
earlier in the call; and whenever capability clearing succeeded, `IsRoot` is
queried next and last, and its answer decides the result. -/
theorem root_check_after_drop {W : Type} (c : Collab W) (s : State W)
    (hd : s.dropped = false) (ha : s.info.AllowRoot = false) :
    (Event.isRoot true ∈ (DropPrivileges c s).trace →
      (DropPrivileges c s).err = some
        "Daemon must not run as root or with capabilities; run as non-root user or use -uid"
      ∧ (DropPrivileges c s).st.dropped = false)
    ∧ ((DropPrivileges c s).err = none →
        ∃ pre, (DropPrivileges c s).trace = pre ++ [Event.capsDrop none, Event.isRoot false]
          ∧ ∀ x ∈ pre, x.isLate = false)
    ∧ (Event.capsDrop none ∈ (DropPrivileges c s).trace →
        ∃ pre b, (DropPrivileges c s).trace = pre ++ [Event.capsDrop none, Event.isRoot b]
          ∧ (∀ x ∈ pre, x.isLate = false)
          ∧ (b = true → (DropPrivileges c s).err = some
              "Daemon must not run as root or with capabilities; run as non-root user or use -uid"
              ∧ (DropPrivileges c s).st.dropped = false)
          ∧ (b = false → (DropPrivileges c s).err = none
              ∧ (DropPrivileges c s).st.dropped = true)) := by
  have h := DropPrivileges_run c s hd
  refine ⟨fun hx => Run_root_true h hx, ?_, fun hx => Run_caps_ok_shape h ha hx⟩
  intro he
  rw [he] at h
  exact Run_success_shape h ha

/-- C5 (witness): UID and GID "1000", every step succeeds, `IsRoot` reports
true: the call returns the must-not-run-as-root error. -/
theorem root_check_after_drop_witness :
    (flagsState "1000" "1000" "").dropped = false
    ∧ (flagsState "1000" "1000" "").info.AllowRoot = false
    ∧ Event.isRoot true ∈ (DropPrivileges (stub 0 none true) (flagsState "1000" "1000" "")).trace
    ∧ (DropPrivileges (stub 0 none true) (flagsState "1000" "1000" "")).err = some
        "Daemon must not run as root or with capabilities; run as non-root user or use -uid"
    ∧ (DropPrivileges (stub 0 none true) (flagsState "1000" "1000" "")).st.dropped = false :=
  ⟨rfl, rfl, by decide,
    (root_check_after_drop (stub 0 none true) (flagsState "1000" "1000" "") rfl rfl).1
      (by decide)⟩

theorem Run_caps_failed {W : Type} {s : State W} {err : Option Error} {d : Bool}
    {tr : List Event} (h : Run s err d tr) (e : Error)
    (hx : Event.capsDrop (some e) ∈ tr) :
    err = some ("cannot drop caps: " ++ e) ∧ d = false := by
  cases h with
  | early e0 tr he => exact absurd hx (not_mem_of_not_late (Early_isLate he) _ rfl)
  | capsFailed d0 e0 h0 =>
    have := not_mem_late_append hx (DroppedOk_isLate h0) rfl
    simp at this
    rw [this]
    exact ⟨rfl, rfl⟩
  | stillRoot d0 h0 _ =>
    have := not_mem_late_append hx (DroppedOk_isLate h0) rfl
    simp at this
  | checked d0 h0 _ =>
    have := not_mem_late_append hx (DroppedOk_isLate h0) rfl
    simp at this
  | rootAllowed d0 h0 _ =>
    have := not_mem_late_append hx (DroppedOk_isLate h0) rfl
    simp at this

theorem capsAndRootCheck_trace {W : Type} (c : Collab W) (s : State W) (tr : List Event) :
    ∃ rest, (capsAndRootCheck c s tr).trace
      = tr ++ Event.capsDrop (c.capsDrop s.world).1 :: rest := by
  rcases capsAndRootCheck_cases c s tr with ⟨e, h1, _, ht, _⟩ | ⟨h1, _, _, ht, _⟩ |
    ⟨h1, _, _, ht, _⟩ | ⟨h1, _, _, ht, _⟩
  · exact ⟨[], by rw [ht, h1]⟩
  · exact ⟨[Event.isRoot true], by rw [ht, h1]⟩
  · exact ⟨[Event.isRoot false], by rw [ht, h1]⟩
  · exact ⟨[], by rw [ht, h1]⟩

/-- C6: for a call with `dropped = false`: when lines 111-167 end without a
return, `caps.Drop` is the next collaborator call, whether or not a transition
was made; when they end with a return, that return is the result of the call,
it is an error, and `caps.Drop` was not called; and whenever `caps.Drop`
reports an error the call returns "cannot drop caps: ..." and `dropped` stays
false, whatever `AllowRoot` is. -/
theorem caps_clearing_always_attempted {W : Type} (c : Collab W) (s : State W)
    (hd : s.dropped = false) :
    (∀ s1 tr1, dropPrefix c s = Sum.inr (s1, tr1) →
      (∃ rest, (DropPrivileges c s).trace
          = tr1 ++ Event.capsDrop (c.capsDrop s1.world).1 :: rest)
      ∧ tr1.countP Event.isCapsDrop = 0)
    ∧ (∀ r, dropPrefix c s = Sum.inl r →
        DropPrivileges c s = r ∧ r.err ≠ none ∧ r.trace.countP Event.isCapsDrop = 0)
    ∧ (∀ e, Event.capsDrop (some e) ∈ (DropPrivileges c s).trace →
        (DropPrivileges c s).err = some ("cannot drop caps: " ++ e)
        ∧ (DropPrivileges c s).st.dropped = false) := by
  refine ⟨?_, ?_, fun e hx => Run_caps_failed (DropPrivileges_run c s hd) e hx⟩
  · intro s1 tr1 h
    have hD : DropPrivileges c s = capsAndRootCheck c s1 tr1 := by
      simp [DropPrivileges, hd, h]
    rw [hD]
    exact ⟨capsAndRootCheck_trace c s1 tr1,
      capsCount_of_not_late _ (DroppedOk_isLate (dropPrefix_inr c s s1 tr1 h).1)⟩
  · intro r h
    have hD : DropPrivileges c s = r := by
      simp [DropPrivileges, hd, h]
    obtain ⟨⟨e, he, hE⟩, _⟩ := dropPrefix_inl c s r h
    refine ⟨hD, ?_, capsCount_of_not_late _ (Early_isLate hE)⟩
    rw [he]
    exact Option.some_ne_none e

/-- C6 (witness): `caps.Drop` fails after a successful transition (UID and GID
"1000") and with no transition at all (empty flags, `AllowRoot` set): both
calls return the capability error and leave `dropped = false`. -/
theorem caps_clearing_always_attempted_witness :
    ((flagsState "1000" "1000" "").dropped = false
      ∧ transitions (DropPrivileges (stub 1 none false) (flagsState "1000" "1000" "")).trace = 1
      ∧ (DropPrivileges (stub 1 none false) (flagsState "1000" "1000" "")).err
          = some "cannot drop caps: operation not permitted"
      ∧ (DropPrivileges (stub 1 none false) (flagsState "1000" "1000" "")).st.dropped = false)
    ∧ (transitions (DropPrivileges (stub 1 none false)
          { flagsState "" "" "" with info := ⟨false, true, "", false, ""⟩ }).trace = 0
      ∧ (DropPrivileges (stub 1 none false)
          { flagsState "" "" "" with info := ⟨false, true, "", false, ""⟩ }).err
          = some "cannot drop caps: operation not permitted"
      ∧ (DropPrivileges (stub 1 none false)
          { flagsState "" "" "" with info := ⟨false, true, "", false, ""⟩ }).st.dropped
          = false) :=
  ⟨⟨rfl, by decide,
      (caps_clearing_always_attempted (stub 1 none false) (flagsState "1000" "1000" "")
        rfl).2.2 "operation not permitted" (by decide)⟩,
    ⟨by decide,
      (caps_clearing_always_attempted (stub 1 none false)
        { flagsState "" "" "" with info := ⟨false, true, "", false, ""⟩ }
        rfl).2.2 "operation not permitted" (by decide)⟩⟩

/-! ### The transition and its two errors -/

theorem mem_tail_of_prelude {p tl : List Event} {x : Event} (hm : x ∈ p ++ tl)
    (hp : ∀ y ∈ p, y.isPrelude = true) (hx : x.isPrelude = false) : x ∈ tl := by
  rcases List.mem_append.1 hm with h | h
  · exact absurd h (not_mem_of_prelude hp x hx)
  · exact h

theorem FixupsOk_isPrelude {W : Type} {s : State W} {l : List Event} (h : FixupsOk s l) :
    ∀ e ∈ l, e.isPrelude = true :=
  fun z hz => isPrelude_of_isLookup z (FixupsOk_isLookup h z hz)

theorem banTrace_isPrelude {W : Type} (s : State W) :
    ∀ e ∈ banTrace s, e.isPrelude = true :=
  fun z hz => isPrelude_of_isLookup z (banTrace_isLookup s z hz)

/-- A transition event in a trace that reached line 169 is its last event and
reported no identity error; a chroot error in it was not fatal. -/
theorem DroppedOk_transition_mem {W : Type} {s : State W} {d0 : List Event}
    (h : DroppedOk s d0) (u g : Int) (path : String) (ce oe : Option Error)
    (hx : Event.daemonDropPrivileges u g path ce oe ∈ d0) :
    oe = none ∧ path = chrootPathOf s
    ∧ (ce = none ∨ ¬ (s.chrootFlag ≠ "" ∧ s.chrootFlag ≠ "/"))
    ∧ ∃ p, d0 = p ++ [Event.daemonDropPrivileges u g path ce oe] := by
  cases h with
  | noIdentity _ u0 g0 hp _ _ =>
    exact absurd hx (not_mem_of_prelude (ParsedOk_isPrelude hp) _ rfl)
  | transition p u0 g0 ce0 hp _ hc =>
    have h1 := mem_tail_of_prelude hx (ParsedOk_isPrelude hp) rfl
    simp at h1
    obtain ⟨e1, e2, e3, e4, e5⟩ := h1
    subst e1 e2 e3 e4 e5
    exact ⟨rfl, rfl, hc, p, rfl⟩

theorem Run_transition_failed {W : Type} {s : State W} {err : Option Error} {d : Bool}
    {tr : List Event} (h : Run s err d tr) (u g : Int) (path : String)
    (ce : Option Error) (e : Error)
    (hx : Event.daemonDropPrivileges u g path ce (some e) ∈ tr) :
    err = some ("Failed to drop privileges: " ++ e) ∧ d = false
    ∧ tr.countP Event.isCapsDrop = 0 := by
  have late : ∀ d0, DroppedOk s d0 → ∀ tl : List Event, (∀ x ∈ tl, x.isLate = true) →
      Event.daemonDropPrivileges u g path ce (some e) ∉ d0 ++ tl := by
    intro d0 h0 tl htl hm
    rcases List.mem_append.1 hm with h1 | h1
    · have := (DroppedOk_transition_mem h0 u g path ce (some e) h1).1
      exact Option.noConfusion this
    · exact Bool.noConfusion (htl _ h1)
  cases h with
  | early e0 tr he =>
    refine ⟨?_, rfl, capsCount_of_not_late _ (Early_isLate he)⟩
    cases he with
    | lookupFailed g0 e0 _ _ =>
      have h1 := mem_tail_of_prelude hx (banTrace_isPrelude s) rfl
      simp at h1
    | parseUIDFailed l u0 e0 hf _ =>
      have h1 := mem_tail_of_prelude hx (FixupsOk_isPrelude hf) rfl
      simp at h1
    | parseGIDFailed l t0 u0 g0 e0 hf _ =>
      have h1 := mem_tail_of_prelude hx (FixupsOk_isPrelude hf) rfl
      simp at h1
    | mismatch l t0 u0 g0 hf _ _ =>
      have h1 := mem_tail_of_prelude hx (FixupsOk_isPrelude hf) rfl
      simp at h1
    | transitionFailed p u0 g0 ce0 e0 hp _ =>
      have h1 := mem_tail_of_prelude hx (ParsedOk_isPrelude hp) rfl
      simp at h1
      rw [h1.2.2.2.2]
    | chrootFailed p u0 g0 ce0 hp _ _ _ =>
      have h1 := mem_tail_of_prelude hx (ParsedOk_isPrelude hp) rfl
      simp at h1
    | chrootWithoutIdentity _ u0 g0 hp _ _ _ =>
      exact absurd hx (not_mem_of_prelude (ParsedOk_isPrelude hp) _ rfl)
  | capsFailed d0 e0 h0 => exact absurd hx (late d0 h0 _ (by simp [Event.isLate]))
  | stillRoot d0 h0 _ => exact absurd hx (late d0 h0 _ (by simp [Event.isLate]))
  | checked d0 h0 _ => exact absurd hx (late d0 h0 _ (by simp [Event.isLate]))
  | rootAllowed d0 h0 _ => exact absurd hx (late d0 h0 _ (by simp [Event.isLate]))

theorem Run_chroot_failed {W : Type} {s : State W} {err : Option Error} {d : Bool}
    {tr : List Event} (h : Run s err d tr) (u g : Int) (path : String) (ce : Error)
    (hx : Event.daemonDropPrivileges u g path (some ce) none ∈ tr) :
    path = chrootPathOf s
    ∧ ((s.chrootFlag ≠ "" ∧ s.chrootFlag ≠ "/") →
        err = some ("Failed to chroot: " ++ ce) ∧ d = false
        ∧ tr.countP Event.isCapsDrop = 0)
    ∧ (¬ (s.chrootFlag ≠ "" ∧ s.chrootFlag ≠ "/") →
        ∃ pre x rest, tr = pre
          ++ [Event.daemonDropPrivileges u g path (some ce) none, Event.capsDrop x] ++ rest) := by
  have late : ∀ d0, DroppedOk s d0 → ∀ (x : Option Error) (rest : List Event),
      (∀ y ∈ Event.capsDrop x :: rest, y.isLate = true) →
      Event.daemonDropPrivileges u g path (some ce) none ∈ d0 ++ Event.capsDrop x :: rest →
      path = chrootPathOf s
      ∧ ¬ (s.chrootFlag ≠ "" ∧ s.chrootFlag ≠ "/")
      ∧ ∃ pre, d0 ++ Event.capsDrop x :: rest = pre
          ++ [Event.daemonDropPrivileges u g path (some ce) none, Event.capsDrop x] ++ rest := by
    intro d0 h0 x rest htl hm
    have m1 : Event.daemonDropPrivileges u g path (some ce) none ∈ d0 := by
      rcases List.mem_append.1 hm with h1 | h1
      · exact h1
      · exact Bool.noConfusion (htl _ h1)
    obtain ⟨_, hpath, hc, p, hp⟩ := DroppedOk_transition_mem h0 u g path (some ce) none m1
    refine ⟨hpath, ?_, p, ?_⟩
    · rcases hc with hc | hc
      · exact Option.noConfusion hc
      · exact hc
    · rw [hp]; simp
  cases h with
  | early e0 tr he =>
    have hcaps := capsCount_of_not_late _ (Early_isLate he)
    cases he with
    | lookupFailed g0 e0 _ _ =>
      have h1 := mem_tail_of_prelude hx (banTrace_isPrelude s) rfl
      simp at h1
    | parseUIDFailed l u0 e0 hf _ =>
      have h1 := mem_tail_of_prelude hx (FixupsOk_isPrelude hf) rfl
      simp at h1
    | parseGIDFailed l t0 u0 g0 e0 hf _ =>
      have h1 := mem_tail_of_prelude hx (FixupsOk_isPrelude hf) rfl
      simp at h1
    | mismatch l t0 u0 g0 hf _ _ =>
      have h1 := mem_tail_of_prelude hx (FixupsOk_isPrelude hf) rfl
      simp at h1
    | transitionFailed p u0 g0 ce0 e0 hp _ =>
      have h1 := mem_tail_of_prelude hx (ParsedOk_isPrelude hp) rfl
      simp at h1
    | chrootFailed p u0 g0 ce0 hp _ hc1 hc2 =>
      have h1 := mem_tail_of_prelude hx (ParsedOk_isPrelude hp) rfl
      simp at h1
      obtain ⟨_, _, e3, e4⟩ := h1
      subst e4
      exact ⟨e3, fun _ => ⟨rfl, rfl, hcaps⟩, fun hn => absurd ⟨hc1, hc2⟩ hn⟩
    | chrootWithoutIdentity _ u0 g0 hp _ _ _ =>
      exact absurd hx (not_mem_of_prelude (ParsedOk_isPrelude hp) _ rfl)
  | capsFailed d0 e0 h0 =>
    obtain ⟨h1, h2, pre, h3⟩ := late d0 h0 (some e0) [] (by simp [Event.isLate]) hx
    exact ⟨h1, fun hc => absurd hc h2, fun _ => ⟨pre, some e0, [], h3⟩⟩
  | stillRoot d0 h0 _ =>
    obtain ⟨h1, h2, pre, h3⟩ := late d0 h0 none [Event.isRoot true] (by simp [Event.isLate]) hx
    exact ⟨h1, fun hc => absurd hc h2, fun _ => ⟨pre, none, [Event.isRoot true], h3⟩⟩
  | checked d0 h0 _ =>
    obtain ⟨h1, h2, pre, h3⟩ := late d0 h0 none [Event.isRoot false] (by simp [Event.isLate]) hx
    exact ⟨h1, fun hc => absurd hc h2, fun _ => ⟨pre, none, [Event.isRoot false], h3⟩⟩
  | rootAllowed d0 h0 _ =>
    obtain ⟨h1, h2, pre, h3⟩ := late d0 h0 none [] (by simp [Event.isLate]) hx
    exact ⟨h1, fun hc => absurd hc h2, fun _ => ⟨pre, none, [], h3⟩⟩

/-- C7 (counterexample): the chroot flag names the service's default chroot
path "/var/empty" explicitly; the transition succeeds but reports a chroot
error; the call returns "Failed to chroot" and capability clearing is not
reached, although the chroot target is the default chroot path. -/
theorem default_chroot_fatal_counterexample :
    (flagsState "1000" "1000" "/var/empty").info.DefaultChroot = "/var/empty"
    ∧ (DropPrivileges (stub 0 (some "ENOENT") false)
        (flagsState "1000" "1000" "/var/empty")).trace
      = [Event.banSuid, Event.parseUID "1000" 1000 none, Event.parseGID "1000" 1000 none,
          Event.daemonDropPrivileges 1000 1000 "/var/empty" (some "ENOENT") none]
    ∧ (DropPrivileges (stub 0 (some "ENOENT") false)
        (flagsState "1000" "1000" "/var/empty")).err = some "Failed to chroot: ENOENT" := by
  decide

/-- C7 (amended): in a call with `dropped = false`, an identity-transition
error always makes the call return "Failed to drop privileges: ..." without
capability clearing; a chroot error with a successful identity transition
makes the call return "Failed to chroot: ..." without capability clearing
exactly when the chroot flag is neither empty nor "/" (whether or not it names
the default chroot path), and otherwise `caps.Drop` is the next call; the path
passed is the chroot flag, or the default chroot when the flag is empty, so a
failed chroot to the default path chosen for an empty flag is never fatal. -/
theorem chroot_failure_policy {W : Type} (c : Collab W) (s : State W)
    (hd : s.dropped = false) :
    (∀ u g path ce e,
      Event.daemonDropPrivileges u g path ce (some e) ∈ (DropPrivileges c s).trace →
      (DropPrivileges c s).err = some ("Failed to drop privileges: " ++ e)
      ∧ (DropPrivileges c s).st.dropped = false
      ∧ (DropPrivileges c s).trace.countP Event.isCapsDrop = 0)
    ∧ (∀ u g path ce,
      Event.daemonDropPrivileges u g path (some ce) none ∈ (DropPrivileges c s).trace →
      path = chrootPathOf s
      ∧ ((s.chrootFlag ≠ "" ∧ s.chrootFlag ≠ "/") →
          (DropPrivileges c s).err = some ("Failed to chroot: " ++ ce)
          ∧ (DropPrivileges c s).st.dropped = false
          ∧ (DropPrivileges c s).trace.countP Event.isCapsDrop = 0)
      ∧ (¬ (s.chrootFlag ≠ "" ∧ s.chrootFlag ≠ "/") →
          ∃ pre x rest, (DropPrivileges c s).trace = pre
            ++ [Event.daemonDropPrivileges u g path (some ce) none, Event.capsDrop x]
            ++ rest)) := by
  have h := DropPrivileges_run c s hd
  exact ⟨fun u g path ce e hx => Run_transition_failed h u g path ce e hx,
    fun u g path ce hx => Run_chroot_failed h u g path ce hx⟩

/-- C7 (witness): with an empty chroot flag the failed chroot to the default
path "/var/empty" is not fatal and `caps.Drop` follows; with the chroot flag
"/custom" the same chroot error is returned. -/
theorem chroot_failure_policy_witness :
    ((flagsState "1000" "1000" "").dropped = false
      ∧ ∃ pre x rest,
        (DropPrivileges (stub 0 (some "ENOENT") false) (flagsState "1000" "1000" "")).trace
        = pre ++ [Event.daemonDropPrivileges 1000 1000 "/var/empty" (some "ENOENT") none,
            Event.capsDrop x] ++ rest)
    ∧ ((flagsState "1000" "1000" "/custom").dropped = false
      ∧ (DropPrivileges (stub 0 (some "ENOENT") false)
          (flagsState "1000" "1000" "/custom")).err = some "Failed to chroot: ENOENT") :=
  ⟨⟨rfl,
      ((chroot_failure_policy (stub 0 (some "ENOENT") false) (flagsState "1000" "1000" "")
        rfl).2 1000 1000 "/var/empty" "ENOENT" (by decide)).2.2 (by decide)⟩,
    ⟨rfl,
      (((chroot_failure_policy (stub 0 (some "ENOENT") false)
        (flagsState "1000" "1000" "/custom") rfl).2 1000 1000 "/custom" "ENOENT"
        (by decide)).2.1 (by decide)).1⟩⟩

/-! ### The stages of `serviceMain` -/

theorem pidFileAndRun_cases {W : Type} (c : Collab W) (s : State W) (tr : List Event) :
    (s.pidfileFlag ≠ "" ∧ ∃ e, (pidFileAndRun c s tr).outcome = Outcome.returned (some e)
        ∧ (pidFileAndRun c s tr).trace = tr ++ [Event.openPIDFile s.pidfileFlag (some e)])
    ∨ (s.pidfileFlag ≠ "" ∧ ∃ x, (pidFileAndRun c s tr).outcome = Outcome.returned x
        ∧ (pidFileAndRun c s tr).trace = tr ++ [Event.openPIDFile s.pidfileFlag none,
            Event.runInteractively x, Event.closePIDFile])
    ∨ (s.pidfileFlag = "" ∧ ∃ x, (pidFileAndRun c s tr).outcome = Outcome.returned x
        ∧ (pidFileAndRun c s tr).trace = tr ++ [Event.runInteractively x]) := by
  simp only [pidFileAndRun]
  split
  next hp =>
    split
    next e he => exact Or.inl ⟨hp, e, rfl, by rw [he]⟩
    next he => exact Or.inr (Or.inl ⟨hp, _, rfl, by rw [he]; simp⟩)
  next hp => exact Or.inr (Or.inr ⟨by simpa using hp, _, rfl, rfl⟩)

theorem pidFileAndRun_run {W : Type} (c : Collab W) (s s1 : State W) (d : List Event)
    (hd : DaemonOk s d) (hp : s1.pidfileFlag = s.pidfileFlag) :
    MainRun s (pidFileAndRun c s1 d).outcome (pidFileAndRun c s1 d).trace := by
  rcases pidFileAndRun_cases c s1 d with ⟨h1, e, ho, ht⟩ | ⟨h1, x, ho, ht⟩ | ⟨h1, x, ho, ht⟩
  · rw [ho, ht, hp]; exact MainRun.openFailed d e hd (by rw [← hp]; exact h1)
  · rw [ho, ht, hp]; exact MainRun.ranWithPIDFile d x hd (by rw [← hp]; exact h1)
  · rw [ho, ht]; exact MainRun.ran d x hd (by rw [← hp]; exact h1)

theorem serviceMainFromInit_run {W : Type} (c : Collab W) (s s1 : State W) (f : List Event)
    (df : Bool) (hf : ForkOk s f df) (h1 : s1.daemonizeFlag = df)
    (h2 : s1.info.systemd = s.info.systemd) (h3 : s1.pidfileFlag = s.pidfileFlag) :
    MainRun s (serviceMainFromInit c s1 f).outcome (serviceMainFromInit c s1 f).trace := by
  cases hi : (c.daemonInit s1.world).1 with
  | some e =>
    simp only [serviceMainFromInit, hi]
    exact MainRun.initFailed f df e hf
  | none =>
    by_cases hc : df = true ∨ s.info.systemd = true
        ∨ (c.sdnotifySend "\n" (c.daemonInit s1.world).2).1 = none
    · have hc1 : s1.daemonizeFlag = true
          ∨ (if (c.sdnotifySend "\n" (c.daemonInit s1.world).2).1 = none then true
              else s1.info.systemd) = true := by
        rcases hc with h | h | h
        · exact Or.inl (h1.trans h)
        · right; rw [h2, h]; split <;> rfl
        · right; simp [h]
      cases hd : (c.daemonize (c.sdnotifySend "\n" (c.daemonInit s1.world).2).2).1 with
      | some e =>
        simp only [serviceMainFromInit, hi, hd, if_pos hc1, List.append_assoc,
          List.singleton_append]
        exact MainRun.daemonizeFailed f df _ e hf hc
      | none =>
        simp only [serviceMainFromInit, hi, hd, if_pos hc1, List.append_assoc,
          List.singleton_append]
        exact pidFileAndRun_run c s _ _ (DaemonOk.daemonized f df _ hf hc) h3
    · have hc1 : ¬ (s1.daemonizeFlag = true
          ∨ (if (c.sdnotifySend "\n" (c.daemonInit s1.world).2).1 = none then true
              else s1.info.systemd) = true) := by
        intro h
        apply hc
        rcases h with h | h
        · exact Or.inl (h1.symm.trans h)
        · split at h
          next hn => exact Or.inr (Or.inr hn)
          next => exact Or.inr (Or.inl (h2.symm.trans h))
      simp only [serviceMainFromInit, hi, if_neg hc1, List.append_assoc,
        List.singleton_append]
      exact pidFileAndRun_run c s _ _ (DaemonOk.foreground f df _ hf hc) h3

/-- Every call of `serviceMain` follows one of the paths of `MainRun`. -/
theorem serviceMain_run {W : Type} (c : Collab W) (s : State W) :
    MainRun s (serviceMain c s).outcome (serviceMain c s).trace := by
  cases hfork : s.forkFlag with
  | false =>
    simp only [serviceMain, hfork, Bool.false_eq_true, if_false]
    exact serviceMainFromInit_run c s s [] _ (ForkOk.noFork hfork) rfl rfl rfl
  | true =>
    simp only [serviceMain, hfork, if_true]
    cases he : (c.fork s.world).1.2 with
    | some e => exact MainRun.forkFailed _ e hfork
    | none =>
      cases hp : (c.fork s.world).1.1 with
      | true =>
        simp only [if_true]
        exact MainRun.parentExit hfork
      | false =>
        simp only [Bool.false_eq_true, if_false]
        exact serviceMainFromInit_run c s _ _ true (ForkOk.child hfork) rfl rfl rfl

/-! ### What the paths of `serviceMain` contain -/

theorem ForkOk_isStartup {W : Type} {s : State W} {f : List Event} {df : Bool}
    (h : ForkOk s f df) : ∀ e ∈ f, e.isStartup = true := by
  intro e he
  cases h with
  | noFork _ => simp at he
  | child _ => simp at he; subst he; rfl

theorem DaemonOk_isStartup {W : Type} {s : State W} {d : List Event} (h : DaemonOk s d) :
    ∀ e ∈ d, e.isStartup = true := by
  intro e he
  cases h with
  | foreground f df n hf _ =>
    rcases List.mem_append.1 he with h1 | h1
    · exact ForkOk_isStartup hf e h1
    · simp at h1; rcases h1 with h1 | h1 <;> subst h1 <;> rfl
  | daemonized f df n hf _ =>
    rcases List.mem_append.1 he with h1 | h1
    · exact ForkOk_isStartup hf e h1
    · simp at h1; rcases h1 with h1 | h1 | h1 <;> subst h1 <;> rfl

theorem failure_of_isStartup (e : Event) (h : e.isStartup = true) : e.failure = none := by
  match e, h with
  | Event.fork false none, _ => rfl
  | Event.daemonInit none, _ => rfl
  | Event.sdnotifySend _ _, _ => rfl
  | Event.daemonize none, _ => rfl

theorem mem_tail_of_startup {p tl : List Event} {x : Event} (hm : x ∈ p ++ tl)
    (hp : ∀ y ∈ p, y.isStartup = true) (hx : x.isStartup = false) : x ∈ tl := by
  rcases List.mem_append.1 hm with h | h
  · rw [hp x h] at hx; exact Bool.noConfusion hx
  · exact h

theorem not_mem_of_startup {p : List Event} (hp : ∀ y ∈ p, y.isStartup = true) (x : Event)
    (hx : x.isStartup = false) : x ∉ p := by
  intro h
  rw [hp x h] at hx
  exact Bool.noConfusion hx

theorem ForkOk_child {W : Type} {s : State W} {f : List Event} {df : Bool}
    (h : ForkOk s f df) (hf : s.forkFlag = true) : f = [Event.fork false none] ∧ df = true := by
  cases h with
  | noFork h0 => rw [hf] at h0; exact Bool.noConfusion h0
  | child _ => exact ⟨rfl, rfl⟩

/-- In fork mode, a successful `Init` is preceded by the fork into the child
and followed by the notification and by `Daemonize`. -/
theorem MainRun_fork_child {W : Type} {s : State W} {o : Outcome} {tr : List Event}
    (h : MainRun s o tr) (hf : s.forkFlag = true) (hx : Event.daemonInit none ∈ tr) :
    ∃ n d rest, tr = [Event.fork false none, Event.daemonInit none,
      Event.sdnotifySend "\n" n, Event.daemonize d] ++ rest
      ∧ (d ≠ none → rest = [] ∧ o = Outcome.returned d) := by
  have hd : ∀ d0, DaemonOk s d0 → ∃ n, d0 = [Event.fork false none, Event.daemonInit none,
      Event.sdnotifySend "\n" n, Event.daemonize none] := by
    intro d0 h0
    cases h0 with
    | foreground f df n h1 hn =>
      exact absurd (Or.inl (ForkOk_child h1 hf).2) hn
    | daemonized f df n h1 _ =>
      rw [(ForkOk_child h1 hf).1]
      exact ⟨n, rfl⟩
  cases h with
  | forkFailed b e _ => simp at hx
  | parentExit _ => simp at hx
  | initFailed f df e h1 =>
    rw [(ForkOk_child h1 hf).1] at hx
    simp at hx
  | daemonizeFailed f df n e h1 _ =>
    rw [(ForkOk_child h1 hf).1]
    exact ⟨n, some e, [], rfl, fun _ => ⟨rfl, rfl⟩⟩
  | openFailed d0 e h0 _ =>
    obtain ⟨n, hn⟩ := hd d0 h0
    rw [hn]
    exact ⟨n, none, _, rfl, fun hne => absurd rfl hne⟩
  | ranWithPIDFile d0 x h0 _ =>
    obtain ⟨n, hn⟩ := hd d0 h0
    rw [hn]
    exact ⟨n, none, _, rfl, fun hne => absurd rfl hne⟩
  | ran d0 x h0 _ =>
    obtain ⟨n, hn⟩ := hd d0 h0
    rw [hn]
    exact ⟨n, none, _, rfl, fun hne => absurd rfl hne⟩

/-- C8: with the fork flag set: a failed `Fork` is the only collaborator call
and its error is returned; in the parent of a successful fork the process
exits with status 0 and `Fork` is the only collaborator call; in the child the
call continues at `daemon.Init` with the daemon flag set to true, and whenever
`Init` then succeeds the notification and `Daemonize` follow, before any later
step, whatever the daemon flag was and whatever the notification returned. -/
theorem fork_mode {W : Type} (c : Collab W) (s : State W) (hf : s.forkFlag = true) :
    (∀ e, (c.fork s.world).1.2 = some e →
      (serviceMain c s).outcome = Outcome.returned (some e)
      ∧ (serviceMain c s).trace = [Event.fork (c.fork s.world).1.1 (some e)])
    ∧ ((c.fork s.world).1.2 = none → (c.fork s.world).1.1 = true →
      (serviceMain c s).outcome = Outcome.exited 0
      ∧ (serviceMain c s).trace = [Event.fork true none, Event.osExit 0])
    ∧ ((c.fork s.world).1.2 = none → (c.fork s.world).1.1 = false →
      serviceMain c s = serviceMainFromInit c
        { s with world := (c.fork s.world).2, daemonizeFlag := true } [Event.fork false none])
    ∧ (Event.daemonInit none ∈ (serviceMain c s).trace →
      ∃ n d rest, (serviceMain c s).trace = [Event.fork false none, Event.daemonInit none,
        Event.sdnotifySend "\n" n, Event.daemonize d] ++ rest
        ∧ (d ≠ none → rest = [] ∧ (serviceMain c s).outcome = Outcome.returned d)) := by
  refine ⟨?_, ?_, ?_, fun hx => MainRun_fork_child (serviceMain_run c s) hf hx⟩
  · intro e he
    simp [serviceMain, hf, he]
  · intro he hp
    simp [serviceMain, hf, he, hp]
  · intro he hp
    simp [serviceMain, hf, he, hp]

/-- C8 (witness): fork flag set, daemon flag false, the notification fails:
the parent exits with status 0 after the fork alone; the child calls
`Daemonize` before the entry point. -/
theorem fork_mode_witness :
    ((mainState true "").forkFlag = true
      ∧ (serviceMain (mainStub true none none) (mainState true "")).outcome = Outcome.exited 0
      ∧ (serviceMain (mainStub true none none) (mainState true "")).trace
          = [Event.fork true none, Event.osExit 0])
    ∧ ((mainState true "").daemonizeFlag = false
      ∧ ∃ n d rest, (serviceMain (mainStub false none none) (mainState true "")).trace
          = [Event.fork false none, Event.daemonInit none, Event.sdnotifySend "\n" n,
              Event.daemonize d] ++ rest
        ∧ (d ≠ none → rest = []
          ∧ (serviceMain (mainStub false none none) (mainState true "")).outcome
              = Outcome.returned d)) :=
  ⟨⟨rfl, (fork_mode (mainStub true none none) (mainState true "") rfl).2.1 rfl rfl⟩,
    ⟨rfl, (fork_mode (mainStub false none none) (mainState true "") rfl).2.2.2 (by decide)⟩⟩

/-- A failed `Fork`, `Init`, `Daemonize` or PID-file acquisition is the last
collaborator call of `serviceMain`, and its error is returned. -/
theorem MainRun_failure {W : Type} {s : State W} {o : Outcome} {tr : List Event}
    (h : MainRun s o tr) (ev : Event) (e : Error) (hx : ev ∈ tr)
    (hv : ev.failure = some e) :
    o = Outcome.returned (some e)
    ∧ (∃ pre, tr = pre ++ [ev] ∧ ∀ x ∈ pre, x.failure = none)
    ∧ (∀ x, Event.runInteractively x ∉ tr) ∧ Event.closePIDFile ∉ tr := by
  have startup : ∀ x : Event, x.isStartup = true → x ≠ ev := by
    intro x hs hxe
    rw [← hxe, failure_of_isStartup x hs] at hv
    exact Option.noConfusion hv
  have hstart : ev.isStartup = false := by
    cases hs : ev.isStartup
    · rfl
    · exact absurd rfl (startup ev hs)
  have nf : ∀ (p : List Event), (∀ y ∈ p, y.isStartup = true) → ∀ y ∈ p, y.failure = none :=
    fun p hp y hy => failure_of_isStartup y (hp y hy)
  cases h with
  | forkFailed b e0 _ =>
    simp at hx
    subst hx
    simp [Event.failure] at hv
    subst hv
    exact ⟨rfl, ⟨[], rfl, by simp⟩, by simp, by simp⟩
  | parentExit _ =>
    simp at hx
    rcases hx with hx | hx <;> subst hx <;> simp [Event.failure] at hv
  | initFailed f df e0 h1 =>
    have hp := ForkOk_isStartup h1
    have h2 := mem_tail_of_startup hx hp hstart
    simp at h2
    subst h2
    simp [Event.failure] at hv
    subst hv
    refine ⟨rfl, ⟨f, rfl, nf f hp⟩, ?_, ?_⟩
    · intro x hm
      have := mem_tail_of_startup hm hp rfl
      simp at this
    · intro hm
      have := mem_tail_of_startup hm hp rfl
      simp at this
  | daemonizeFailed f df n e0 h1 _ =>
    have hp := ForkOk_isStartup h1
    have h2 := mem_tail_of_startup hx hp hstart
    simp at h2
    rcases h2 with h2 | h2 | h2
    · subst h2; simp [Event.failure] at hv
    · subst h2; simp [Event.failure] at hv
    · subst h2
      simp [Event.failure] at hv
      subst hv
      refine ⟨rfl, ⟨f ++ [Event.daemonInit none, Event.sdnotifySend "\n" n], by simp, ?_⟩,
        ?_, ?_⟩
      · intro x hm
        rcases List.mem_append.1 hm with h3 | h3
        · exact nf f hp x h3
        · simp at h3; rcases h3 with h3 | h3 <;> subst h3 <;> rfl
      · intro x hm
        have := mem_tail_of_startup hm hp rfl
        simp at this
      · intro hm
        have := mem_tail_of_startup hm hp rfl
        simp at this
  | openFailed d0 e0 h0 _ =>
    have hp := DaemonOk_isStartup h0
    have h2 := mem_tail_of_startup hx hp hstart
    simp at h2
    subst h2
    simp [Event.failure] at hv
    subst hv
    refine ⟨rfl, ⟨d0, rfl, nf d0 hp⟩, ?_, ?_⟩
    · intro x hm
      have := mem_tail_of_startup hm hp rfl
      simp at this
    · intro hm
      have := mem_tail_of_startup hm hp rfl
      simp at this
  | ranWithPIDFile d0 x h0 _ =>
    have hp := DaemonOk_isStartup h0
    have h2 := mem_tail_of_startup hx hp hstart
    simp at h2
    rcases h2 with h2 | h2 | h2 <;> subst h2 <;> simp [Event.failure] at hv
  | ran d0 x h0 _ =>
    have hp := DaemonOk_isStartup h0
    have h2 := mem_tail_of_startup hx hp hstart
    simp at h2
    subst h2
    simp [Event.failure] at hv

/-- C9: in every call of `serviceMain`, a call of `Fork`, `Init`, `Daemonize`
or PID-file acquisition that reports an error is the last collaborator call,
no earlier one of them failed, `serviceMain` returns exactly that error, and
neither the entry point nor `closePIDFile` is invoked. -/
theorem serviceMain_terminal_on_failure {W : Type} (c : Collab W) (s : State W)
    (ev : Event) (e : Error) (hx : ev ∈ (serviceMain c s).trace)
    (hv : ev.failure = some e) :
    (serviceMain c s).outcome = Outcome.returned (some e)
    ∧ (∃ pre, (serviceMain c s).trace = pre ++ [ev] ∧ ∀ x ∈ pre, x.failure = none)
    ∧ (∀ x, Event.runInteractively x ∉ (serviceMain c s).trace)
    ∧ Event.closePIDFile ∉ (serviceMain c s).trace :=
  MainRun_failure (serviceMain_run c s) ev e hx hv

/-- C9 (witness): the PID file is locked by another instance: `serviceMain`
returns that error and the entry point does not run. -/
theorem serviceMain_terminal_on_failure_witness :
    (serviceMain (mainStub false (some "already running") none)
        (mainState false "/run/svc.pid")).outcome = Outcome.returned (some "already running")
    ∧ ∀ x, Event.runInteractively x ∉
        (serviceMain (mainStub false (some "already running") none)
          (mainState false "/run/svc.pid")).trace :=
  ⟨(serviceMain_terminal_on_failure (mainStub false (some "already running") none)
      (mainState false "/run/svc.pid")
      (Event.openPIDFile "/run/svc.pid" (some "already running")) "already running"
      (by decide) rfl).1,
    (serviceMain_terminal_on_failure (mainStub false (some "already running") none)
      (mainState false "/run/svc.pid")
      (Event.openPIDFile "/run/svc.pid" (some "already running")) "already running"
      (by decide) rfl).2.2.1⟩

theorem count_close_startup {p : List Event} (hp : ∀ y ∈ p, y.isStartup = true) :
    p.count Event.closePIDFile = 0 :=
  List.count_eq_zero.2 (not_mem_of_startup hp Event.closePIDFile rfl)

/-- The PID file is released exactly once after a successful acquisition, as
the last collaborator call and after the entry point, and never otherwise. -/
theorem MainRun_pidfile {W : Type} {s : State W} {o : Outcome} {tr : List Event}
    (h : MainRun s o tr) :
    (∀ name, Event.openPIDFile name none ∈ tr →
      name = s.pidfileFlag ∧ tr.count Event.closePIDFile = 1
      ∧ ∃ pre x, tr = pre ++ [Event.openPIDFile name none, Event.runInteractively x,
          Event.closePIDFile]
        ∧ Event.closePIDFile ∉ pre ∧ o = Outcome.returned x)
    ∧ ((∀ name, Event.openPIDFile name none ∉ tr) → Event.closePIDFile ∉ tr)
    ∧ (s.pidfileFlag = "" →
        Event.closePIDFile ∉ tr ∧ ∀ name oe, Event.openPIDFile name oe ∉ tr) := by
  have small : ∀ (f : List Event) (df : Bool), ForkOk s f df → ∀ tl : List Event,
      (∀ name, Event.openPIDFile name none ∉ tl) → Event.closePIDFile ∉ tl →
      (∀ name oe, Event.openPIDFile name oe ∉ tl) →
      (∀ name, Event.openPIDFile name none ∈ f ++ tl → False)
      ∧ Event.closePIDFile ∉ f ++ tl ∧ ∀ name oe, Event.openPIDFile name oe ∉ f ++ tl := by
    intro f df h1 tl a1 a2 a3
    have hp := ForkOk_isStartup h1
    exact ⟨fun name hm => a1 name (mem_tail_of_startup hm hp rfl),
      fun hm => a2 (mem_tail_of_startup hm hp rfl),
      fun name oe hm => a3 name oe (mem_tail_of_startup hm hp rfl)⟩
  cases h with
  | forkFailed b e _ => simp
  | parentExit _ => simp
  | initFailed f df e h1 =>
    obtain ⟨b1, b2, b3⟩ := small f df h1 [Event.daemonInit (some e)] (by simp) (by simp)
      (by simp)
    exact ⟨fun name hm => absurd hm (fun hm => b1 name hm), fun _ => b2, fun _ => ⟨b2, b3⟩⟩
  | daemonizeFailed f df n e h1 _ =>
    obtain ⟨b1, b2, b3⟩ := small f df h1 [Event.daemonInit none, Event.sdnotifySend "\n" n,
      Event.daemonize (some e)] (by simp) (by simp) (by simp)
    exact ⟨fun name hm => absurd hm (fun hm => b1 name hm), fun _ => b2, fun _ => ⟨b2, b3⟩⟩
  | openFailed d0 e h0 hne =>
    have hp := DaemonOk_isStartup h0
    refine ⟨?_, ?_, fun he => absurd he hne⟩
    · intro name hm
      have := mem_tail_of_startup hm hp rfl
      simp at this
    · intro _ hm
      have := mem_tail_of_startup hm hp rfl
      simp at this
  | ranWithPIDFile d0 x h0 hne =>
    have hp := DaemonOk_isStartup h0
    refine ⟨?_, ?_, fun he => absurd he hne⟩
    · intro name hm
      have h2 := mem_tail_of_startup hm hp rfl
      simp at h2
      subst h2
      refine ⟨rfl, ?_, d0, x, rfl, not_mem_of_startup hp _ rfl, rfl⟩
      rw [List.count_append, count_close_startup hp]
      simp [List.count_cons]
    · intro hn
      exact absurd (List.mem_append_right d0 (by simp)) (hn s.pidfileFlag)
  | ran d0 x h0 he =>
    have hp := DaemonOk_isStartup h0
    refine ⟨?_, ?_, fun _ => ⟨?_, ?_⟩⟩
    · intro name hm
      have := mem_tail_of_startup hm hp rfl
      simp at this
    · intro _ hm
      have := mem_tail_of_startup hm hp rfl
      simp at this
    · intro hm
      have := mem_tail_of_startup hm hp rfl
      simp at this
    · intro name oe hm
      have := mem_tail_of_startup hm hp rfl
      simp at this

/-! ### The release of the PID file in the world -/

/-- The state `pidFileAndRun` leaves behind, case by case: the release is
applied to the world the entry point left, once, after a successful
acquisition, and not at all otherwise. -/
theorem pidFileAndRun_state {W : Type} (c : Collab W) (s : State W) (tr : List Event) :
    (s.pidfileFlag = "" →
      pidFileAndRun c s tr = ⟨Outcome.returned (c.runInteractively s).1,
        (c.runInteractively s).2, tr ++ [Event.runInteractively (c.runInteractively s).1]⟩)
    ∧ (∀ e, s.pidfileFlag ≠ "" → (c.openPIDFile s.pidfileFlag s.world).1 = some e →
      pidFileAndRun c s tr = ⟨Outcome.returned (some e),
        { s with info := { s.info with pidFileName := s.pidfileFlag },
                 world := (c.openPIDFile s.pidfileFlag s.world).2 },
        tr ++ [Event.openPIDFile s.pidfileFlag (some e)]⟩)
    ∧ (s.pidfileFlag ≠ "" → (c.openPIDFile s.pidfileFlag s.world).1 = none →
      pidFileAndRun c s tr = ⟨Outcome.returned
          (c.runInteractively
            { s with info := { s.info with pidFileName := s.pidfileFlag },
                     world := (c.openPIDFile s.pidfileFlag s.world).2 }).1,
        { (c.runInteractively
            { s with info := { s.info with pidFileName := s.pidfileFlag },
                     world := (c.openPIDFile s.pidfileFlag s.world).2 }).2 with
          world := c.closePIDFile (c.runInteractively
            { s with info := { s.info with pidFileName := s.pidfileFlag },
                     world := (c.openPIDFile s.pidfileFlag s.world).2 }).2.world },
        tr ++ [Event.openPIDFile s.pidfileFlag none,
          Event.runInteractively (c.runInteractively
            { s with info := { s.info with pidFileName := s.pidfileFlag },
                     world := (c.openPIDFile s.pidfileFlag s.world).2 }).1,
          Event.closePIDFile]⟩) := by
  refine ⟨?_, ?_, ?_⟩
  · intro hp
    simp [pidFileAndRun, hp]
  · intro e hp ho
    simp [pidFileAndRun, hp, ho]
  · intro hp ho
    simp [pidFileAndRun, hp, ho]

theorem pidFileAndRun_count {W : Type} (c : Collab W) (cnt : W → Nat)
    (hc : ReleaseCounter c cnt) (s : State W) (tr : List Event) :
    cnt (pidFileAndRun c s tr).st.world + tr.count Event.closePIDFile
      = cnt s.world + (pidFileAndRun c s tr).trace.count Event.closePIDFile := by
  obtain ⟨_, _, _, _, hopen, hrun, hclose⟩ := hc
  by_cases hp : s.pidfileFlag = ""
  · rw [(pidFileAndRun_state c s tr).1 hp]
    simp only [List.count_append]
    rw [hrun]
    simp [List.count_cons]
  · cases ho : (c.openPIDFile s.pidfileFlag s.world).1 with
    | some e =>
      rw [(pidFileAndRun_state c s tr).2.1 e hp ho]
      simp only [List.count_append]
      rw [hopen]
      simp [List.count_cons]
    | none =>
      rw [(pidFileAndRun_state c s tr).2.2 hp ho]
      simp only [List.count_append]
      rw [hclose, hrun, hopen]
      simp [List.count_cons]
      omega

theorem serviceMainFromInit_count {W : Type} (c : Collab W) (cnt : W → Nat)
    (hc : ReleaseCounter c cnt) (s : State W) (f : List Event) :
    cnt (serviceMainFromInit c s f).st.world + f.count Event.closePIDFile
      = cnt s.world + (serviceMainFromInit c s f).trace.count Event.closePIDFile := by
  have step : ∀ (s2 : State W) (tr2 : List Event), cnt s2.world = cnt s.world →
      tr2.count Event.closePIDFile = f.count Event.closePIDFile →
      cnt (pidFileAndRun c s2 tr2).st.world + f.count Event.closePIDFile
        = cnt s.world + (pidFileAndRun c s2 tr2).trace.count Event.closePIDFile := by
    intro s2 tr2 h1 h2
    have := pidFileAndRun_count c cnt hc s2 tr2
    omega
  obtain ⟨_, hinit, hnotify, hdaemonize, _, _, _⟩ := hc
  cases hi : (c.daemonInit s.world).1 with
  | some e =>
    simp only [serviceMainFromInit, hi, List.count_append]
    rw [hinit]
    simp [List.count_cons]
  | none =>
    by_cases hcnd : s.daemonizeFlag = true
        ∨ (if (c.sdnotifySend "\n" (c.daemonInit s.world).2).1 = none then true
            else s.info.systemd) = true
    · cases hd : (c.daemonize (c.sdnotifySend "\n" (c.daemonInit s.world).2).2).1 with
      | some e =>
        simp only [serviceMainFromInit, hi, hd, if_pos hcnd, List.count_append]
        rw [hdaemonize, hnotify, hinit]
        simp [List.count_cons]
      | none =>
        simp only [serviceMainFromInit, hi, hd, if_pos hcnd]
        exact step _ _ (by simp only []; rw [hdaemonize, hnotify, hinit])
          (by simp [List.count_append, List.count_cons])
    · simp only [serviceMainFromInit, hi, if_neg hcnd]
      exact step _ _ (by simp only []; rw [hnotify, hinit])
        (by simp [List.count_append, List.count_cons])

/-- The world after `serviceMain` has seen as many releases of the PID file as
the trace has `closePIDFile` events. -/
theorem serviceMain_count {W : Type} (c : Collab W) (cnt : W → Nat)
    (hc : ReleaseCounter c cnt) (s : State W) :
    cnt (serviceMain c s).st.world
      = cnt s.world + (serviceMain c s).trace.count Event.closePIDFile := by
  have hfork := hc.1
  by_cases hf : s.forkFlag = true
  · simp only [serviceMain, if_pos hf]
    cases he : (c.fork s.world).1.2 with
    | some e =>
      simp only []
      rw [hfork]
      simp [List.count_cons]
    | none =>
      cases hp : (c.fork s.world).1.1 with
      | true =>
        simp only [if_true]
        rw [hfork]
        simp [List.count_cons]
      | false =>
        simp only [Bool.false_eq_true, if_false]
        have := serviceMainFromInit_count c cnt hc
          { s with world := (c.fork s.world).2, daemonizeFlag := true } [Event.fork false none]
        simp only [] at this
        rw [hfork] at this
        have h0 : [Event.fork false none].count Event.closePIDFile = 0 := by
          simp [List.count_cons]
        rw [h0] at this
        simpa using this
  · simp only [serviceMain, if_neg hf]
    have := serviceMainFromInit_count c cnt hc s []
    simpa using this

theorem isPidPhase_of_isStartup (e : Event) (h : e.isStartup = true) :
    e.isPidPhase = false := by
  match e, h with
  | Event.fork false none, _ => rfl
  | Event.daemonInit none, _ => rfl
  | Event.sdnotifySend _ _, _ => rfl
  | Event.daemonize none, _ => rfl

theorem no_pidPhase {f tl : List Event} (hf : ∀ e ∈ f, e.isStartup = true)
    (htl : ∀ e ∈ tl, e.isPidPhase = false) :
    ¬ ∃ e ∈ f ++ tl, e.isPidPhase = true := by
  rintro ⟨e, he, hp⟩
  rcases List.mem_append.1 he with h | h
  · rw [isPidPhase_of_isStartup e (hf e h)] at hp
    exact Bool.noConfusion hp
  · rw [htl e h] at hp
    exact Bool.noConfusion hp

/-- A run of lines 67-96 whose trace has an event of the PID-file phase has
reached line 84: it is a run of `pidFileAndRun`. -/
theorem serviceMainFromInit_reach {W : Type} (c : Collab W) (s : State W) (f : List Event)
    (hf : ∀ e ∈ f, e.isStartup = true)
    (hx : ∃ e ∈ (serviceMainFromInit c s f).trace, e.isPidPhase = true) :
    ∃ s1 tr1, serviceMainFromInit c s f = pidFileAndRun c s1 tr1
      ∧ s1.pidfileFlag = s.pidfileFlag ∧ ∀ e ∈ tr1, e.isStartup = true := by
  cases hi : (c.daemonInit s.world).1 with
  | some e =>
    exfalso
    simp only [serviceMainFromInit, hi] at hx
    exact no_pidPhase hf (by intro y hy; simp at hy; subst hy; rfl) hx
  | none =>
    by_cases hcnd : s.daemonizeFlag = true
        ∨ (if (c.sdnotifySend "\n" (c.daemonInit s.world).2).1 = none then true
            else s.info.systemd) = true
    · cases hd : (c.daemonize (c.sdnotifySend "\n" (c.daemonInit s.world).2).2).1 with
      | some e =>
        exfalso
        simp only [serviceMainFromInit, hi, hd, if_pos hcnd, List.append_assoc] at hx
        exact no_pidPhase hf
          (by intro y hy; simp at hy; rcases hy with hy | hy | hy <;> subst hy <;> rfl) hx
      | none =>
        refine ⟨{ s with
            world := (c.daemonize (c.sdnotifySend "\n" (c.daemonInit s.world).2).2).2,
            info := { s.info with
              systemd := if (c.sdnotifySend "\n" (c.daemonInit s.world).2).1 = none then true
                         else s.info.systemd } },
          f ++ [Event.daemonInit none]
            ++ [Event.sdnotifySend "\n" (c.sdnotifySend "\n" (c.daemonInit s.world).2).1]
            ++ [Event.daemonize none], ?_, rfl, ?_⟩
        · simp only [serviceMainFromInit, hi, hd, if_pos hcnd]
        · intro y hy
          simp only [List.mem_append, List.mem_singleton] at hy
          rcases hy with ((hy | hy) | hy) | hy
          · exact hf y hy
          · subst hy; rfl
          · subst hy; rfl
          · subst hy; rfl
    · refine ⟨{ s with
          world := (c.sdnotifySend "\n" (c.daemonInit s.world).2).2,
          info := { s.info with
            systemd := if (c.sdnotifySend "\n" (c.daemonInit s.world).2).1 = none then true
                       else s.info.systemd } },
        f ++ [Event.daemonInit none]
          ++ [Event.sdnotifySend "\n" (c.sdnotifySend "\n" (c.daemonInit s.world).2).1],
        ?_, rfl, ?_⟩
      · simp only [serviceMainFromInit, hi, if_neg hcnd]
      · intro y hy
        simp only [List.mem_append, List.mem_singleton] at hy
        rcases hy with (hy | hy) | hy
        · exact hf y hy
        · subst hy; rfl
        · subst hy; rfl

/-- A run of `serviceMain` whose trace has an event of the PID-file phase is a
run of `pidFileAndRun` from a state with the same PID-file flag. -/
theorem serviceMain_reach {W : Type} (c : Collab W) (s : State W)
    (hx : ∃ e ∈ (serviceMain c s).trace, e.isPidPhase = true) :
    ∃ s1 tr1, serviceMain c s = pidFileAndRun c s1 tr1
      ∧ s1.pidfileFlag = s.pidfileFlag ∧ ∀ e ∈ tr1, e.isStartup = true := by
  by_cases hf : s.forkFlag = true
  · simp only [serviceMain, if_pos hf] at hx ⊢
    cases he : (c.fork s.world).1.2 with
    | some e =>
      exfalso
      simp only [he] at hx
      obtain ⟨y, hy, hp⟩ := hx
      simp at hy
      subst hy
      exact Bool.noConfusion hp
    | none =>
      cases hp : (c.fork s.world).1.1 with
      | true =>
        exfalso
        simp only [he, hp, if_true] at hx
        obtain ⟨y, hy, hq⟩ := hx
        simp at hy
        rcases hy with hy | hy <;> subst hy <;> exact Bool.noConfusion hq
      | false =>
        simp only [he, hp, Bool.false_eq_true, if_false] at hx ⊢
        exact serviceMainFromInit_reach c _ _
          (by intro y hy; simp at hy; subst hy; rfl) hx
  · simp only [serviceMain, if_neg hf] at hx ⊢
    exact serviceMainFromInit_reach c s [] (by intro y hy; simp at hy) hx

/-- After a successful acquisition the final state of `serviceMain` is the
state the entry point left, with `closePIDFile` applied to its world. -/
theorem serviceMain_released {W : Type} (c : Collab W) (s : State W) (name : String)
    (hx : Event.openPIDFile name none ∈ (serviceMain c s).trace) :
    ∃ s1, s1.pidfileFlag = s.pidfileFlag
      ∧ (c.openPIDFile s1.pidfileFlag s1.world).1 = none
      ∧ (serviceMain c s).outcome
          = Outcome.returned (c.runInteractively (afterOpen c s1)).1
      ∧ (serviceMain c s).st
          = { (c.runInteractively (afterOpen c s1)).2 with
              world := c.closePIDFile (c.runInteractively (afterOpen c s1)).2.world } := by
  obtain ⟨s1, tr1, heq, hpf, htr⟩ := serviceMain_reach c s ⟨_, hx, rfl⟩
  rw [heq] at hx ⊢
  have hnot : ∀ oe, Event.openPIDFile name oe ∉ tr1 := fun oe hm =>
    not_mem_of_startup htr (Event.openPIDFile name oe) rfl hm
  by_cases hp : s1.pidfileFlag = ""
  · exfalso
    rw [(pidFileAndRun_state c s1 tr1).1 hp] at hx
    rcases List.mem_append.1 hx with h | h
    · exact hnot none h
    · simp at h
  · cases ho : (c.openPIDFile s1.pidfileFlag s1.world).1 with
    | some e =>
      exfalso
      rw [(pidFileAndRun_state c s1 tr1).2.1 e hp ho] at hx
      rcases List.mem_append.1 hx with h | h
      · exact hnot none h
      · simp at h
    | none =>
      rw [(pidFileAndRun_state c s1 tr1).2.2 hp ho]
      exact ⟨s1, hpf, ho, rfl, rfl⟩

/-- C10: in every call of `serviceMain`: after a successful PID-file
acquisition `closePIDFile` is invoked exactly once, as the last collaborator
call, right after the entry point has returned, and `serviceMain` returns what
the entry point returned, error or not; without a successful acquisition (none
configured, failed, or not reached) `closePIDFile` is never invoked.  The
release is made in the world, not only recorded: after a successful
acquisition the final state is the state the entry point left with
`closePIDFile` applied to its world; for every observer of the world that
`closePIDFile` raises by one and the other collaborators leave alone, the
final world has seen exactly as many releases as the trace has `closePIDFile`
events; and lines 84-96 leave the world the entry point left (no PID file
configured) or the world `OpenPIDFile` left (acquisition failed) untouched. -/
theorem pidfile_released_once {W : Type} (c : Collab W) (s : State W) :
    (∀ name, Event.openPIDFile name none ∈ (serviceMain c s).trace →
      name = s.pidfileFlag ∧ (serviceMain c s).trace.count Event.closePIDFile = 1
      ∧ ∃ pre x, (serviceMain c s).trace = pre ++ [Event.openPIDFile name none,
          Event.runInteractively x, Event.closePIDFile]
        ∧ Event.closePIDFile ∉ pre ∧ (serviceMain c s).outcome = Outcome.returned x)
    ∧ ((∀ name, Event.openPIDFile name none ∉ (serviceMain c s).trace) →
        Event.closePIDFile ∉ (serviceMain c s).trace)
    ∧ (s.pidfileFlag = "" →
        Event.closePIDFile ∉ (serviceMain c s).trace
        ∧ ∀ name oe, Event.openPIDFile name oe ∉ (serviceMain c s).trace)
    ∧ (∀ name, Event.openPIDFile name none ∈ (serviceMain c s).trace →
        ∃ s1, s1.pidfileFlag = s.pidfileFlag
          ∧ (c.openPIDFile s1.pidfileFlag s1.world).1 = none
          ∧ (serviceMain c s).outcome
              = Outcome.returned (c.runInteractively (afterOpen c s1)).1
          ∧ (serviceMain c s).st
              = { (c.runInteractively (afterOpen c s1)).2 with
                  world := c.closePIDFile (c.runInteractively (afterOpen c s1)).2.world })
    ∧ (∀ cnt : W → Nat, ReleaseCounter c cnt →
        cnt (serviceMain c s).st.world
          = cnt s.world + (serviceMain c s).trace.count Event.closePIDFile)
    ∧ (∀ (s1 : State W) (tr : List Event),
        (s1.pidfileFlag = "" → (pidFileAndRun c s1 tr).st = (c.runInteractively s1).2)
        ∧ (∀ e, s1.pidfileFlag ≠ "" → (c.openPIDFile s1.pidfileFlag s1.world).1 = some e →
            (pidFileAndRun c s1 tr).st = afterOpen c s1)
        ∧ (s1.pidfileFlag ≠ "" → (c.openPIDFile s1.pidfileFlag s1.world).1 = none →
            (pidFileAndRun c s1 tr).st
              = { (c.runInteractively (afterOpen c s1)).2 with
                  world := c.closePIDFile (c.runInteractively (afterOpen c s1)).2.world })) := by
  obtain ⟨h1, h2, h3⟩ := MainRun_pidfile (serviceMain_run c s)
  refine ⟨h1, h2, h3, fun name hx => serviceMain_released c s name hx,
    fun cnt hc => serviceMain_count c cnt hc s, ?_⟩
  intro s1 tr
  refine ⟨?_, ?_, ?_⟩
  · intro hp
    rw [(pidFileAndRun_state c s1 tr).1 hp]
  · intro e hp ho
    rw [(pidFileAndRun_state c s1 tr).2.1 e hp ho]
    rfl
  · intro hp ho
    rw [(pidFileAndRun_state c s1 tr).2.2 hp ho]
    rfl

/-- C10 (witness): with PID file "/run/svc.pid" acquired and an entry point
that returns an error, `closePIDFile` is invoked once, the error is returned
and the world, which counts the releases, ends at one; with no PID file
configured, and with a failed acquisition, it is not invoked and the world
ends at zero. -/
theorem pidfile_released_once_witness :
    ((serviceMain (mainStub false none (some "boom")) (mainState false "/run/svc.pid")).trace.count
        Event.closePIDFile = 1
      ∧ ∃ pre x, (serviceMain (mainStub false none (some "boom"))
          (mainState false "/run/svc.pid")).trace
          = pre ++ [Event.openPIDFile "/run/svc.pid" none, Event.runInteractively x,
              Event.closePIDFile]
        ∧ Event.closePIDFile ∉ pre
        ∧ (serviceMain (mainStub false none (some "boom"))
            (mainState false "/run/svc.pid")).outcome = Outcome.returned x)
    ∧ Event.closePIDFile ∉ (serviceMain (mainStub false none none) (mainState false "")).trace
    ∧ ((serviceMain (releaseStub none (some "boom")) (mainState false "/run/svc.pid")).st.world
        = (mainState false "/run/svc.pid").world
          + (serviceMain (releaseStub none (some "boom"))
              (mainState false "/run/svc.pid")).trace.count Event.closePIDFile
      ∧ (serviceMain (releaseStub none (some "boom")) (mainState false "/run/svc.pid")).st.world
        = 1)
    ∧ ((serviceMain (releaseStub none none) (mainState false "")).st.world
        = (mainState false "").world
          + (serviceMain (releaseStub none none) (mainState false "")).trace.count
              Event.closePIDFile
      ∧ (serviceMain (releaseStub none none) (mainState false "")).st.world = 0)
    ∧ ((serviceMain (releaseStub (some "already running") none)
          (mainState false "/run/svc.pid")).st.world
        = (mainState false "/run/svc.pid").world
          + (serviceMain (releaseStub (some "already running") none)
              (mainState false "/run/svc.pid")).trace.count Event.closePIDFile
      ∧ (serviceMain (releaseStub (some "already running") none)
          (mainState false "/run/svc.pid")).st.world = 0) :=
  ⟨((pidfile_released_once (mainStub false none (some "boom"))
      (mainState false "/run/svc.pid")).1 "/run/svc.pid" (by decide)).2,
    ((pidfile_released_once (mainStub false none none) (mainState false "")).2.2.1 rfl).1,
    ⟨(pidfile_released_once (releaseStub none (some "boom"))
        (mainState false "/run/svc.pid")).2.2.2.2.1 (fun w => w)
        ⟨fun _ => rfl, fun _ => rfl, fun _ _ => rfl, fun _ => rfl, fun _ _ => rfl,
          fun _ => rfl, fun _ => rfl⟩,
      by decide⟩,
    ⟨(pidfile_released_once (releaseStub none none)
        (mainState false "")).2.2.2.2.1 (fun w => w)
        ⟨fun _ => rfl, fun _ => rfl, fun _ _ => rfl, fun _ => rfl, fun _ _ => rfl,
          fun _ => rfl, fun _ => rfl⟩,
      by decide⟩,
    ⟨(pidfile_released_once (releaseStub (some "already running") none)
        (mainState false "/run/svc.pid")).2.2.2.2.1 (fun w => w)
        ⟨fun _ => rfl, fun _ => rfl, fun _ _ => rfl, fun _ => rfl, fun _ _ => rfl,
          fun _ => rfl, fun _ => rfl⟩,
      by decide⟩⟩

/-! ### The identity passed to the transition -/

theorem ParsedOk_pos {W : Type} {s : State W} {p : List Event} {u g : Int}
    (h : ParsedOk s p u g) (hu : 0 < u) : 0 < g ∧ s.uidFlag ≠ "" := by
  cases h with
  | unset _ _ _ => omega
  | parsed l t u g _ hne hm => exact ⟨by omega, hne⟩

/-- Every transition event of a run carries a positive UID and GID and the
chroot path selected by lines 129-136. -/
theorem Run_transition_positive {W : Type} {s : State W} {err : Option Error} {d : Bool}
    {tr : List Event} (h : Run s err d tr) (u g : Int) (path : String)
    (ce oe : Option Error) (hx : Event.daemonDropPrivileges u g path ce oe ∈ tr) :
    0 < u ∧ 0 < g ∧ path = chrootPathOf s ∧ s.uidFlag ≠ "" := by
  have dropped : ∀ d0, DroppedOk s d0 → Event.daemonDropPrivileges u g path ce oe ∈ d0 →
      0 < u ∧ 0 < g ∧ path = chrootPathOf s ∧ s.uidFlag ≠ "" := by
    intro d0 h0 hm
    cases h0 with
    | noIdentity _ u0 g0 hp _ _ =>
      exact absurd hm (not_mem_of_prelude (ParsedOk_isPrelude hp) _ rfl)
    | transition p u0 g0 ce0 hp hpos _ =>
      have h1 := mem_tail_of_prelude hm (ParsedOk_isPrelude hp) rfl
      simp at h1
      obtain ⟨e1, e2, e3, _, _⟩ := h1
      subst e1 e2 e3
      exact ⟨hpos, (ParsedOk_pos hp hpos).1, rfl, (ParsedOk_pos hp hpos).2⟩
  have late : ∀ d0, DroppedOk s d0 → ∀ tl : List Event, (∀ x ∈ tl, x.isLate = true) →
      Event.daemonDropPrivileges u g path ce oe ∈ d0 ++ tl →
      0 < u ∧ 0 < g ∧ path = chrootPathOf s ∧ s.uidFlag ≠ "" := by
    intro d0 h0 tl htl hm
    rcases List.mem_append.1 hm with h1 | h1
    · exact dropped d0 h0 h1
    · exact Bool.noConfusion (htl _ h1)
  cases h with
  | early e0 tr he =>
    cases he with
    | lookupFailed g0 e0 _ _ =>
      have h1 := mem_tail_of_prelude hx (banTrace_isPrelude s) rfl
      simp at h1
    | parseUIDFailed l u0 e0 hf _ =>
      have h1 := mem_tail_of_prelude hx (FixupsOk_isPrelude hf) rfl
      simp at h1
    | parseGIDFailed l t0 u0 g0 e0 hf _ =>
      have h1 := mem_tail_of_prelude hx (FixupsOk_isPrelude hf) rfl
      simp at h1
    | mismatch l t0 u0 g0 hf _ _ =>
      have h1 := mem_tail_of_prelude hx (FixupsOk_isPrelude hf) rfl
      simp at h1
    | transitionFailed p u0 g0 ce0 e0 hp hpos =>
      have h1 := mem_tail_of_prelude hx (ParsedOk_isPrelude hp) rfl
      simp at h1
      obtain ⟨e1, e2, e3, _, _⟩ := h1
      subst e1 e2 e3
      exact ⟨hpos, (ParsedOk_pos hp hpos).1, rfl, (ParsedOk_pos hp hpos).2⟩
    | chrootFailed p u0 g0 ce0 hp hpos _ _ =>
      have h1 := mem_tail_of_prelude hx (ParsedOk_isPrelude hp) rfl
      simp at h1
      obtain ⟨e1, e2, e3, _, _⟩ := h1
      subst e1 e2 e3
      exact ⟨hpos, (ParsedOk_pos hp hpos).1, rfl, (ParsedOk_pos hp hpos).2⟩
    | chrootWithoutIdentity _ u0 g0 hp _ _ _ =>
      exact absurd hx (not_mem_of_prelude (ParsedOk_isPrelude hp) _ rfl)
  | capsFailed d0 e0 h0 => exact late d0 h0 _ (by simp [Event.isLate]) hx
  | stillRoot d0 h0 _ => exact late d0 h0 _ (by simp [Event.isLate]) hx
  | checked d0 h0 _ => exact late d0 h0 _ (by simp [Event.isLate]) hx
  | rootAllowed d0 h0 _ => exact late d0 h0 _ (by simp [Event.isLate]) hx

theorem transitions_late (tl : List Event) (h : ∀ x ∈ tl, x.isLate = true) :
    transitions tl = 0 := by
  simp only [transitions, List.countP_eq_zero]
  intro e he
  have := h e he
  cases e <;> simp_all [Event.isLate, Event.isTransition]

theorem ParsedOk_tail_parse {W : Type} {s : State W} {p : List Event} {u0 g0 : Int}
    (hp : ParsedOk s p u0 g0) (tl : List Event) (htl : ∀ x ∈ tl, x.isPrelude = false) :
    (∀ t v, Event.parseUID t v none ∈ p ++ tl → v = u0)
    ∧ (∀ t v, Event.parseGID t v none ∈ p ++ tl → v = g0) := by
  constructor
  · intro t v hm
    rcases List.mem_append.1 hm with h | h
    · exact ((ParsedOk_parse_mem hp).1 t v h).1
    · exact Bool.noConfusion (htl _ h)
  · intro t v hm
    rcases List.mem_append.1 hm with h | h
    · exact ((ParsedOk_parse_mem hp).2 t v h).1
    · exact Bool.noConfusion (htl _ h)

/-- When both identifiers were parsed, the UID is positive and the
both-or-neither check passes, the transition is invoked exactly once, with the
parsed UID, the parsed GID and the selected chroot path. -/
theorem Run_parsed_transition {W : Type} {s : State W} {err : Option Error} {d : Bool}
    {tr : List Event} (h : Run s err d tr) (t t1 : String) (u g : Int)
    (h1 : Event.parseUID t u none ∈ tr) (h2 : Event.parseGID t1 g none ∈ tr)
    (hu : 0 < u) (hm : u ≤ 0 ↔ g ≤ 0) :
    transitions tr = 1
    ∧ ∃ ce oe, Event.daemonDropPrivileges u g (chrootPathOf s) ce oe ∈ tr := by
  have early : ∀ (p : List Event) (u0 g0 : Int) (ce oe : Option Error), ParsedOk s p u0 g0 →
      Event.parseUID t u none ∈ p ++ [Event.daemonDropPrivileges u0 g0 (chrootPathOf s) ce oe] →
      Event.parseGID t1 g none ∈ p ++ [Event.daemonDropPrivileges u0 g0 (chrootPathOf s) ce oe] →
      transitions (p ++ [Event.daemonDropPrivileges u0 g0 (chrootPathOf s) ce oe]) = 1
      ∧ ∃ ce1 oe1, Event.daemonDropPrivileges u g (chrootPathOf s) ce1 oe1
          ∈ p ++ [Event.daemonDropPrivileges u0 g0 (chrootPathOf s) ce oe] := by
    intro p u0 g0 ce oe hp m1 m2
    have e1 := (ParsedOk_tail_parse hp _ (by simp [Event.isPrelude])).1 t u m1
    have e2 := (ParsedOk_tail_parse hp _ (by simp [Event.isPrelude])).2 t1 g m2
    subst e1 e2
    refine ⟨?_, ce, oe, by simp⟩
    rw [transitions_append, transitions_prelude _ (ParsedOk_isPrelude hp)]
    rfl
  have late : ∀ d0, DroppedOk s d0 → ∀ tl : List Event, (∀ x ∈ tl, x.isLate = true) →
      Event.parseUID t u none ∈ d0 ++ tl → Event.parseGID t1 g none ∈ d0 ++ tl →
      transitions (d0 ++ tl) = 1
      ∧ ∃ ce oe, Event.daemonDropPrivileges u g (chrootPathOf s) ce oe ∈ d0 ++ tl := by
    intro d0 h0 tl htl m1 m2
    have n1 : Event.parseUID t u none ∈ d0 := by
      rcases List.mem_append.1 m1 with h | h
      · exact h
      · exact Bool.noConfusion (htl _ h)
    have n2 : Event.parseGID t1 g none ∈ d0 := by
      rcases List.mem_append.1 m2 with h | h
      · exact h
      · exact Bool.noConfusion (htl _ h)
    rw [transitions_append, transitions_late tl htl]
    cases h0 with
    | noIdentity _ u0 g0 hp hle _ =>
      have := ((ParsedOk_parse_mem hp).1 t u n1).1
      omega
    | transition p u0 g0 ce0 hp _ _ =>
      obtain ⟨a1, ce1, oe1, a2⟩ := early p u0 g0 ce0 none hp n1 n2
      exact ⟨a1, ce1, oe1, List.mem_append_left _ a2⟩
  cases h with
  | early e0 tr he =>
    cases he with
    | lookupFailed g0 e0 _ _ =>
      rcases List.mem_append.1 h1 with h | h
      · exact absurd h (not_mem_of_lookup (banTrace_isLookup s) _ rfl)
      · simp at h
    | parseUIDFailed l u0 e0 hf _ =>
      rcases List.mem_append.1 h1 with h | h
      · exact absurd h (not_mem_of_lookup (FixupsOk_isLookup hf) _ rfl)
      · simp at h
    | parseGIDFailed l t0 u0 g0 e0 hf _ =>
      rcases List.mem_append.1 h2 with h | h
      · exact absurd h (not_mem_of_lookup (FixupsOk_isLookup hf) _ rfl)
      · simp at h
    | mismatch l t0 u0 g0 hf _ hn =>
      exfalso
      apply hn
      have a1 : u = u0 := by
        rcases List.mem_append.1 h1 with h | h
        · exact absurd h (not_mem_of_lookup (FixupsOk_isLookup hf) _ rfl)
        · simp at h; exact h.2
      have a2 : g = g0 := by
        rcases List.mem_append.1 h2 with h | h
        · exact absurd h (not_mem_of_lookup (FixupsOk_isLookup hf) _ rfl)
        · simp at h; exact h.2
      rw [← a1, ← a2]; exact hm
    | transitionFailed p u0 g0 ce e0 hp _ => exact early p u0 g0 ce (some e0) hp h1 h2
    | chrootFailed p u0 g0 ce hp _ _ _ => exact early p u0 g0 (some ce) none hp h1 h2
    | chrootWithoutIdentity _ u0 g0 hp hle _ _ =>
      have := ((ParsedOk_parse_mem hp).1 t u h1).1
      omega
  | capsFailed d0 e0 h0 => exact late d0 h0 _ (by simp [Event.isLate]) h1 h2
  | stillRoot d0 h0 _ => exact late d0 h0 _ (by simp [Event.isLate]) h1 h2
  | checked d0 h0 _ => exact late d0 h0 _ (by simp [Event.isLate]) h1 h2
  | rootAllowed d0 h0 _ => exact late d0 h0 _ (by simp [Event.isLate]) h1 h2

/-- A parsed UID or GID that is not positive never reaches the transition. -/
theorem Run_nonpositive {W : Type} {s : State W} {err : Option Error} {d : Bool}
    {tr : List Event} (h : Run s err d tr) (t : String) (v : Int) (hv : v ≤ 0)
    (hx : Event.parseUID t v none ∈ tr ∨ Event.parseGID t v none ∈ tr) :
    transitions tr = 0 := by
  have par : ∀ (p : List Event) (u0 g0 : Int), ParsedOk s p u0 g0 →
      ∀ tl : List Event, (∀ x ∈ tl, x.isPrelude = false) →
      (Event.parseUID t v none ∈ p ++ tl ∨ Event.parseGID t v none ∈ p ++ tl) → u0 ≤ 0 := by
    intro p u0 g0 hp tl htl hm
    have hiff : (u0 ≤ 0 ↔ g0 ≤ 0) ∨ u0 = -1 := by
      cases hp with
      | unset _ _ _ => exact Or.inr rfl
      | parsed l t0 u0 g0 _ _ hmm => exact Or.inl hmm
    rcases hm with hm | hm
    · have := (ParsedOk_tail_parse hp tl htl).1 t v hm
      omega
    · have := (ParsedOk_tail_parse hp tl htl).2 t v hm
      rcases hiff with hiff | hiff
      · rw [← this] at hiff; exact hiff.2 hv
      · omega
  have late : ∀ d0, DroppedOk s d0 → ∀ tl : List Event, (∀ x ∈ tl, x.isLate = true) →
      (Event.parseUID t v none ∈ d0 ++ tl ∨ Event.parseGID t v none ∈ d0 ++ tl) →
      transitions (d0 ++ tl) = 0 := by
    intro d0 h0 tl htl hm
    have hm0 : Event.parseUID t v none ∈ d0 ∨ Event.parseGID t v none ∈ d0 := by
      rcases hm with hm | hm
      · rcases List.mem_append.1 hm with h | h
        · exact Or.inl h
        · exact Bool.noConfusion (htl _ h)
      · rcases List.mem_append.1 hm with h | h
        · exact Or.inr h
        · exact Bool.noConfusion (htl _ h)
    rw [transitions_append, transitions_late tl htl]
    cases h0 with
    | noIdentity _ u0 g0 hp _ _ => exact transitions_prelude _ (ParsedOk_isPrelude hp)
    | transition p u0 g0 ce0 hp hpos _ =>
      have := par p u0 g0 hp _ (by simp [Event.isPrelude]) hm0
      omega
  have fix : ∀ (l : List Event), FixupsOk s l → ∀ tl : List Event, transitions tl = 0 →
      transitions (l ++ tl) = 0 := by
    intro l hl tl h0
    rw [transitions_append, FixupsOk_transitions hl, h0]
  cases h with
  | early e0 tr he =>
    cases he with
    | lookupFailed g0 e0 _ _ =>
      rw [transitions_append, transitions_prelude _ (banTrace_isPrelude s)]
      rfl
    | parseUIDFailed l u0 e0 hf _ => exact fix l hf _ rfl
    | parseGIDFailed l t0 u0 g0 e0 hf _ => exact fix l hf _ rfl
    | mismatch l t0 u0 g0 hf _ _ => exact fix l hf _ rfl
    | transitionFailed p u0 g0 ce e0 hp hpos =>
      have := par p u0 g0 hp _ (by simp [Event.isPrelude]) hx
      omega
    | chrootFailed p u0 g0 ce hp hpos _ _ =>
      have := par p u0 g0 hp _ (by simp [Event.isPrelude]) hx
      omega
    | chrootWithoutIdentity _ u0 g0 hp _ _ _ => exact transitions_prelude _ (ParsedOk_isPrelude hp)
  | capsFailed d0 e0 h0 => exact late d0 h0 _ (by simp [Event.isLate]) hx
  | stillRoot d0 h0 _ => exact late d0 h0 _ (by simp [Event.isLate]) hx
  | checked d0 h0 _ => exact late d0 h0 _ (by simp [Event.isLate]) hx
  | rootAllowed d0 h0 _ => exact late d0 h0 _ (by simp [Event.isLate]) hx

/-- C13 (counterexample): UID and GID flags "0": the UID flag is non-empty,
both parses succeed, the parsed UID 0 is above the sentinel -1 and the
both-or-neither check passes, yet the transition is not invoked. -/
theorem uid_zero_no_transition_counterexample :
    (flagsState "0" "0" "").dropped = false ∧ (flagsState "0" "0" "").uidFlag ≠ ""
    ∧ (DropPrivileges (stub 0 none false) (flagsState "0" "0" "")).trace
        = [Event.banSuid, Event.parseUID "0" 0 none, Event.parseGID "0" 0 none,
            Event.capsDrop none, Event.isRoot false]
    ∧ (-1 : Int) < 0 ∧ ((0 : Int) ≤ 0 ↔ (0 : Int) ≤ 0)
    ∧ transitions (DropPrivileges (stub 0 none false) (flagsState "0" "0" "")).trace = 0 := by
  decide

/-- C13 (amended): in a call with `dropped = false` in which `ParseUID` and
`ParseGID` succeed and the both-or-neither check passes, the transition is
invoked exactly once, as one call carrying the parsed UID, the parsed GID and
the selected chroot path, when the parsed UID is positive; when the parsed UID
is zero or negative it is not invoked at all. -/
theorem transition_when_uid_positive {W : Type} (c : Collab W) (s : State W)
    (hd : s.dropped = false) (t t1 : String) (u g : Int)
    (h1 : Event.parseUID t u none ∈ (DropPrivileges c s).trace)
    (h2 : Event.parseGID t1 g none ∈ (DropPrivileges c s).trace)
    (hm : u ≤ 0 ↔ g ≤ 0) :
    (0 < u → transitions (DropPrivileges c s).trace = 1
      ∧ ∃ ce oe, Event.daemonDropPrivileges u g (chrootPathOf s) ce oe
          ∈ (DropPrivileges c s).trace)
    ∧ (u ≤ 0 → transitions (DropPrivileges c s).trace = 0) := by
  have h := DropPrivileges_run c s hd
  exact ⟨fun hu => Run_parsed_transition h t t1 u g h1 h2 hu hm,
    fun hu => Run_nonpositive h t u hu (Or.inl h1)⟩

/-- C13 (witness): UID and GID flags "1000": one transition, carrying 1000,
1000 and the default chroot "/var/empty". -/
theorem transition_when_uid_positive_witness :
    (flagsState "1000" "1000" "").dropped = false
    ∧ transitions (DropPrivileges (stub 0 none false) (flagsState "1000" "1000" "")).trace = 1
    ∧ ∃ ce oe, Event.daemonDropPrivileges 1000 1000 (chrootPathOf (flagsState "1000" "1000" ""))
        ce oe ∈ (DropPrivileges (stub 0 none false) (flagsState "1000" "1000" "")).trace :=
  ⟨rfl, (transition_when_uid_positive (stub 0 none false) (flagsState "1000" "1000" "") rfl
    "1000" "1000" 1000 1000 (by decide) (by decide) (by decide)).1 (by decide)⟩

/-- C16: for a call from `dropped = false`, `dropped` is true afterwards
exactly when the call returned success; every error return leaves it false. -/
theorem dropped_iff_success {W : Type} (c : Collab W) (s : State W)
    (hd : s.dropped = false) :
    ((DropPrivileges c s).st.dropped = true ↔ (DropPrivileges c s).err = none)
    ∧ (∀ e, (DropPrivileges c s).err = some e → (DropPrivileges c s).st.dropped = false) := by
  have h := Run_dropped_iff (DropPrivileges_run c s hd)
  refine ⟨h, ?_⟩
  intro e he
  cases hdr : (DropPrivileges c s).st.dropped
  · rfl
  · rw [h.1 hdr] at he
    exact Option.noConfusion he

/-- C16 (witness): the failed capability clearing leaves `dropped = false`
although the transition was made; the successful call sets it. -/
theorem dropped_iff_success_witness :
    ((flagsState "1000" "1000" "").dropped = false
      ∧ (DropPrivileges (stub 1 none false) (flagsState "1000" "1000" "")).err
          = some "cannot drop caps: operation not permitted"
      ∧ (DropPrivileges (stub 1 none false) (flagsState "1000" "1000" "")).st.dropped = false)
    ∧ ((DropPrivileges (stub 0 none false) (flagsState "1000" "1000" "")).err = none
      ∧ (DropPrivileges (stub 0 none false) (flagsState "1000" "1000" "")).st.dropped = true) :=
  ⟨⟨rfl, by decide,
      (dropped_iff_success (stub 1 none false) (flagsState "1000" "1000" "") rfl).2
        "cannot drop caps: operation not permitted" (by decide)⟩,
    ⟨by decide,
      (dropped_iff_success (stub 0 none false) (flagsState "1000" "1000" "") rfl).1.2
        (by decide)⟩⟩

/-- C18: in every call of `DropPrivileges`, every invocation of the transition
carries a UID and a GID that are both positive; a parsed UID or GID that is
zero or negative is never followed by a transition; and when exactly one of
the parsed UID and GID is positive the call returns "Either both or neither of
the UID and GID must be positive" without any transition. -/
theorem transition_positive_identity {W : Type} (c : Collab W) (s : State W) :
    (∀ u g path ce oe,
      Event.daemonDropPrivileges u g path ce oe ∈ (DropPrivileges c s).trace → 0 < u ∧ 0 < g)
    ∧ (∀ t v, v ≤ 0 →
        Event.parseUID t v none ∈ (DropPrivileges c s).trace
          ∨ Event.parseGID t v none ∈ (DropPrivileges c s).trace →
        transitions (DropPrivileges c s).trace = 0)
    ∧ (∀ t t1 u g, Event.parseUID t u none ∈ (DropPrivileges c s).trace →
        Event.parseGID t1 g none ∈ (DropPrivileges c s).trace → ¬ (u ≤ 0 ↔ g ≤ 0) →
        (DropPrivileges c s).err
          = some "Either both or neither of the UID and GID must be positive"
        ∧ transitions (DropPrivileges c s).trace = 0) := by
  cases hd : s.dropped
  · have h := DropPrivileges_run c s hd
    refine ⟨?_, ?_, ?_⟩
    · intro u g path ce oe hx
      exact ⟨(Run_transition_positive h u g path ce oe hx).1,
        (Run_transition_positive h u g path ce oe hx).2.1⟩
    · intro t v hv hx
      exact Run_nonpositive h t v hv hx
    · intro t t1 u g h1 h2 hm
      exact ⟨(Run_mismatch h t t1 u g h1 h2 hm).1, (Run_mismatch h t t1 u g h1 h2 hm).2.1⟩
  · rw [DropPrivileges_dropped c s hd]
    refine ⟨?_, ?_, ?_⟩
    · intro u g path ce oe hx
      simp at hx
    · intro t v _ _
      rfl
    · intro t t1 u g h1
      simp at h1

/-- C18 (witness): with UID "1000" and GID "0" the call returns the
both-or-neither error and no transition; with both "1000" the transition
carries positive identifiers. -/
theorem transition_positive_identity_witness :
    ((DropPrivileges (stub 0 none false) (flagsState "1000" "0" "")).err
        = some "Either both or neither of the UID and GID must be positive"
      ∧ transitions (DropPrivileges (stub 0 none false) (flagsState "1000" "0" "")).trace = 0)
    ∧ ((0 : Int) < 1000 ∧ (0 : Int) < 1000) :=
  ⟨(transition_positive_identity (stub 0 none false) (flagsState "1000" "0" "")).2.2
      "1000" "0" 1000 0 (by decide) (by decide) (by decide),
    (transition_positive_identity (stub 0 none false) (flagsState "1000" "1000" "")).1
      1000 1000 "/var/empty" none none (by decide)⟩

/-! ### The entry point -/

theorem entryCount_startup {p : List Event} (hp : ∀ y ∈ p, y.isStartup = true) :
    p.countP Event.isEntry = 0 := by
  simp only [List.countP_eq_zero]
  intro e he
  have := hp e he
  cases e <;> simp_all [Event.isStartup, Event.isEntry]

/-- The value returned by the entry point is the value `serviceMain` returns,
and the entry point is called at most once, as the last collaborator call but
for the PID-file release. -/
theorem MainRun_entry {W : Type} {s : State W} {o : Outcome} {tr : List Event}
    (h : MainRun s o tr) (x : Option Error) (hx : Event.runInteractively x ∈ tr) :
    o = Outcome.returned x ∧ tr.countP Event.isEntry = 1
    ∧ ∃ pre, (∀ y ∈ pre, y.isEntry = false)
      ∧ (tr = pre ++ [Event.runInteractively x]
        ∨ tr = pre ++ [Event.runInteractively x, Event.closePIDFile]) := by
  have nope : ∀ (f : List Event) (df : Bool), ForkOk s f df → ∀ tl : List Event,
      Event.runInteractively x ∉ tl → Event.runInteractively x ∉ f ++ tl := by
    intro f df h1 tl a1 hm
    exact a1 (mem_tail_of_startup hm (ForkOk_isStartup h1) rfl)
  have noEntry : ∀ (p : List Event), (∀ y ∈ p, y.isStartup = true) →
      ∀ y ∈ p, y.isEntry = false := by
    intro p hp y hy
    have := hp y hy
    cases y <;> simp_all [Event.isStartup, Event.isEntry]
  cases h with
  | forkFailed b e _ => simp at hx
  | parentExit _ => simp at hx
  | initFailed f df e h1 => exact absurd hx (nope f df h1 _ (by simp))
  | daemonizeFailed f df n e h1 _ => exact absurd hx (nope f df h1 _ (by simp))
  | openFailed d0 e h0 _ =>
    have := mem_tail_of_startup hx (DaemonOk_isStartup h0) rfl
    simp at this
  | ranWithPIDFile d0 x0 h0 _ =>
    have hp := DaemonOk_isStartup h0
    have h2 := mem_tail_of_startup hx hp rfl
    simp at h2
    subst h2
    refine ⟨rfl, ?_, d0 ++ [Event.openPIDFile s.pidfileFlag none], ?_, Or.inr (by simp)⟩
    · rw [List.countP_append, entryCount_startup hp]
      simp [List.countP_cons, Event.isEntry]
    · intro y hy
      rcases List.mem_append.1 hy with h3 | h3
      · exact noEntry d0 hp y h3
      · simp at h3; subst h3; rfl
  | ran d0 x0 h0 _ =>
    have hp := DaemonOk_isStartup h0
    have h2 := mem_tail_of_startup hx hp rfl
    simp at h2
    subst h2
    refine ⟨rfl, ?_, d0, noEntry d0 hp, Or.inl rfl⟩
    rw [List.countP_append, entryCount_startup hp]
    simp [List.countP_cons, Event.isEntry]

/-- C12: whenever `serviceMain` calls the entry point, it returns exactly the
value the entry point returned, with and without a PID file; the entry point
is called once, and the PID-file release that follows it does not change the
returned value. -/
theorem entry_point_result {W : Type} (c : Collab W) (s : State W) :
    (∀ x, Event.runInteractively x ∈ (serviceMain c s).trace →
      (serviceMain c s).outcome = Outcome.returned x
      ∧ (serviceMain c s).trace.countP Event.isEntry = 1
      ∧ ∃ pre, (∀ y ∈ pre, y.isEntry = false)
        ∧ ((serviceMain c s).trace = pre ++ [Event.runInteractively x]
          ∨ (serviceMain c s).trace
              = pre ++ [Event.runInteractively x, Event.closePIDFile]))
    ∧ (∀ (s1 : State W) (tr : List Event), s1.pidfileFlag = "" →
        (pidFileAndRun c s1 tr).outcome = Outcome.returned (c.runInteractively s1).1)
    ∧ (∀ (s1 : State W) (tr : List Event), s1.pidfileFlag ≠ "" →
        (c.openPIDFile s1.pidfileFlag s1.world).1 = none →
        (pidFileAndRun c s1 tr).outcome = Outcome.returned
          (c.runInteractively
            { s1 with info := { s1.info with pidFileName := s1.pidfileFlag },
                      world := (c.openPIDFile s1.pidfileFlag s1.world).2 }).1) := by
  refine ⟨fun x hx => MainRun_entry (serviceMain_run c s) x hx, ?_, ?_⟩
  · intro s1 tr hp
    simp [pidFileAndRun, hp]
  · intro s1 tr hp ho
    simp [pidFileAndRun, hp, ho]

/-- C12 (witness): the entry point returns the error "boom"; `serviceMain`
returns it with the PID file "/run/svc.pid" acquired and released, and without
a PID file. -/
theorem entry_point_result_witness :
    (serviceMain (mainStub false none (some "boom")) (mainState false "/run/svc.pid")).outcome
        = Outcome.returned (some "boom")
    ∧ (serviceMain (mainStub false none (some "boom")) (mainState false "")).outcome
        = Outcome.returned (some "boom") :=
  ⟨((entry_point_result (mainStub false none (some "boom"))
      (mainState false "/run/svc.pid")).1 (some "boom") (by decide)).1,
    ((entry_point_result (mainStub false none (some "boom"))
      (mainState false "")).1 (some "boom") (by decide)).1⟩

/-! ### The chroot path and the default chroot -/

theorem parseIDs_inl_info {W : Type} (c : Collab W) (s : State W) (tr : List Event)
    (r : Result W) (h : parseIDs c s tr = Sum.inl r) :
    r.st.info = s.info ∧ r.st.gidFlag = s.gidFlag := by
  simp only [parseIDs] at h
  split at h
  next =>
    split at h
    next =>
      simp only [Sum.inl.injEq] at h
      subst h
      exact ⟨rfl, rfl⟩
    next =>
      split at h
      next =>
        simp only [Sum.inl.injEq] at h
        subst h
        exact ⟨rfl, rfl⟩
      next =>
        split at h
        next =>
          simp only [Sum.inl.injEq] at h
          subst h
          exact ⟨rfl, rfl⟩
        next => simp at h
  next =>
    split at h
    next hm => simp at hm
    next => simp at h

theorem parseIDs_inr_gid {W : Type} (c : Collab W) (s s1 : State W) (tr tr1 : List Event)
    (u g : Int) (h : parseIDs c s tr = Sum.inr (s1, tr1, u, g)) : s1.gidFlag = s.gidFlag := by
  simp only [parseIDs] at h
  split at h
  next =>
    split at h
    next => simp at h
    next =>
      split at h
      next => simp at h
      next =>
        split at h
        next => simp at h
        next =>
          simp only [Sum.inr.injEq, Prod.mk.injEq] at h
          rw [← h.1]
  next =>
    split at h
    next => simp at h
    next =>
      simp only [Sum.inr.injEq, Prod.mk.injEq] at h
      rw [← h.1]

theorem dropStep_inl_info {W : Type} (c : Collab W) (s : State W) (tr : List Event)
    (u g : Int) (path : String) (r : Result W) (h : dropStep c s tr u g path = Sum.inl r) :
    r.st.info = s.info ∧ r.st.gidFlag = s.gidFlag := by
  simp only [dropStep] at h
  split at h
  next =>
    split at h
    next =>
      simp only [Sum.inl.injEq] at h
      subst h
      exact ⟨rfl, rfl⟩
    next =>
      split at h
      next =>
        split at h
        next =>
          simp only [Sum.inl.injEq] at h
          subst h
          exact ⟨rfl, rfl⟩
        next => simp at h
      next => simp at h
  next =>
    split at h
    next =>
      simp only [Sum.inl.injEq] at h
      subst h
      exact ⟨rfl, rfl⟩
    next => simp at h

theorem dropStep_inr_gid {W : Type} (c : Collab W) (s s1 : State W) (tr tr1 : List Event)
    (u g : Int) (path : String) (h : dropStep c s tr u g path = Sum.inr (s1, tr1)) :
    s1.gidFlag = s.gidFlag := by
  simp only [dropStep] at h
  split at h
  next =>
    split at h
    next => simp at h
    next =>
      split at h
      next =>
        split at h
        next => simp at h
        next =>
          simp only [Sum.inr.injEq, Prod.mk.injEq] at h
          rw [← h.1]
      next =>
        simp only [Sum.inr.injEq, Prod.mk.injEq] at h
        rw [← h.1]
  next =>
    split at h
    next => simp at h
    next =>
      simp only [Sum.inr.injEq, Prod.mk.injEq] at h
      rw [← h.1]

theorem capsAndRootCheck_info {W : Type} (c : Collab W) (s : State W) (tr : List Event) :
    (capsAndRootCheck c s tr).st.info = s.info
    ∧ (capsAndRootCheck c s tr).st.gidFlag = s.gidFlag := by
  simp only [capsAndRootCheck]
  split
  next => exact ⟨rfl, rfl⟩
  next =>
    split
    next =>
      split
      next => exact ⟨rfl, rfl⟩
      next => exact ⟨rfl, rfl⟩
    next => exact ⟨rfl, rfl⟩

/-- Once the GID backfill is passed, every later return of the call carries
the `Info` record with the default chroot fixed, and the GID flag as the
backfill left it. -/
theorem DropPrivileges_after_fixups {W : Type} (c : Collab W) (s s1 : State W)
    (tr1 : List Event) (hd : s.dropped = false) (h : fixups c s = Sum.inr (s1, tr1)) :
    (DropPrivileges c s).st.info = (fixDefaultChroot s1).info
    ∧ (DropPrivileges c s).st.gidFlag = s1.gidFlag := by
  simp only [DropPrivileges, hd, Bool.false_eq_true, if_false, dropPrefix, h]
  cases hp : parseIDs c (fixDefaultChroot s1) tr1 with
  | inl r =>
    simp only []
    exact parseIDs_inl_info c _ tr1 r hp
  | inr x =>
    obtain ⟨s3, tr3, u, g⟩ := x
    have hi3 := (parseIDs_inr c _ s3 tr1 tr3 u g hp).2.1
    have hg3 := parseIDs_inr_gid c _ s3 tr1 tr3 u g hp
    simp only []
    cases hs : dropStep c s3 tr3 u g (selectChroot (fixDefaultChroot s1)) with
    | inl r =>
      simp only []
      have := dropStep_inl_info c s3 tr3 u g _ r hs
      exact ⟨this.1.trans hi3, this.2.trans hg3⟩
    | inr y =>
      obtain ⟨s4, tr4⟩ := y
      have hi4 := (dropStep_inr c s3 s4 tr3 tr4 u g _ hs).2.1
      have hg4 := dropStep_inr_gid c s3 s4 tr3 tr4 u g _ hs
      simp only []
      have := capsAndRootCheck_info c s4 tr4
      exact ⟨this.1.trans (hi4.trans hi3), this.2.trans (hg4.trans hg3)⟩

/-- C14: in every call that invokes the transition, the chroot path passed is
the chroot flag when it is non-empty, otherwise the configured `DefaultChroot`
when that is non-empty, otherwise "/"; and after a call from `dropped = false`
in which the GID lookup did not fail, `DefaultChroot` is non-empty: an empty
one has become "/", a non-empty one is unchanged. -/
theorem chroot_target_selection {W : Type} (c : Collab W) (s : State W) :
    (∀ u g path ce oe,
      Event.daemonDropPrivileges u g path ce oe ∈ (DropPrivileges c s).trace →
      path = chrootPathOf s
      ∧ (s.chrootFlag ≠ "" → path = s.chrootFlag)
      ∧ (s.chrootFlag = "" → s.info.DefaultChroot ≠ "" → path = s.info.DefaultChroot)
      ∧ (s.chrootFlag = "" → s.info.DefaultChroot = "" → path = "/"))
    ∧ (s.dropped = false →
        (∀ t g e, Event.getGIDForUID t g (some e) ∉ (DropPrivileges c s).trace) →
        (DropPrivileges c s).st.info.DefaultChroot ≠ ""
        ∧ (DropPrivileges c s).st.info.DefaultChroot
            = (if s.info.DefaultChroot = "" then "/" else s.info.DefaultChroot)) := by
  constructor
  · intro u g path ce oe hx
    cases hd : s.dropped
    · have hp := (Run_transition_positive (DropPrivileges_run c s hd) u g path ce oe hx).2.2.1
      rw [hp]
      refine ⟨rfl, ?_, ?_, ?_⟩
      · intro h1; simp [chrootPathOf, h1]
      · intro h1 h2; simp [chrootPathOf, h1, h2]
      · intro h1 h2; simp [chrootPathOf, h1, h2]
    · rw [DropPrivileges_dropped c s hd] at hx
      simp at hx
  · intro hd hno
    cases hf : fixups c s with
    | inl r =>
      exfalso
      have hD : DropPrivileges c s = r := by
        simp [DropPrivileges, hd, dropPrefix, hf]
      obtain ⟨g, e, _, _, _, ht, _⟩ := fixups_inl c s r hf
      apply hno s.uidFlag g e
      rw [hD, ht]
      simp
    | inr x =>
      obtain ⟨s1, tr1⟩ := x
      have h1 := (DropPrivileges_after_fixups c s s1 tr1 hd hf).1
      have h2 := (fixups_inr c s s1 tr1 hf).2.2
      have h3 : (DropPrivileges c s).st.info.DefaultChroot
          = (if s.info.DefaultChroot = "" then "/" else s.info.DefaultChroot) := by
        rw [h1]
        simp [fixDefaultChroot, h2]
      refine ⟨?_, h3⟩
      rw [h3]
      split
      · decide
      · assumption

/-- C14 (witness): chroot flag "/custom" is passed as it is; and with an empty
`DefaultChroot` the call leaves "/" in it. -/
theorem chroot_target_selection_witness :
    ("/custom" = chrootPathOf (flagsState "1000" "1000" "/custom"))
    ∧ ((DropPrivileges (stub 0 none false) (bareState "" "" "")).st.info.DefaultChroot = "/") :=
  ⟨((chroot_target_selection (stub 0 none false) (flagsState "1000" "1000" "/custom")).1
      1000 1000 "/custom" none none (by decide)).1,
    ((chroot_target_selection (stub 0 none false) (bareState "" "" "")).2 rfl
      (by
        intro t g e hm
        rw [show (DropPrivileges (stub 0 none false) (bareState "" "" "")).trace
          = [Event.banSuid, Event.capsDrop none, Event.isRoot false] from by decide] at hm
        simp at hm)).2⟩

/-! ### The happy path -/

/-- C11 (counterexample): UID flag "1000", GID and chroot flags empty, every
collaborator succeeds, the identity database maps the user to GID 1000, and
the service configured no `DefaultChroot`: the transition is invoked with the
chroot path "/", not "/var/empty". -/
theorem happy_path_chroot_counterexample :
    (bareState "1000" "" "").dropped = false
    ∧ (DropPrivileges (stub 0 none false) (bareState "1000" "" "")).err = none
    ∧ (DropPrivileges (stub 0 none false) (bareState "1000" "" "")).trace
        = [Event.banSuid, Event.getGIDForUID "1000" 1000 none,
            Event.parseUID "1000" 1000 none, Event.parseGID "1000" 1000 none,
            Event.daemonDropPrivileges 1000 1000 "/" none none,
            Event.capsDrop none, Event.isRoot false]
    ∧ "/" ≠ EmptyChrootPath := by
  decide

/-- C11 (amended): in a call with `dropped = false`, a non-empty UID flag that
parses to `u > 0`, empty GID and chroot flags, an identity database that maps
the UID to `g > 0`, and collaborators that all succeed: the GID flag becomes
the decimal text of `g`, the transition is invoked exactly once, with `u`, `g`
and the chroot path `DefaultChroot` (or "/" when the service configured none;
"/var/empty" when the service configured `EmptyChrootPath`), then capabilities
are cleared, the root check (made unless `AllowRoot`) passes, and the call
returns success with `dropped = true`. -/
theorem happy_path_drop {W : Type} (c : Collab W) (s : State W) (u g : Int)
    (hd : s.dropped = false) (hu : s.uidFlag ≠ "") (hg : s.gidFlag = "")
    (hc : s.chrootFlag = "")
    (hlookup : ∀ w, (c.getGIDForUID s.uidFlag w).1 = (g, none))
    (hpu : ∀ w, (c.parseUID s.uidFlag w).1 = (u, none))
    (hpg : ∀ w, (c.parseGID (formatInt (int64 g)) w).1 = (g, none))
    (hup : 0 < u) (hgp : 0 < g)
    (htr : ∀ path w, (c.daemonDropPrivileges u g path w).1 = (none, none))
    (hcaps : ∀ w, (c.capsDrop w).1 = none)
    (hroot : ∀ w, (c.isRoot w).1 = false) :
    (DropPrivileges c s).err = none
    ∧ (DropPrivileges c s).st.dropped = true
    ∧ (DropPrivileges c s).st.gidFlag = formatInt (int64 g)
    ∧ (DropPrivileges c s).trace
        = banTrace s ++ [Event.getGIDForUID s.uidFlag g none, Event.parseUID s.uidFlag u none,
            Event.parseGID (formatInt (int64 g)) g none,
            Event.daemonDropPrivileges u g
              (if s.info.DefaultChroot = "" then "/" else s.info.DefaultChroot) none none,
            Event.capsDrop none]
          ++ (if s.info.AllowRoot = false then [Event.isRoot false] else [])
    ∧ transitions (DropPrivileges c s).trace = 1
    ∧ (s.info.DefaultChroot = EmptyChrootPath →
        Event.daemonDropPrivileges u g "/var/empty" none none ∈ (DropPrivileges c s).trace) := by
  have hnu : ¬ u ≤ 0 := by omega
  have hng : ¬ g ≤ 0 := by omega
  have key : (DropPrivileges c s).err = none
      ∧ (DropPrivileges c s).st.dropped = true
      ∧ (DropPrivileges c s).st.gidFlag = formatInt (int64 g)
      ∧ (DropPrivileges c s).trace
        = banTrace s ++ [Event.getGIDForUID s.uidFlag g none, Event.parseUID s.uidFlag u none,
            Event.parseGID (formatInt (int64 g)) g none,
            Event.daemonDropPrivileges u g
              (if s.info.DefaultChroot = "" then "/" else s.info.DefaultChroot) none none,
            Event.capsDrop none]
          ++ (if s.info.AllowRoot = false then [Event.isRoot false] else []) := by
    cases ha : s.info.AllowRoot <;>
      simp [DropPrivileges, dropPrefix, fixups, parseIDs, dropStep, capsAndRootCheck,
        fixDefaultChroot, selectChroot, banTrace, hd, hu, hg, hc, hlookup, hpu, hpg, hup,
        hnu, hng, htr, hcaps, hroot, ha]
  obtain ⟨k1, k2, k3, k4⟩ := key
  refine ⟨k1, k2, k3, k4, ?_, ?_⟩
  · have h0 : transitions (if s.info.AllowRoot = false then [Event.isRoot false] else []) = 0 := by
      split <;> rfl
    rw [k4, transitions_append, transitions_append,
      transitions_prelude _ (banTrace_isPrelude s), h0]
    simp [transitions, Event.isTransition, List.countP_cons]
  · intro hE
    rw [k4, hE]
    simp [EmptyChrootPath]

/-- C11 (witness): UID flag "1000", identity database mapping it to GID 1000,
`DefaultChroot` "/var/empty": one transition with (1000, 1000) and
"/var/empty", success, `dropped = true`. -/
theorem happy_path_drop_witness :
    (DropPrivileges (stub 0 none false) (flagsState "1000" "" "")).err = none
    ∧ (DropPrivileges (stub 0 none false) (flagsState "1000" "" "")).st.dropped = true
    ∧ (DropPrivileges (stub 0 none false) (flagsState "1000" "" "")).st.gidFlag = "1000"
    ∧ Event.daemonDropPrivileges 1000 1000 "/var/empty" none none
        ∈ (DropPrivileges (stub 0 none false) (flagsState "1000" "" "")).trace :=
  ⟨(happy_path_drop (stub 0 none false) (flagsState "1000" "" "") 1000 1000 rfl (by decide)
      rfl rfl (fun _ => rfl) (fun _ => rfl)
      (fun _ => show stubParse (formatInt (int64 1000)) = (1000, none) from by decide)
      (by decide) (by decide)
      (fun _ _ => rfl) (fun _ => rfl) (fun _ => rfl)).1,
    (happy_path_drop (stub 0 none false) (flagsState "1000" "" "") 1000 1000 rfl (by decide)
      rfl rfl (fun _ => rfl) (fun _ => rfl)
      (fun _ => show stubParse (formatInt (int64 1000)) = (1000, none) from by decide)
      (by decide) (by decide)
      (fun _ _ => rfl) (fun _ => rfl) (fun _ => rfl)).2.1,
    (happy_path_drop (stub 0 none false) (flagsState "1000" "" "") 1000 1000 rfl (by decide)
      rfl rfl (fun _ => rfl) (fun _ => rfl)
      (fun _ => show stubParse (formatInt (int64 1000)) = (1000, none) from by decide)
      (by decide) (by decide)
      (fun _ _ => rfl) (fun _ => rfl) (fun _ => rfl)).2.2.1.trans (by decide),
    (happy_path_drop (stub 0 none false) (flagsState "1000" "" "") 1000 1000 rfl (by decide)
      rfl rfl (fun _ => rfl) (fun _ => rfl)
      (fun _ => show stubParse (formatInt (int64 1000)) = (1000, none) from by decide)
      (by decide) (by decide)
      (fun _ _ => rfl) (fun _ => rfl) (fun _ => rfl)).2.2.2.2.2 rfl⟩


/-! ### The GID flag without a UID flag -/

theorem capsAndRootCheck_gid {W : Type} (c : Collab W) (s : State W) (tr : List Event)
    (gid1 : String) :
    (capsAndRootCheck c { s with gidFlag := gid1 } tr).err = (capsAndRootCheck c s tr).err
    ∧ (capsAndRootCheck c { s with gidFlag := gid1 } tr).trace = (capsAndRootCheck c s tr).trace
    ∧ (capsAndRootCheck c { s with gidFlag := gid1 } tr).st
        = { (capsAndRootCheck c s tr).st with gidFlag := gid1 } := by
  cases h : (c.capsDrop s.world).1 with
  | some e => simp [capsAndRootCheck, h]
  | none =>
    cases ha : s.info.AllowRoot with
    | true => simp [capsAndRootCheck, h, ha]
    | false =>
      cases hr : (c.isRoot (c.capsDrop s.world).2).1 <;> simp [capsAndRootCheck, h, ha, hr]

/-- With an empty UID flag and no chroot request, lines 111-167 make no call
but `BanSuid` and fall through to capability clearing. -/
theorem dropPrefix_uid_empty {W : Type} (c : Collab W) (s : State W) (hu : s.uidFlag = "")
    (hc : ¬ (s.chrootFlag ≠ "" ∧ s.chrootFlag ≠ "/")) :
    dropPrefix c s = Sum.inr
      (fixDefaultChroot
        { s with world := if s.info.NoBanSuid = false then c.banSuid s.world else s.world },
        banTrace s) := by
  simp only [dropPrefix, fixups, parseIDs, dropStep, fixDefaultChroot, selectChroot, banTrace, hu]
  simp [hc]

theorem DropPrivileges_fallthrough {W : Type} (c : Collab W) (s s1 : State W)
    (tr1 : List Event) (hd : s.dropped = false) (h : dropPrefix c s = Sum.inr (s1, tr1)) :
    DropPrivileges c s = capsAndRootCheck c s1 tr1 := by
  simp [DropPrivileges, hd, h]

theorem gid_flag_frame {W : Type} (c : Collab W) (s : State W) (gid1 : String)
    (hu : s.uidFlag = "") :
    (DropPrivileges c { s with gidFlag := gid1 }).err = (DropPrivileges c s).err
    ∧ (DropPrivileges c { s with gidFlag := gid1 }).trace = (DropPrivileges c s).trace
    ∧ (DropPrivileges c { s with gidFlag := gid1 }).st
        = { (DropPrivileges c s).st with gidFlag := gid1 }
    ∧ (DropPrivileges c s).st.gidFlag = s.gidFlag := by
  by_cases hdt : s.dropped = true
  · simp [DropPrivileges, hdt]
  · have hd : s.dropped = false := by simpa using hdt
    by_cases hc : s.chrootFlag ≠ "" ∧ s.chrootFlag ≠ "/"
    · simp [DropPrivileges, dropPrefix, fixups, parseIDs, dropStep, capsAndRootCheck,
        fixDefaultChroot, selectChroot, hd, hu, hc]
    · have h1 := dropPrefix_uid_empty c s hu hc
      have h2 : dropPrefix c { s with gidFlag := gid1 } = Sum.inr
          ({ fixDefaultChroot
              { s with world := if s.info.NoBanSuid = false then c.banSuid s.world
                                else s.world } with gidFlag := gid1 }, banTrace s) :=
        dropPrefix_uid_empty c { s with gidFlag := gid1 } hu hc
      rw [DropPrivileges_fallthrough c s _ _ hd h1,
        DropPrivileges_fallthrough c { s with gidFlag := gid1 } _ _ hd h2]
      have k := capsAndRootCheck_gid c
        (fixDefaultChroot
          { s with world := if s.info.NoBanSuid = false then c.banSuid s.world else s.world })
        (banTrace s) gid1
      have k2 := capsAndRootCheck_info c
        (fixDefaultChroot
          { s with world := if s.info.NoBanSuid = false then c.banSuid s.world else s.world })
        (banTrace s)
      exact ⟨k.1, k.2.1, k.2.2, k2.2⟩

theorem FixupsOk_uid_empty_trace {W : Type} {s : State W} {l : List Event}
    (h : FixupsOk s l) (hu : s.uidFlag = "") : l = banTrace s := by
  cases h with
  | skip _ => rfl
  | backfill g hne _ => exact absurd hu hne

theorem ParsedOk_uid_empty_trace {W : Type} {s : State W} {p : List Event} {u g : Int}
    (h : ParsedOk s p u g) (hu : s.uidFlag = "") : p = banTrace s := by
  cases h with
  | unset _ hl _ => exact FixupsOk_uid_empty_trace hl hu
  | parsed l t u g _ hne _ => exact absurd hu hne

theorem DroppedOk_uid_empty_trace {W : Type} {s : State W} {d : List Event}
    (h : DroppedOk s d) (hu : s.uidFlag = "") : d = banTrace s := by
  cases h with
  | noIdentity _ u g hp _ _ => exact ParsedOk_uid_empty_trace hp hu
  | transition p u g ce hp hpos _ => exact absurd hu (ParsedOk_pos hp hpos).2

/-- With an empty UID flag the only collaborator calls are `BanSuid`,
`caps.Drop` and `IsRoot`. -/
theorem Run_uid_empty_trace {W : Type} {s : State W} {err : Option Error} {d : Bool}
    {tr : List Event} (h : Run s err d tr) (hu : s.uidFlag = "") :
    ∀ e ∈ tr, e = Event.banSuid ∨ e.isLate = true := by
  have ban : ∀ e ∈ banTrace s, e = Event.banSuid ∨ e.isLate = true := by
    intro e he
    simp only [banTrace] at he
    split at he <;> simp at he
    exact Or.inl he
  have late : ∀ d0, DroppedOk s d0 → ∀ tl : List Event, (∀ x ∈ tl, x.isLate = true) →
      ∀ e ∈ d0 ++ tl, e = Event.banSuid ∨ e.isLate = true := by
    intro d0 h0 tl htl e he
    rw [DroppedOk_uid_empty_trace h0 hu] at he
    rcases List.mem_append.1 he with h1 | h1
    · exact ban e h1
    · exact Or.inr (htl e h1)
  cases h with
  | early e0 tr he =>
    cases he with
    | lookupFailed g0 e0 hne _ => exact absurd hu hne
    | parseUIDFailed l u e0 hf hne => exact absurd hu hne
    | parseGIDFailed l t0 u g0 e0 hf hne => exact absurd hu hne
    | mismatch l t0 u g0 hf hne _ => exact absurd hu hne
    | transitionFailed p u g0 ce e0 hp hpos => exact absurd hu (ParsedOk_pos hp hpos).2
    | chrootFailed p u g0 ce hp hpos _ _ => exact absurd hu (ParsedOk_pos hp hpos).2
    | chrootWithoutIdentity _ u g0 hp _ _ _ =>
      rw [ParsedOk_uid_empty_trace hp hu]
      exact ban
  | capsFailed d0 e0 h0 => exact late d0 h0 _ (by simp [Event.isLate])
  | stillRoot d0 h0 _ => exact late d0 h0 _ (by simp [Event.isLate])
  | checked d0 h0 _ => exact late d0 h0 _ (by simp [Event.isLate])
  | rootAllowed d0 h0 _ => exact late d0 h0 _ (by simp [Event.isLate])

/-- C19: with an empty UID flag, replacing the GID flag by any other text
changes neither the returned error nor the trace of collaborator calls, and
the final states differ in the GID flag only; the call leaves the GID flag as
it found it, and neither `ParseGID` nor the identity lookup (nor `ParseUID`)
is called. -/
theorem gid_flag_ignored_without_uid {W : Type} (c : Collab W) (s : State W)
    (gid1 : String) (hu : s.uidFlag = "") :
    (DropPrivileges c { s with gidFlag := gid1 }).err = (DropPrivileges c s).err
    ∧ (DropPrivileges c { s with gidFlag := gid1 }).trace = (DropPrivileges c s).trace
    ∧ (DropPrivileges c { s with gidFlag := gid1 }).st
        = { (DropPrivileges c s).st with gidFlag := gid1 }
    ∧ (DropPrivileges c s).st.gidFlag = s.gidFlag
    ∧ (∀ t g oe, Event.parseGID t g oe ∉ (DropPrivileges c s).trace)
    ∧ (∀ t g oe, Event.getGIDForUID t g oe ∉ (DropPrivileges c s).trace)
    ∧ (∀ t g oe, Event.parseUID t g oe ∉ (DropPrivileges c s).trace) := by
  obtain ⟨a1, a2, a3, a4⟩ := gid_flag_frame c s gid1 hu
  have key : ∀ e ∈ (DropPrivileges c s).trace, e = Event.banSuid ∨ e.isLate = true := by
    by_cases hdt : s.dropped = true
    · rw [DropPrivileges_dropped c s hdt]
      intro e he
      simp at he
    · have hd : s.dropped = false := by simpa using hdt
      exact Run_uid_empty_trace (DropPrivileges_run c s hd) hu
  refine ⟨a1, a2, a3, a4, ?_, ?_, ?_⟩
  · intro t g oe hm
    rcases key _ hm with h | h
    · exact Event.noConfusion h
    · exact Bool.noConfusion h
  · intro t g oe hm
    rcases key _ hm with h | h
    · exact Event.noConfusion h
    · exact Bool.noConfusion h
  · intro t g oe hm
    rcases key _ hm with h | h
    · exact Event.noConfusion h
    · exact Bool.noConfusion h

/-- C19 (witness): an empty UID flag with the GID flags "5" and "wheel": the
same result and the same trace, without `ParseGID`. -/
theorem gid_flag_ignored_without_uid_witness :
    (flagsState "" "5" "").uidFlag = ""
    ∧ (DropPrivileges (stub 0 none false) (flagsState "" "wheel" "")).err
        = (DropPrivileges (stub 0 none false) (flagsState "" "5" "")).err
    ∧ (DropPrivileges (stub 0 none false) (flagsState "" "wheel" "")).trace
        = (DropPrivileges (stub 0 none false) (flagsState "" "5" "")).trace
    ∧ (DropPrivileges (stub 0 none false) (flagsState "" "5" "")).st.gidFlag = "5" :=
  ⟨rfl,
    (gid_flag_ignored_without_uid (stub 0 none false) (flagsState "" "5" "") "wheel" rfl).1,
    (gid_flag_ignored_without_uid (stub 0 none false) (flagsState "" "5" "") "wheel" rfl).2.1,
    (gid_flag_ignored_without_uid (stub 0 none false) (flagsState "" "5" "") "wheel"
      rfl).2.2.2.1⟩

/-! ### The order of the late steps -/

/-- Where a late event can stand in a trace made of a part without late
events followed by a tail. -/
theorem late_split {pre post d0 tl : List Event} {e : Event}
    (h : pre ++ e :: post = d0 ++ tl) (h0 : ∀ x ∈ d0, x.isLate = false)
    (he : e.isLate = true) : ∃ k, pre = d0 ++ k ∧ tl = k ++ e :: post := by
  rcases List.append_eq_append_iff.1 h with ⟨a, h1, h2⟩ | ⟨a, h1, h2⟩
  · cases a with
    | nil =>
      refine ⟨[], ?_, ?_⟩
      · simpa using h1.symm
      · simpa using h2.symm
    | cons x a =>
      exfalso
      simp at h2
      have hx : e ∈ d0 := by
        rw [h1, h2.1]
        simp
      rw [h0 e hx] at he
      exact Bool.noConfusion he
  · exact ⟨a, h1, h2⟩

theorem split_one {a e : Event} {k post : List Event} (h : [a] = k ++ e :: post) :
    k = [] ∧ e = a ∧ post = [] := by
  cases k with
  | nil =>
    simp at h
    exact ⟨rfl, h.1.symm, by simpa using h.2⟩
  | cons x k1 =>
    simp at h

theorem split_two {a b e : Event} {k post : List Event} (h : [a, b] = k ++ e :: post) :
    (k = [] ∧ e = a ∧ post = [b]) ∨ (k = [a] ∧ e = b ∧ post = []) := by
  cases k with
  | nil =>
    simp at h
    exact Or.inl ⟨rfl, h.1.symm, by simpa [eq_comm] using h.2⟩
  | cons x k1 =>
    simp at h
    obtain ⟨h1, h2⟩ := h
    obtain ⟨e1, e2, e3⟩ := split_one h2
    subst e1 e2 e3 h1
    exact Or.inr ⟨rfl, rfl, rfl⟩

/-- Capability clearing comes after the transition, and only when the
transition reported no fatal error; nothing but the root check follows it. -/
theorem Run_caps_order {W : Type} {s : State W} {err : Option Error} {d : Bool}
    {tr : List Event} (h : Run s err d tr) (pre post : List Event) (x : Option Error)
    (hx : tr = pre ++ Event.capsDrop x :: post) :
    transitions post = 0 ∧ post.countP Event.isCapsDrop = 0
    ∧ (∀ y ∈ pre, y.isLate = false)
    ∧ (∀ u g path ce oe, Event.daemonDropPrivileges u g path ce oe ∈ pre →
        oe = none ∧ (ce = none ∨ ¬ (s.chrootFlag ≠ "" ∧ s.chrootFlag ≠ "/"))) := by
  have pre0 : ∀ d0, DroppedOk s d0 →
      (∀ y ∈ d0, y.isLate = false)
      ∧ (∀ u g path ce oe, Event.daemonDropPrivileges u g path ce oe ∈ d0 →
        oe = none ∧ (ce = none ∨ ¬ (s.chrootFlag ≠ "" ∧ s.chrootFlag ≠ "/"))) := by
    intro d0 h0
    refine ⟨DroppedOk_isLate h0, ?_⟩
    intro u g path ce oe hm
    have := DroppedOk_transition_mem h0 u g path ce oe hm
    exact ⟨this.1, this.2.2.1⟩
  cases h with
  | early e0 tr he =>
    exfalso
    have : Event.capsDrop x ∈ tr := by rw [hx]; simp
    exact not_mem_of_not_late (Early_isLate he) (Event.capsDrop x) rfl this
  | capsFailed d0 e0 h0 =>
    obtain ⟨k, hk1, hk2⟩ := late_split hx.symm (DroppedOk_isLate h0) rfl
    obtain ⟨e1, _, e3⟩ := split_one hk2
    subst e1 e3
    simp only [List.append_nil] at hk1
    rw [hk1]
    exact ⟨rfl, rfl, (pre0 d0 h0).1, (pre0 d0 h0).2⟩
  | stillRoot d0 h0 _ =>
    obtain ⟨k, hk1, hk2⟩ := late_split hx.symm (DroppedOk_isLate h0) rfl
    rcases split_two hk2 with ⟨e1, _, e3⟩ | ⟨_, e2, _⟩
    · subst e1 e3
      simp only [List.append_nil] at hk1
      rw [hk1]
      exact ⟨rfl, rfl, (pre0 d0 h0).1, (pre0 d0 h0).2⟩
    · exact Event.noConfusion e2
  | checked d0 h0 _ =>
    obtain ⟨k, hk1, hk2⟩ := late_split hx.symm (DroppedOk_isLate h0) rfl
    rcases split_two hk2 with ⟨e1, _, e3⟩ | ⟨_, e2, _⟩
    · subst e1 e3
      simp only [List.append_nil] at hk1
      rw [hk1]
      exact ⟨rfl, rfl, (pre0 d0 h0).1, (pre0 d0 h0).2⟩
    · exact Event.noConfusion e2
  | rootAllowed d0 h0 _ =>
    obtain ⟨k, hk1, hk2⟩ := late_split hx.symm (DroppedOk_isLate h0) rfl
    obtain ⟨e1, _, e3⟩ := split_one hk2
    subst e1 e3
    simp only [List.append_nil] at hk1
    rw [hk1]
    exact ⟨rfl, rfl, (pre0 d0 h0).1, (pre0 d0 h0).2⟩

/-- The root check is the last collaborator call and directly follows a
successful capability clearing. -/
theorem Run_root_order {W : Type} {s : State W} {err : Option Error} {d : Bool}
    {tr : List Event} (h : Run s err d tr) (pre post : List Event) (b : Bool)
    (hx : tr = pre ++ Event.isRoot b :: post) :
    post = [] ∧ ∃ pre1, pre = pre1 ++ [Event.capsDrop none]
      ∧ ∀ y ∈ pre1, y.isLate = false := by
  cases h with
  | early e0 tr he =>
    exfalso
    have : Event.isRoot b ∈ tr := by rw [hx]; simp
    exact not_mem_of_not_late (Early_isLate he) (Event.isRoot b) rfl this
  | capsFailed d0 e0 h0 =>
    obtain ⟨k, hk1, hk2⟩ := late_split hx.symm (DroppedOk_isLate h0) rfl
    obtain ⟨_, e2, _⟩ := split_one hk2
    exact Event.noConfusion e2
  | stillRoot d0 h0 _ =>
    obtain ⟨k, hk1, hk2⟩ := late_split hx.symm (DroppedOk_isLate h0) rfl
    rcases split_two hk2 with ⟨_, e2, _⟩ | ⟨e1, _, e3⟩
    · exact Event.noConfusion e2
    · subst e1 e3
      exact ⟨rfl, d0, hk1, DroppedOk_isLate h0⟩
  | checked d0 h0 _ =>
    obtain ⟨k, hk1, hk2⟩ := late_split hx.symm (DroppedOk_isLate h0) rfl
    rcases split_two hk2 with ⟨_, e2, _⟩ | ⟨e1, _, e3⟩
    · exact Event.noConfusion e2
    · subst e1 e3
      exact ⟨rfl, d0, hk1, DroppedOk_isLate h0⟩
  | rootAllowed d0 h0 _ =>
    obtain ⟨k, hk1, hk2⟩ := late_split hx.symm (DroppedOk_isLate h0) rfl
    obtain ⟨_, e2, _⟩ := split_one hk2
    exact Event.noConfusion e2

/-- C17: in the trace of every call of `DropPrivileges`: a `caps.Drop` call
is preceded by no other `caps.Drop` or `IsRoot` call, every transition call
stands before it and has returned without an identity error and without a
fatal chroot error, and none follows it; an `IsRoot` call stands directly
after a `caps.Drop` call that returned success, and is the last collaborator
call. -/
theorem step_ordering {W : Type} (c : Collab W) (s : State W) :
    (∀ pre post x, (DropPrivileges c s).trace = pre ++ Event.capsDrop x :: post →
      transitions post = 0 ∧ post.countP Event.isCapsDrop = 0
      ∧ (∀ y ∈ pre, y.isLate = false)
      ∧ (∀ u g path ce oe, Event.daemonDropPrivileges u g path ce oe ∈ pre →
          oe = none ∧ (ce = none ∨ ¬ (s.chrootFlag ≠ "" ∧ s.chrootFlag ≠ "/"))))
    ∧ (∀ pre post b, (DropPrivileges c s).trace = pre ++ Event.isRoot b :: post →
      post = [] ∧ ∃ pre1, pre = pre1 ++ [Event.capsDrop none]
        ∧ ∀ y ∈ pre1, y.isLate = false) := by
  by_cases hdt : s.dropped = true
  · rw [DropPrivileges_dropped c s hdt]
    constructor
    · intro pre post x hx
      simp at hx
    · intro pre post b hx
      simp at hx
  · have hd : s.dropped = false := by simpa using hdt
    have h := DropPrivileges_run c s hd
    exact ⟨fun pre post x hx => Run_caps_order h pre post x hx,
      fun pre post b hx => Run_root_order h pre post b hx⟩

/-- C17 (witness): the successful call with UID and GID "1000": the root
check is last and follows the successful `caps.Drop`, which follows the
transition. -/
theorem step_ordering_witness :
    (DropPrivileges (stub 0 none false) (flagsState "1000" "1000" "")).trace
      = [Event.banSuid, Event.parseUID "1000" 1000 none, Event.parseGID "1000" 1000 none,
          Event.daemonDropPrivileges 1000 1000 "/var/empty" none none, Event.capsDrop none]
        ++ Event.isRoot false :: []
    ∧ ([] : List Event) = []
    ∧ ∃ pre1, [Event.banSuid, Event.parseUID "1000" 1000 none, Event.parseGID "1000" 1000 none,
          Event.daemonDropPrivileges 1000 1000 "/var/empty" none none, Event.capsDrop none]
        = pre1 ++ [Event.capsDrop none] ∧ ∀ y ∈ pre1, y.isLate = false :=
  ⟨by decide,
    (step_ordering (stub 0 none false) (flagsState "1000" "1000" "")).2
      [Event.banSuid, Event.parseUID "1000" 1000 none, Event.parseGID "1000" 1000 none,
        Event.daemonDropPrivileges 1000 1000 "/var/empty" none none, Event.capsDrop none]
      [] false (by decide)⟩

/-! ### The decision to daemonize -/

theorem ForkOk_flag {W : Type} {s : State W} {f : List Event} {df : Bool}
    (h : ForkOk s f df) :
    (df = true ↔ (s.daemonizeFlag = true ∨ s.forkFlag = true))
    ∧ (f = [] ∨ f = [Event.fork false none]) := by
  cases h with
  | noFork h0 => simp [h0]
  | child h0 => simp [h0]

/-- The shape of every run that got past `daemon.Init`: the notification
follows, then `Daemonize` exactly when the daemon flag (set explicitly or by
fork mode) or `info.systemd` (set before, or by the notification) is true, then
the PID file and the entry point. -/
theorem MainRun_daemonize {W : Type} {s : State W} {o : Outcome} {tr : List Event}
    (h : MainRun s o tr) (hx : Event.daemonInit none ∈ tr) :
    ∃ f n dz rest,
      tr = f ++ [Event.daemonInit none, Event.sdnotifySend "\n" n] ++ dz ++ rest
      ∧ (f = [] ∨ f = [Event.fork false none])
      ∧ ((dz = [] ∧ ¬ (s.daemonizeFlag = true ∨ s.forkFlag = true ∨ s.info.systemd = true
            ∨ n = none))
        ∨ (∃ d, dz = [Event.daemonize d]
            ∧ (s.daemonizeFlag = true ∨ s.forkFlag = true ∨ s.info.systemd = true ∨ n = none)
            ∧ (d ≠ none → rest = [] ∧ o = Outcome.returned d)))
      ∧ (∀ e ∈ rest, e.isStartup = false ∧ e.isDaemonize = false)
      ∧ ((∃ x, Event.runInteractively x ∈ rest)
        ∨ (∃ e, Event.openPIDFile s.pidfileFlag (some e) ∈ rest ∧ o = Outcome.returned (some e))
        ∨ (∃ d e, dz = [Event.daemonize d] ∧ d = some e)) := by
  have cond : ∀ (f : List Event) (df : Bool) (n : Option Error), ForkOk s f df →
      ((df = true ∨ s.info.systemd = true ∨ n = none) ↔
        (s.daemonizeFlag = true ∨ s.forkFlag = true ∨ s.info.systemd = true ∨ n = none)) := by
    intro f df n hf
    rw [(ForkOk_flag hf).1]
    constructor
    · rintro ((h1 | h1) | h1 | h1)
      · exact Or.inl h1
      · exact Or.inr (Or.inl h1)
      · exact Or.inr (Or.inr (Or.inl h1))
      · exact Or.inr (Or.inr (Or.inr h1))
    · rintro (h1 | h1 | h1 | h1)
      · exact Or.inl (Or.inl h1)
      · exact Or.inl (Or.inr h1)
      · exact Or.inr (Or.inl h1)
      · exact Or.inr (Or.inr h1)
  have after : ∀ d0, DaemonOk s d0 → ∀ (rest : List Event) (d1 : Option Error),
      (∀ e ∈ rest, e.isStartup = false ∧ e.isDaemonize = false) →
      ((∃ x, Event.runInteractively x ∈ rest)
        ∨ (∃ e, Event.openPIDFile s.pidfileFlag (some e) ∈ rest
            ∧ o = Outcome.returned (some e))) →
      ∃ f n dz rest1,
        d0 ++ rest = f ++ [Event.daemonInit none, Event.sdnotifySend "\n" n] ++ dz ++ rest1
        ∧ (f = [] ∨ f = [Event.fork false none])
        ∧ ((dz = [] ∧ ¬ (s.daemonizeFlag = true ∨ s.forkFlag = true ∨ s.info.systemd = true
              ∨ n = none))
          ∨ (∃ d, dz = [Event.daemonize d]
              ∧ (s.daemonizeFlag = true ∨ s.forkFlag = true ∨ s.info.systemd = true
                ∨ n = none)
              ∧ (d ≠ none → rest1 = [] ∧ o = Outcome.returned d)))
        ∧ (∀ e ∈ rest1, e.isStartup = false ∧ e.isDaemonize = false)
        ∧ ((∃ x, Event.runInteractively x ∈ rest1)
          ∨ (∃ e, Event.openPIDFile s.pidfileFlag (some e) ∈ rest1
              ∧ o = Outcome.returned (some e))
          ∨ (∃ d e, dz = [Event.daemonize d] ∧ d = some e)) := by
    intro d0 h0 rest d1 hrest hend
    have hend1 : (∃ x, Event.runInteractively x ∈ rest)
        ∨ (∃ e, Event.openPIDFile s.pidfileFlag (some e) ∈ rest
            ∧ o = Outcome.returned (some e))
        ∨ (∃ d e, ([] : List Event) = [Event.daemonize d] ∧ d = some e) := by
      rcases hend with h1 | h1
      · exact Or.inl h1
      · exact Or.inr (Or.inl h1)
    have hend2 : (∃ x, Event.runInteractively x ∈ rest)
        ∨ (∃ e, Event.openPIDFile s.pidfileFlag (some e) ∈ rest
            ∧ o = Outcome.returned (some e))
        ∨ (∃ d e, [Event.daemonize none] = [Event.daemonize d] ∧ d = some e) := by
      rcases hend with h1 | h1
      · exact Or.inl h1
      · exact Or.inr (Or.inl h1)
    cases h0 with
    | foreground f df n hf hn =>
      exact ⟨f, n, [], rest, by simp, (ForkOk_flag hf).2,
        Or.inl ⟨rfl, fun hc => hn ((cond f df n hf).2 hc)⟩, hrest, hend1⟩
    | daemonized f df n hf hc =>
      exact ⟨f, n, [Event.daemonize none], rest, by simp, (ForkOk_flag hf).2,
        Or.inr ⟨none, rfl, (cond f df n hf).1 hc, fun hne => absurd rfl hne⟩, hrest, hend2⟩
  cases h with
  | forkFailed b e _ => simp at hx
  | parentExit _ => simp at hx
  | initFailed f df e h1 =>
    rcases (ForkOk_flag h1).2 with hf | hf <;> rw [hf] at hx <;> simp at hx
  | daemonizeFailed f df n e h1 hc =>
    exact ⟨f, n, [Event.daemonize (some e)], [], by simp, (ForkOk_flag h1).2,
      Or.inr ⟨some e, rfl, (cond f df n h1).1 hc, fun _ => ⟨rfl, rfl⟩⟩,
      by simp, Or.inr (Or.inr ⟨some e, e, rfl, rfl⟩)⟩
  | openFailed d0 e h0 _ =>
    exact after d0 h0 _ none
      (by intro y hy; simp at hy; subst hy; exact ⟨rfl, rfl⟩)
      (Or.inr ⟨e, by simp, rfl⟩)
  | ranWithPIDFile d0 x h0 _ =>
    exact after d0 h0 _ none
      (by
        intro y hy
        simp at hy
        rcases hy with hy | hy | hy <;> subst hy <;> exact ⟨rfl, rfl⟩)
      (Or.inl ⟨x, by simp⟩)
  | ran d0 x h0 _ =>
    exact after d0 h0 _ none
      (by intro y hy; simp at hy; subst hy; exact ⟨rfl, rfl⟩)
      (Or.inl ⟨x, by simp⟩)

theorem daemonizeCount_rest (rest : List Event)
    (h : ∀ e ∈ rest, e.isStartup = false ∧ e.isDaemonize = false) :
    rest.countP Event.isDaemonize = 0 := by
  simp only [List.countP_eq_zero]
  intro e he
  simp [(h e he).2]

/-- C15: in every call of `serviceMain` that got past `daemon.Init`, the
notification is sent next; `Daemonize` is invoked, at most once and before
PID-file acquisition and the entry point, exactly when the daemon flag is true
(set explicitly or by fork mode) or `info.systemd` is true (it is false in a
fresh `Info`, and the notification sets it on success); a failed notification
is not returned: with the daemon flag false the call goes on, without
`Daemonize`, to PID-file acquisition and the entry point. -/
theorem daemonize_decision {W : Type} (c : Collab W) (s : State W)
    (hx : Event.daemonInit none ∈ (serviceMain c s).trace) :
    ∃ f n dz rest,
      (serviceMain c s).trace
        = f ++ [Event.daemonInit none, Event.sdnotifySend "\n" n] ++ dz ++ rest
      ∧ (f = [] ∨ f = [Event.fork false none])
      ∧ (dz = [] ∨ ∃ d, dz = [Event.daemonize d])
      ∧ (∀ e ∈ rest, e.isStartup = false ∧ e.isDaemonize = false)
      ∧ ((∃ d, Event.daemonize d ∈ (serviceMain c s).trace) ↔
          (s.daemonizeFlag = true ∨ s.forkFlag = true ∨ s.info.systemd = true ∨ n = none))
      ∧ (s.info.systemd = false →
          ((∃ d, Event.daemonize d ∈ (serviceMain c s).trace) ↔
            (s.daemonizeFlag = true ∨ s.forkFlag = true ∨ n = none)))
      ∧ (serviceMain c s).trace.countP Event.isDaemonize ≤ 1
      ∧ (∀ e, n = some e → s.daemonizeFlag = false → s.forkFlag = false →
          s.info.systemd = false →
          (∀ d, Event.daemonize d ∉ (serviceMain c s).trace)
          ∧ ((∃ x, Event.runInteractively x ∈ (serviceMain c s).trace)
            ∨ (∃ e1, Event.openPIDFile s.pidfileFlag (some e1) ∈ (serviceMain c s).trace
                ∧ (serviceMain c s).outcome = Outcome.returned (some e1)))) := by
  obtain ⟨f, n, dz, rest, ht, hf, hdz, hrest, hend⟩ :=
    MainRun_daemonize (serviceMain_run c s) hx
  have hfm : ∀ d, Event.daemonize d ∉ f := by
    intro d hm
    rcases hf with h | h <;> rw [h] at hm <;> simp at hm
  have hiff : (∃ d, Event.daemonize d ∈ (serviceMain c s).trace) ↔
      (s.daemonizeFlag = true ∨ s.forkFlag = true ∨ s.info.systemd = true ∨ n = none) := by
    constructor
    · rintro ⟨d, hm⟩
      rw [ht] at hm
      simp only [List.mem_append] at hm
      rcases hm with ((hm | hm) | hm) | hm
      · exact absurd hm (hfm d)
      · simp at hm
      · rcases hdz with ⟨h1, _⟩ | ⟨d1, _, h2, _⟩
        · rw [h1] at hm; simp at hm
        · exact h2
      · exact absurd (hrest _ hm).2 (by simp [Event.isDaemonize])
    · intro hc
      rcases hdz with ⟨_, h2⟩ | ⟨d1, h1, _, _⟩
      · exact absurd hc h2
      · exact ⟨d1, by rw [ht, h1]; simp⟩
  have hshape : dz = [] ∨ ∃ d, dz = [Event.daemonize d] := by
    rcases hdz with ⟨h1, _⟩ | ⟨d1, h1, _, _⟩
    · exact Or.inl h1
    · exact Or.inr ⟨d1, h1⟩
  refine ⟨f, n, dz, rest, ht, hf, hshape, hrest, hiff, ?_, ?_, ?_⟩
  · intro hs
    rw [hiff]
    constructor
    · rintro (h | h | h | h)
      · exact Or.inl h
      · exact Or.inr (Or.inl h)
      · rw [hs] at h; exact Bool.noConfusion h
      · exact Or.inr (Or.inr h)
    · rintro (h | h | h)
      · exact Or.inl h
      · exact Or.inr (Or.inl h)
      · exact Or.inr (Or.inr (Or.inr h))
  · rw [ht]
    simp only [List.countP_append, daemonizeCount_rest rest hrest]
    have h1 : f.countP Event.isDaemonize = 0 := by
      rcases hf with h | h <;> rw [h] <;> rfl
    have h2 : dz.countP Event.isDaemonize ≤ 1 := by
      rcases hshape with h | ⟨d, h⟩ <;> rw [h] <;> simp [Event.isDaemonize]
    have h3 : [Event.daemonInit none, Event.sdnotifySend "\n" n].countP Event.isDaemonize
        = 0 := rfl
    omega
  · intro e hn hdf hff hs
    have hnc : ¬ (s.daemonizeFlag = true ∨ s.forkFlag = true ∨ s.info.systemd = true
        ∨ n = none) := by
      rw [hdf, hff, hs, hn]
      simp
    have hdz0 : dz = [] := by
      rcases hdz with ⟨h1, _⟩ | ⟨d1, _, h2, _⟩
      · exact h1
      · exact absurd h2 hnc
    refine ⟨fun d hm => hnc (hiff.1 ⟨d, hm⟩), ?_⟩
    rcases hend with ⟨x, hm⟩ | ⟨e1, hm, ho⟩ | ⟨d, e1, h1, _⟩
    · exact Or.inl ⟨x, by rw [ht]; exact List.mem_append_right _ hm⟩
    · exact Or.inr ⟨e1, by rw [ht]; exact List.mem_append_right _ hm, ho⟩
    · rw [hdz0] at h1
      simp at h1

/-- C15 (witness): no fork, daemon flag false, the notification fails: the
entry point runs and `Daemonize` is not invoked. -/
theorem daemonize_decision_witness :
    (mainState false "").daemonizeFlag = false ∧ (mainState false "").info.systemd = false
    ∧ Event.daemonInit none ∈ (serviceMain (mainStub false none none) (mainState false "")).trace
    ∧ (serviceMain (mainStub false none none) (mainState false "")).trace
        = [Event.daemonInit none, Event.sdnotifySend "\n" (some "no supervisor"),
            Event.runInteractively none]
    ∧ ∃ f n dz rest,
      (serviceMain (mainStub false none none) (mainState false "")).trace
        = f ++ [Event.daemonInit none, Event.sdnotifySend "\n" n] ++ dz ++ rest
      ∧ (f = [] ∨ f = [Event.fork false none])
      ∧ (dz = [] ∨ ∃ d, dz = [Event.daemonize d]) :=
  ⟨rfl, rfl, by decide, by decide,
    (daemonize_decision (mainStub false none none) (mainState false "") (by decide)).imp
      fun _ h => h.imp fun _ h => h.imp fun _ h => h.imp fun _ h => ⟨h.1, h.2.1, h.2.2.1⟩⟩

end Service

